import Mathlib

/-!
# Descriptor resource cache of Auto-Vk

A shallow embedding of the descriptor cache of `src/src/ak.cpp` and
`src/include/ak/descriptor_set.hpp`: allocation requests, descriptor pools with
their capacity accounting, the pool directory and the retry ladder of
`standard_descriptor_cache::alloc_new_descriptor_sets`, and
`root::get_or_create_descriptor_sets`.

Conventions of the embedding:

* `std::vector` is `List`; an index into a vector is a `Nat`.
* `uint32_t` values are `Nat`, arithmetic that can wrap is reduced with `u32`.
  The size of a vector is below `2 ^ 31`, so its conversions to `uint32_t` and
  to `int` are exact.
* A native Vulkan handle is an `Option Nat`, `none` being the null handle.
* A `std::shared_ptr<descriptor_pool>` is the index of the pool object in the
  heap `root.mHeap`; a `std::weak_ptr` is the same index, and it is expired when
  no owner holds the index any more.
* `assert` is a checked, fatal condition (`Err.assertion`).
* A C++ exception is an `Except` error; every stateful operation also returns
  the state it leaves behind, on failure as well.
-/

namespace ak

/-! ## Machine integers -/

/-- Reduction of a natural number to an unsigned 32-bit value. -/
def u32 (n : Nat) : Nat := n % 2 ^ 32

/-- The conversion `static_cast<int>` of an unsigned 32-bit value. -/
def toInt32 (n : Nat) : Int :=
  if u32 n < 2 ^ 31 then (u32 n : Int) else (u32 n : Int) - 2 ^ 32

/-! ## Allocation requests -/

/-- The Vulkan structure `vk::DescriptorPoolSize`: the ordinal of a descriptor
type (the underlying `int` of `vk::DescriptorType`) and a 32-bit count. -/
structure DescriptorPoolSize where
  type : Int
  descriptorCount : Nat
deriving DecidableEq, Repr, Inhabited

/-- The class `descriptor_alloc_request`, with the two members that
`src/src/ak.cpp` reads and writes. -/
structure descriptor_alloc_request where
  mAccumulatedSizes : List DescriptorPoolSize
  mNumSets : Nat
deriving DecidableEq, Repr, Inhabited

/-- Modelled from the spec: the accessor
`descriptor_alloc_request::accumulated_pool_sizes`, declared in a header that
is not part of the sources; it returns the accumulated per-kind requirements. -/
def descriptor_alloc_request.accumulated_pool_sizes (r : descriptor_alloc_request) :
    List DescriptorPoolSize := r.mAccumulatedSizes

/-- Modelled from the spec: the accessor `descriptor_alloc_request::num_sets`,
declared in a header that is not part of the sources; it returns the total
table count. -/
def descriptor_alloc_request.num_sets (r : descriptor_alloc_request) : Nat := r.mNumSets

/-- The body shared by the constructor loop and `add_size_requirements`
(ak.cpp 1477-1488 and 1495-1506): `std::lower_bound` by kind ordinal, then
accumulate into an entry of the same kind or insert before the found position.
The binary search is rendered as the scan for the first entry whose kind is not
smaller than the kind added, which is what it finds on the sorted vector. -/
def add_size_requirements_to : List DescriptorPoolSize → DescriptorPoolSize →
    List DescriptorPoolSize
  | [], aToAdd => [aToAdd]
  | it :: rest, aToAdd =>
    if it.type < aToAdd.type then it :: add_size_requirements_to rest aToAdd
    else if it.type = aToAdd.type then
      { it with descriptorCount := u32 (it.descriptorCount + aToAdd.descriptorCount) } :: rest
    else aToAdd :: it :: rest

/-- The method `descriptor_alloc_request::add_size_requirements`. -/
def descriptor_alloc_request.add_size_requirements (r : descriptor_alloc_request)
    (aToAdd : DescriptorPoolSize) : descriptor_alloc_request :=
  { r with mAccumulatedSizes := add_size_requirements_to r.mAccumulatedSizes aToAdd }

/-- The method `descriptor_alloc_request::multiply_size_requirements`
(ak.cpp 1509-1516): a copy with every count multiplied in 32-bit arithmetic. -/
def descriptor_alloc_request.multiply_size_requirements (r : descriptor_alloc_request)
    (mFactor : Nat) : descriptor_alloc_request :=
  let scaled := r.mAccumulatedSizes.map
    (fun sr => { sr with descriptorCount := u32 (sr.descriptorCount * mFactor) })
  { r with mAccumulatedSizes := scaled }

/-! ## Descriptor set layouts -/

/-- The Vulkan structure `vk::DescriptorSetLayoutBinding`, reduced to the slot
id, the kind ordinal and the count. -/
structure DescriptorSetLayoutBinding where
  binding : Nat
  descriptorType : Int
  descriptorCount : Nat
deriving DecidableEq, Repr, Inhabited

/-- Modelled from the spec: the class `descriptor_set_layout`, whose header is
not part of the sources. It holds the ordered (slot id, kind, count) triples,
the per-kind pool sizes a set of this layout needs, and the native layout
handle, absent until the layout has been allocated. -/
structure descriptor_set_layout where
  mOrderedBindings : List DescriptorSetLayoutBinding
  mBindingRequirements : List DescriptorPoolSize
  mLayout : Option Nat
deriving DecidableEq, Repr, Inhabited

/-- Modelled from the spec: the accessor
`descriptor_set_layout::required_pool_sizes`, which returns the per-kind pool
sizes a set of this layout needs. -/
def descriptor_set_layout.required_pool_sizes (l : descriptor_set_layout) :
    List DescriptorPoolSize := l.mBindingRequirements

/-- Modelled from the spec: the accessor `descriptor_set_layout::handle`, which
returns the native layout handle. -/
def descriptor_set_layout.handle (l : descriptor_set_layout) : Option Nat := l.mLayout

/-- The constructor `descriptor_alloc_request(aLayouts)` (ak.cpp 1470-1491). -/
def descriptor_alloc_request.ofLayouts (aLayouts : List descriptor_set_layout) :
    descriptor_alloc_request :=
  let accumulated := aLayouts.foldl
    (fun acc layout => layout.required_pool_sizes.foldl add_size_requirements_to acc) []
  { mNumSets := aLayouts.length, mAccumulatedSizes := accumulated }

/-! ## Descriptor pools -/

/-- The class `descriptor_pool`, with the members that `src/src/ak.cpp` reads
and writes: initial and remaining capacities, initial and remaining number of
sets (both `int`), and the native pool handle. -/
structure descriptor_pool where
  mInitialCapacities : List DescriptorPoolSize
  mRemainingCapacities : List DescriptorPoolSize
  mNumInitialSets : Int
  mNumRemainingSets : Int
  mDescriptorPool : Option Nat
deriving DecidableEq, Repr, Inhabited

/-- The loop of `descriptor_pool::has_capacity_for` (ak.cpp 1558-1572) with the
cursors `n` and `h`. Every iteration that continues advances `h`, so the first
argument, the number of iterations still allowed, is never used up when it
starts at `H - h`. The count is read at `weHave[n]`, as in the source. -/
def has_capacity_for_loop (weNeed weHave : List DescriptorPoolSize) : Nat → Nat → Nat → Bool
  | 0, n, h => decide (n = h)
  | fuel + 1, n, h =>
    if n < weNeed.length ∧ h < weHave.length then
      let needType := (weNeed.getD n default).type
      let haveType := (weHave.getD h default).type
      if haveType < needType then
        has_capacity_for_loop weNeed weHave fuel n (h + 1)
      else if needType = haveType ∧
          (weNeed.getD n default).descriptorCount ≤ (weHave.getD n default).descriptorCount then
        has_capacity_for_loop weNeed weHave fuel (n + 1) (h + 1)
      else false
    else decide (n = h)

/-- The method `descriptor_pool::has_capacity_for` (ak.cpp 1546-1573). -/
def descriptor_pool.has_capacity_for (p : descriptor_pool) (pRequest : descriptor_alloc_request) :
    Bool :=
  has_capacity_for_loop pRequest.accumulated_pool_sizes p.mRemainingCapacities
    p.mRemainingCapacities.length 0 0

/-- The errors of the native allocator: `vk::OutOfPoolMemoryError` and every
other `vk::SystemError`, the latter with its result code. -/
inductive VkError where
  | outOfPoolMemory
  | other (code : Nat)
deriving DecidableEq, Repr, Inhabited

/-- The fatal outcomes of an operation of the cache. -/
inductive Err where
  | assertion
  | vulkan (e : VkError)
  | diverges
deriving DecidableEq, Repr, Inhabited

/-- The statistics update for one required pool size (ak.cpp 1615-1623):
`std::find_if` for the first remaining capacity of the same kind, which is then
decremented by the required count, clamped at the count it holds. -/
def update_remaining : List DescriptorPoolSize → DescriptorPoolSize → List DescriptorPoolSize
  | [], _ => []
  | el :: rest, dps =>
    if el.type = dps.type then
      { el with descriptorCount := el.descriptorCount - min dps.descriptorCount el.descriptorCount }
        :: rest
    else el :: update_remaining rest dps

/-- The statistics loop of `descriptor_pool::allocate` (ak.cpp 1613-1625). -/
def update_pool_stats (caps : List DescriptorPoolSize) (aLayouts : List descriptor_set_layout) :
    List DescriptorPoolSize :=
  aLayouts.foldl (fun acc dsl => dsl.required_pool_sizes.foldl update_remaining acc) caps

/-- The method `descriptor_pool::allocate` (ak.cpp 1575-1630). The answer of
`vk::Device::allocateDescriptorSets` is the argument `native`; when it is an
error the exception leaves the method before the statistics are touched. -/
def descriptor_pool.allocate (p : descriptor_pool) (aLayouts : List descriptor_set_layout)
    (native : Except VkError (List Nat)) : Except Err (List Nat × descriptor_pool) :=
  if p.mDescriptorPool.isNone then .error .assertion
  else
    match native with
    | .error e => .error (.vulkan e)
    | .ok result =>
      .ok (result,
        { p with
          mRemainingCapacities := update_pool_stats p.mRemainingCapacities aLayouts
          mNumRemainingSets := p.mNumRemainingSets - (aLayouts.length : Int) })

/-! ## Descriptor sets -/

/-- The Vulkan structure `vk::DescriptorImageInfo`. -/
structure DescriptorImageInfo where
  sampler : Nat
  imageView : Nat
  imageLayout : Int
deriving DecidableEq, Repr, Inhabited

/-- The Vulkan structure `vk::DescriptorBufferInfo`. -/
structure DescriptorBufferInfo where
  buffer : Nat
  offset : Nat
  range : Nat
deriving DecidableEq, Repr, Inhabited

/-- The Vulkan structure `vk::WriteDescriptorSetAccelerationStructureKHR` as
seen through a pointer to it: its count field and the handle array that
`pAccelerationStructures` points to. -/
structure WriteDescriptorSetAccelerationStructureKHR where
  accelerationStructureCount : Nat
  pAccelerationStructures : List Nat
deriving DecidableEq, Repr, Inhabited

/-- The Vulkan structure `vk::WriteDescriptorSet`. A pointer member is the
array it points to, `none` being `nullptr`. -/
structure WriteDescriptorSet where
  dstSet : Option Nat
  dstBinding : Nat
  dstArrayElement : Nat
  descriptorCount : Nat
  descriptorType : Int
  pImageInfo : Option (List DescriptorImageInfo)
  pBufferInfo : Option (List DescriptorBufferInfo)
  pTexelBufferView : Option (List Nat)
  pNext : Option WriteDescriptorSetAccelerationStructureKHR
deriving DecidableEq, Repr, Inhabited

/-- The class `descriptor_set` (descriptor_set.hpp 134-145). `mPool` is the
shared pointer to the owning pool. -/
structure descriptor_set where
  mOrderedDescriptorDataWrites : List WriteDescriptorSet
  mPool : Option Nat
  mDescriptorSet : Option Nat
  mSetId : Nat
  mStoredImageInfos : List (Nat × List DescriptorImageInfo)
  mStoredBufferInfos : List (Nat × List DescriptorBufferInfo)
  mStoredBufferViews : List (Nat × List Nat)
  mStoredAccelerationStructureWrites : List (Nat × WriteDescriptorSetAccelerationStructureKHR)
deriving DecidableEq, Repr, Inhabited

/-- The default constructor `descriptor_set()`. The source leaves `mSetId`
uninitialised; it is 0 here. -/
def descriptor_set.empty : descriptor_set :=
  { mOrderedDescriptorDataWrites := [], mPool := none, mDescriptorSet := none, mSetId := 0,
    mStoredImageInfos := [], mStoredBufferInfos := [], mStoredBufferViews := [],
    mStoredAccelerationStructureWrites := [] }

/-- The accessor `descriptor_set::handle`. -/
def descriptor_set.handle (s : descriptor_set) : Option Nat := s.mDescriptorSet

/-- The accessor `descriptor_set::set_id`. -/
def descriptor_set.set_id (s : descriptor_set) : Nat := s.mSetId

/-- The ordinal of `vk::DescriptorType::eAccelerationStructureKHR` in the
Vulkan headers the library is built against. -/
def eAccelerationStructureKHR : Int := 1000165000

/-- The inner loops of `operator==` (descriptor_set.hpp 159-161, 165-167,
171-173, 181-183): the first `count` elements behind two pointers agree. An
index past the end of an array reads nothing on that side. -/
def first_elements_agree {α : Type} [DecidableEq α] (count : Nat) (l r : List α) : Bool :=
  (List.range count).all (fun j => decide (l[j]? = r[j]?))

/-- The body of the loop of `operator==` for one pair of writes
(descriptor_set.hpp 153-185): `false` where the source returns `false`. -/
def writes_agree (l r : WriteDescriptorSet) : Bool :=
  if l.dstBinding ≠ r.dstBinding then false
  else if l.dstArrayElement ≠ r.dstArrayElement then false
  else if l.descriptorCount ≠ r.descriptorCount then false
  else if l.descriptorType ≠ r.descriptorType then false
  else
    (match l.pImageInfo with
      | none => true
      | some li =>
        match r.pImageInfo with
        | none => false
        | some ri => first_elements_agree l.descriptorCount li ri) &&
    (match l.pBufferInfo with
      | none => true
      | some lb =>
        match r.pBufferInfo with
        | none => false
        | some rb => first_elements_agree l.descriptorCount lb rb) &&
    (match l.pTexelBufferView with
      | none => true
      | some lt =>
        match r.pTexelBufferView with
        | none => false
        | some rt => first_elements_agree l.descriptorCount lt rt) &&
    (match l.pNext with
      | none => true
      | some asInfoLeft =>
        match r.pNext with
        | none => false
        | some asInfoRight =>
          if l.descriptorType = eAccelerationStructureKHR then
            if asInfoLeft.accelerationStructureCount ≠ asInfoRight.accelerationStructureCount
            then false
            else first_elements_agree asInfoLeft.accelerationStructureCount
              asInfoLeft.pAccelerationStructures asInfoRight.pAccelerationStructures
          else true)

/-- The comparison `operator==` of two descriptor sets
(descriptor_set.hpp 147-188). -/
def descriptor_set.eq (left right : descriptor_set) : Bool :=
  if left.mOrderedDescriptorDataWrites.length ≠ right.mOrderedDescriptorDataWrites.length then
    false
  else
    (left.mOrderedDescriptorDataWrites.zip right.mOrderedDescriptorDataWrites).all
      (fun lr => writes_agree lr.1 lr.2)

/-- The `std::find_if` of `update_data_pointers` over one of the stored
vectors: the data of the first entry stored for the binding, or `nullptr`. -/
def stored_for {α : Type} (stored : List (Nat × α)) (binding : Nat) : Option α :=
  (stored.find? (fun element => element.1 == binding)).map (fun element => element.2)

/-- The assignments of `update_data_pointers` (ak.cpp 1879-1917): every write
gets its four pointers set to the data stored for its binding. -/
def descriptor_set.with_data_pointers (s : descriptor_set) : descriptor_set :=
  { s with
    mOrderedDescriptorDataWrites := s.mOrderedDescriptorDataWrites.map (fun w =>
      { w with
        pImageInfo := stored_for s.mStoredImageInfos w.dstBinding
        pBufferInfo := stored_for s.mStoredBufferInfos w.dstBinding
        pNext := stored_for s.mStoredAccelerationStructureWrites w.dstBinding
        pTexelBufferView := stored_for s.mStoredBufferViews w.dstBinding }) }

/-- The method `descriptor_set::update_data_pointers` (ak.cpp 1875-1919),
including its assertion that all writes name the destination set of the
first write. -/
def descriptor_set.update_data_pointers (s : descriptor_set) : Except Err descriptor_set :=
  if s.mOrderedDescriptorDataWrites.all
      (fun w => decide (some w.dstSet = s.mOrderedDescriptorDataWrites.head?.map (fun w0 => w0.dstSet)))
  then .ok s.with_data_pointers
  else .error .assertion

/-- The method `descriptor_set::link_to_handle_and_pool` (ak.cpp 1921-1928). -/
def descriptor_set.link_to_handle_and_pool (s : descriptor_set) (aHandle : Option Nat)
    (aPool : Option Nat) : descriptor_set :=
  { s with
    mDescriptorSet := aHandle
    mOrderedDescriptorDataWrites :=
      s.mOrderedDescriptorDataWrites.map (fun w => { w with dstSet := aHandle })
    mPool := aPool }

/-- The method `descriptor_set::write_descriptors` (ak.cpp 1930-1935): the
assertion on the handle and the refresh of the data pointers; the native
`updateDescriptorSets` call returns nothing and changes nothing modelled. -/
def descriptor_set.write_descriptors (s : descriptor_set) : Except Err descriptor_set :=
  if s.mDescriptorSet.isNone then .error .assertion
  else s.update_data_pointers

/-! ## Binding data -/

/-- Modelled from the spec: the resource handles of a binding description,
whose class `binding_data` is declared in a header that is not part of the
sources: none at all (a binding description holds zero or more handles, and
`binding_data{ setId }` of ak.cpp 1960 is built from a set id alone), images
(view, sampler, layout), buffers (handle, offset, range), texel buffer views,
or acceleration structures. -/
inductive binding_resource where
  | absent
  | images (infos : List DescriptorImageInfo)
  | buffers (infos : List DescriptorBufferInfo)
  | buffer_views (views : List Nat)
  | acceleration_structures (handles : List Nat)
deriving DecidableEq, Repr, Inhabited

/-- Modelled from the spec: the class `binding_data`, a binding description of
set id, slot description (slot id, kind, count) and resource handles. -/
structure binding_data where
  mSetId : Nat
  mLayoutBinding : DescriptorSetLayoutBinding
  mResourcePtr : binding_resource
deriving DecidableEq, Repr, Inhabited

/-- Modelled from the spec: `operator<` of `binding_data`, the order by set id
and then by slot id that the sorted insertion of the bindings uses. -/
def binding_data.lt (first second : binding_data) : Bool :=
  decide (first.mSetId < second.mSetId) ||
    (decide (first.mSetId = second.mSetId) &&
      decide (first.mLayoutBinding.binding < second.mLayoutBinding.binding))

/-- Modelled from the spec: `binding_data::descriptor_count`, the array size of
the binding. -/
def binding_data.descriptor_count (b : binding_data) : Nat := b.mLayoutBinding.descriptorCount

/-- Modelled from the spec: `binding_data::descriptor_image_info`, which stores
the image infos of an image binding in the set (`store_image_infos`,
descriptor_set.hpp 28-32) and returns the pointer to them, `nullptr` for other
resources. -/
def binding_data.descriptor_image_info (b : binding_data) (s : descriptor_set) :
    Option (List DescriptorImageInfo) × descriptor_set :=
  match b.mResourcePtr with
  | .images infos =>
    (some infos,
      { s with mStoredImageInfos := s.mStoredImageInfos ++ [(b.mLayoutBinding.binding, infos)] })
  | _ => (none, s)

/-- Modelled from the spec: `binding_data::descriptor_buffer_info`, with
`store_buffer_infos` (descriptor_set.hpp 34-38). -/
def binding_data.descriptor_buffer_info (b : binding_data) (s : descriptor_set) :
    Option (List DescriptorBufferInfo) × descriptor_set :=
  match b.mResourcePtr with
  | .buffers infos =>
    (some infos,
      { s with mStoredBufferInfos := s.mStoredBufferInfos ++ [(b.mLayoutBinding.binding, infos)] })
  | _ => (none, s)

/-- Modelled from the spec: `binding_data::texel_buffer_view_info`, with
`store_buffer_views` (descriptor_set.hpp 57-61). -/
def binding_data.texel_buffer_view_info (b : binding_data) (s : descriptor_set) :
    Option (List Nat) × descriptor_set :=
  match b.mResourcePtr with
  | .buffer_views views =>
    (some views,
      { s with mStoredBufferViews := s.mStoredBufferViews ++ [(b.mLayoutBinding.binding, views)] })
  | _ => (none, s)

/-- Modelled from the spec: `binding_data::next_pointer`, with
`store_acceleration_structure_infos` (descriptor_set.hpp 40-55), which gathers
the handles into one write whose count is the number of handles. -/
def binding_data.next_pointer (b : binding_data) (s : descriptor_set) :
    Option WriteDescriptorSetAccelerationStructureKHR × descriptor_set :=
  match b.mResourcePtr with
  | .acceleration_structures handles =>
    let oneAndOnlyWrite : WriteDescriptorSetAccelerationStructureKHR :=
      { accelerationStructureCount := handles.length, pAccelerationStructures := handles }
    (some oneAndOnlyWrite,
      { s with mStoredAccelerationStructureWrites :=
          s.mStoredAccelerationStructureWrites ++ [(b.mLayoutBinding.binding, oneAndOnlyWrite)] })
  | _ => (none, s)

/-- The loop of `descriptor_set::prepare` (descriptor_set.hpp 105-125) over the
bindings from `it` on, with the three assertions of its body. -/
def descriptor_set.prepare_loop (beginSetId : Nat) :
    List binding_data → descriptor_set → Except Err descriptor_set
  | [], result => .ok result
  | b :: rest, result =>
    if beginSetId ≠ b.mSetId then .error .assertion
    else if (match rest with
        | [] => false
        | next :: _ => decide (b.mLayoutBinding.binding = next.mLayoutBinding.binding)) then
      .error .assertion
    else if (match rest with
        | [] => false
        | next :: _ => decide (¬ b.mLayoutBinding.binding < next.mLayoutBinding.binding)) then
      .error .assertion
    else
      let (pImageInfo, result1) := b.descriptor_image_info result
      let (pBufferInfo, result2) := b.descriptor_buffer_info result1
      let (pTexelBufferView, result3) := b.texel_buffer_view_info result2
      let (pNext, result4) := b.next_pointer result3
      let w : WriteDescriptorSet :=
        { dstSet := none
          dstBinding := b.mLayoutBinding.binding
          dstArrayElement := 0
          descriptorCount := b.descriptor_count
          descriptorType := b.mLayoutBinding.descriptorType
          pImageInfo := pImageInfo
          pBufferInfo := pBufferInfo
          pTexelBufferView := pTexelBufferView
          pNext := pNext }
      descriptor_set.prepare_loop beginSetId rest
        { result4 with
          mOrderedDescriptorDataWrites := result4.mOrderedDescriptorDataWrites ++ [w] }

/-- The function `descriptor_set::prepare(begin, end)` (descriptor_set.hpp
98-129) on the non-empty range `first :: rest`. -/
def descriptor_set.prepare (first : binding_data) (rest : List binding_data) :
    Except Err descriptor_set :=
  match descriptor_set.prepare_loop first.mSetId (first :: rest)
      { descriptor_set.empty with mSetId := first.mSetId } with
  | .error e => .error e
  | .ok result => result.update_data_pointers

/-- The slot-ordering invariant of a range of bindings: every slot id is
smaller than the slot id of the next binding. -/
def strictly_increasing_slots : List binding_data → Bool
  | [] => true
  | [_] => true
  | b :: next :: rest =>
    decide (b.mLayoutBinding.binding < next.mLayoutBinding.binding) &&
      strictly_increasing_slots (next :: rest)

/-- Modelled from the spec: `descriptor_set_layout::prepare(begin, end)`, whose
header is not part of the sources. It asserts the slot-ordering invariant
(strictly increasing slot ids), keeps the (slot id, kind, count) triples in
order and accumulates the per-kind pool sizes, sorted by kind. -/
def descriptor_set_layout.prepare (range : List binding_data) : Except Err descriptor_set_layout :=
  if strictly_increasing_slots range then
    .ok
      { mOrderedBindings := range.map (fun b => b.mLayoutBinding)
        mBindingRequirements :=
          range.foldl (fun acc b => add_size_requirements_to acc
            { type := b.mLayoutBinding.descriptorType
              descriptorCount := b.mLayoutBinding.descriptorCount }) []
        mLayout := none }
  else .error .assertion

/-- Modelled from the spec: equality of layout schemas, which holds exactly
when the ordered (slot id, kind, count) sequences are equal. -/
def descriptor_set_layout.eq (a b : descriptor_set_layout) : Bool :=
  decide (a.mOrderedBindings = b.mOrderedBindings)

/-! ## The root object and its descriptor cache -/

/-- The key `pool_id` of the pool directory: calling thread and pool name. -/
structure pool_id where
  mThreadId : Nat
  mName : Int
deriving DecidableEq, Repr, Inhabited

/-- One call of `vk::Device::allocateDescriptorSets`: the pool it was issued
against (its index in the heap) and the native layout handles passed. -/
structure carve_call where
  pool : Nat
  setLayouts : List (Option Nat)
deriving DecidableEq, Repr, Inhabited

/-- The state behind a `root`: the members of its `standard_descriptor_cache`
(`mLayouts`, `mSets`, `mDescriptorPools`), the heap of pool objects that the
shared pointers refer to, the pools kept alive by descriptor sets that callers
hold, the device (next fresh native handle, the calls of
`allocateDescriptorSets` issued so far, the vendor id), and the constant
`sDescriptorPoolPreallocFactor`, whose declaration is not part of the sources.
The two hashed sets are lists in insertion order. -/
structure root where
  mLayouts : List descriptor_set_layout
  mSets : List descriptor_set
  mDescriptorPools : List (pool_id × List Nat)
  mHeap : List descriptor_pool
  mHeldByCallers : List Nat
  mNextHandle : Nat
  mCarveCalls : List carve_call
  vendorID : Nat
  sDescriptorPoolPreallocFactor : Nat
deriving DecidableEq, Repr, Inhabited

/-- The answers of the native allocator: the result of the `k`-th call of
`vk::Device::allocateDescriptorSets`, counted from zero. Every deterministic
backend induces such a sequence on a run, so a statement for all sequences is a
statement for all backends. -/
abbrev native_allocator := Nat → Except VkError (List Nat)

/-- The method `root::create_descriptor_pool` (ak.cpp 1520-1544); the native
pool is created with a fresh handle. -/
def root.create_descriptor_pool (r : root) (aSizeRequirements : List DescriptorPoolSize)
    (aNumSets : Int) : descriptor_pool × root :=
  ({ mInitialCapacities := aSizeRequirements
     mRemainingCapacities := aSizeRequirements
     mNumInitialSets := aNumSets
     mNumRemainingSets := aNumSets
     mDescriptorPool := some r.mNextHandle },
   { r with mNextHandle := r.mNextHandle + 1 })

/-- The method `root::allocate_descriptor_set_layout` (ak.cpp 1634-1646). -/
def root.allocate_descriptor_set_layout (r : root) (aLayoutToBeAllocated : descriptor_set_layout) :
    descriptor_set_layout × root :=
  if aLayoutToBeAllocated.mLayout.isNone then
    ({ aLayoutToBeAllocated with mLayout := some r.mNextHandle },
     { r with mNextHandle := r.mNextHandle + 1 })
  else (aLayoutToBeAllocated, r)

/-- The method `standard_descriptor_cache::get_or_alloc_layout`
(ak.cpp 1723-1736). -/
def root.get_or_alloc_layout (r : root) (aPreparedLayout : descriptor_set_layout) :
    Except Err descriptor_set_layout × root :=
  match r.mLayouts.find? (fun l => aPreparedLayout.eq l) with
  | some it => if it.handle.isNone then (.error .assertion, r) else (.ok it, r)
  | none =>
    let (allocated, r1) := r.allocate_descriptor_set_layout aPreparedLayout
    if r1.mLayouts.any (fun l => allocated.eq l) then (.error .assertion, r1)
    else (.ok allocated, { r1 with mLayouts := r1.mLayouts ++ [allocated] })

/-- The method `standard_descriptor_cache::get_descriptor_set_from_cache`
(ak.cpp 1738-1746). -/
def root.get_descriptor_set_from_cache (r : root) (aPreparedSet : descriptor_set) :
    Option descriptor_set :=
  r.mSets.find? (fun s => aPreparedSet.eq s)

/-- Expiry of a weak pointer to the pool at `address`: no strong owner is
left, neither a descriptor set of the cache, nor a descriptor set held by a
caller, nor one of the shared pointers `locals` on the call stack. -/
def root.expired (r : root) (locals : List Nat) (address : Nat) : Bool :=
  !(locals.contains address || r.mHeldByCallers.contains address ||
    r.mSets.any (fun s => s.mPool == some address))

/-- The vector stored in the pool directory for a key, empty when the key has
no entry yet (`mDescriptorPools[pId]`). -/
def bucket_of (directory : List (pool_id × List Nat)) (pId : pool_id) : List Nat :=
  ((directory.find? (fun entry => entry.1 == pId)).map (fun entry => entry.2)).getD []

/-- The pool directory with the vector of one key replaced. -/
def set_bucket : List (pool_id × List Nat) → pool_id → List Nat → List (pool_id × List Nat)
  | [], pId, pools => [(pId, pools)]
  | entry :: rest, pId, pools =>
    if entry.1 = pId then (pId, pools) :: rest else entry :: set_bucket rest pId pools

/-- The pool object that `get_descriptor_pool_for_layouts` creates
(ak.cpp 1850-1865): `create_descriptor_pool` with the vendor-dependent sizes
and number of sets, then `set_remaining_capacities` with the amplified sizes. -/
def root.new_pool_for (r : root) (aAllocRequest : descriptor_alloc_request) :
    descriptor_pool × root :=
  let isNvidia := decide (0x12d2 = r.vendorID)
  let amplifiedAllocRequest :=
    aAllocRequest.multiply_size_requirements r.sDescriptorPoolPreallocFactor
  let (newPool, r1) := r.create_descriptor_pool
    (if isNvidia then aAllocRequest.accumulated_pool_sizes
      else amplifiedAllocRequest.accumulated_pool_sizes)
    (if isNvidia then toInt32 (aAllocRequest.num_sets * r.sDescriptorPoolPreallocFactor)
      else toInt32 (aAllocRequest.num_sets * r.sDescriptorPoolPreallocFactor * 2))
  ({ newPool with mRemainingCapacities := amplifiedAllocRequest.accumulated_pool_sizes }, r1)

/-- The cleanup at the start of `get_descriptor_pool_for_layouts`
(ak.cpp 1826-1831): the vector of the key without its expired pointers. -/
def root.surviving_pools (r : root) (locals : List Nat) (pId : pool_id) : List Nat :=
  (bucket_of r.mDescriptorPools pId).filter (fun ptr => !r.expired locals ptr)

/-- The scan of `get_descriptor_pool_for_layouts` (ak.cpp 1835-1841): the first
pool of the vector that has capacity for the request. -/
def root.find_pool_with_capacity (r : root) (pools : List Nat)
    (aAllocRequest : descriptor_alloc_request) : Option Nat :=
  pools.find? (fun pool =>
    match r.mHeap[pool]? with
    | some sptr => sptr.has_capacity_for aAllocRequest
    | none => false)

/-- The method `standard_descriptor_cache::get_descriptor_pool_for_layouts`
(ak.cpp 1822-1871), called on thread `tid` while the caller holds the shared
pointers `locals`. It returns the pool as its index in the heap. -/
def root.get_descriptor_pool_for_layouts (r : root) (tid : Nat) (locals : List Nat)
    (aAllocRequest : descriptor_alloc_request) (aPoolName : Int) (aRequestNewPool : Bool) :
    Nat × root :=
  let pId : pool_id := { mThreadId := tid, mName := aPoolName }
  let pools := r.surviving_pools locals pId
  let found :=
    if aRequestNewPool then none else r.find_pool_with_capacity pools aAllocRequest
  match found with
  | some sptr => (sptr, { r with mDescriptorPools := set_bucket r.mDescriptorPools pId pools })
  | none =>
    let (newPool, r1) := r.new_pool_for aAllocRequest
    (r1.mHeap.length,
      { r1 with
        mHeap := r1.mHeap ++ [newPool]
        mDescriptorPools := set_bucket r1.mDescriptorPools pId (pools ++ [r1.mHeap.length]) })

/-- The state after one more call of `vk::Device::allocateDescriptorSets`,
issued against the pool at `address` for the given layouts. -/
def root.with_carve_call (r : root) (address : Nat) (aLayouts : List descriptor_set_layout) :
    root :=
  { r with mCarveCalls :=
      r.mCarveCalls ++ [{ pool := address, setLayouts := aLayouts.map (fun l => l.handle) }] }

/-- The call `poolToTry->allocate(aLayouts)` on the pool object at `address`:
`descriptor_pool::allocate` with the next answer of the native allocator, the
call being recorded when the native call is reached. -/
def root.allocate_from (r : root) (native : native_allocator) (address : Nat)
    (aLayouts : List descriptor_set_layout) : Except Err (List Nat) × root :=
  match r.mHeap[address]? with
  | none => (.error .assertion, r)
  | some p =>
    let r1 := if p.mDescriptorPool.isNone then r else r.with_carve_call address aLayouts
    match p.allocate aLayouts (native r.mCarveCalls.length) with
    | .error e => (.error e, r1)
    | .ok (result, p1) => (.ok result, { r1 with mHeap := r1.mHeap.set address p1 })

/-- The pool name `'stch'` used by `alloc_new_descriptor_sets`, as the value of
the multi-character literal. -/
def stch : Int := 0x73746368

/-- The `catch` block of the retry loop of `alloc_new_descriptor_sets`
(ak.cpp 1783-1794) for the value `maxTries` has inside the loop body. The
`switch` has no `break`: `case 1` doubles the request, selects a pool for it
and falls through to the `default` label, which requests a new pool. During
the calls the caller still holds `poolToTry`. -/
def root.on_out_of_pool_memory (r : root) (tid : Nat) (maxTries : Nat)
    (allocRequest : descriptor_alloc_request) (poolToTry : Nat) :
    descriptor_alloc_request × Nat × root :=
  if maxTries = 1 then
    let allocRequest1 := allocRequest.multiply_size_requirements 2
    let (poolToTry1, r1) :=
      r.get_descriptor_pool_for_layouts tid [poolToTry] allocRequest1 stch false
    let (poolToTry2, r2) :=
      r1.get_descriptor_pool_for_layouts tid [poolToTry1] allocRequest1 stch true
    (allocRequest1, poolToTry2, r2)
  else
    let (poolToTry1, r1) :=
      r.get_descriptor_pool_for_layouts tid [poolToTry] allocRequest stch true
    (allocRequest, poolToTry1, r1)

/-- The retry loop of `alloc_new_descriptor_sets` (ak.cpp 1773-1795). The first
argument is the value of `maxTries` when the loop condition is evaluated; the
result is the pair of `pool` and `setHandles` the loop leaves behind, `none`
when the tries are used up. -/
def root.retry_loop (native : native_allocator) (tid : Nat)
    (aLayouts : List descriptor_set_layout) (numPreparedSets : Nat) :
    Nat → root → descriptor_alloc_request → Nat → Except Err (Option (Nat × List Nat)) × root
  | 0, r, _, _ => (.ok none, r)
  | maxTries + 1, r, allocRequest, poolToTry =>
    match r.mHeap[poolToTry]? with
    | none => (.error .assertion, r)
    | some p =>
      if !p.has_capacity_for allocRequest then (.error .assertion, r)
      else
        match r.allocate_from native poolToTry aLayouts with
        | (.ok setHandles, r1) =>
          if setHandles.length ≠ numPreparedSets then (.error .assertion, r1)
          else (.ok (some (poolToTry, setHandles)), r1)
        | (.error (.vulkan .outOfPoolMemory), r1) =>
          match r1.on_out_of_pool_memory tid maxTries allocRequest poolToTry with
          | (allocRequest1, poolToTry1, r2) =>
            root.retry_loop native tid aLayouts numPreparedSets maxTries r2 allocRequest1 poolToTry1
        | (.error e, r1) => (.error e, r1)

/-- The completion of one prepared set in `alloc_new_descriptor_sets`
(ak.cpp 1801-1810): link, refresh the data pointers, write, insert into the set
cache with the assertion that the insertion took place, and return the copy. -/
def root.complete_and_insert (r : root) (pool : Nat) (setToBeCompleted : descriptor_set)
    (setHandle : Nat) : Except Err descriptor_set × root :=
  let linked := setToBeCompleted.link_to_handle_and_pool (some setHandle) (some pool)
  match linked.update_data_pointers with
  | .error e => (.error e, r)
  | .ok updated =>
    match updated.write_descriptors with
    | .error e => (.error e, r)
    | .ok written =>
      if r.mSets.any (fun s => written.eq s) then (.error .assertion, r)
      else (.ok written, { r with mSets := r.mSets ++ [written] })

/-- The completion loop of `alloc_new_descriptor_sets` (ak.cpp 1800-1811) over
the prepared sets paired with their handles. -/
def root.complete_all (pool : Nat) :
    List (descriptor_set × Nat) → root → List descriptor_set →
      Except Err (List descriptor_set) × root
  | [], r, result => (.ok result, r)
  | (setToBeCompleted, setHandle) :: rest, r, result =>
    match r.complete_and_insert pool setToBeCompleted setHandle with
    | (.error e, r1) => (.error e, r1)
    | (.ok cachedSet, r1) => root.complete_all pool rest r1 (result ++ [cachedSet])

/-- The part of `alloc_new_descriptor_sets` after the retry loop
(ak.cpp 1797-1813), applied to what the loop leaves behind: an error passes
through, the two assertions on `pool` and `setHandles`, then the completion
loop. -/
def root.finish_alloc (aPreparedSets : List descriptor_set) :
    Except Err (Option (Nat × List Nat)) × root → Except Err (List descriptor_set) × root
  | (.error e, r2) => (.error e, r2)
  | (.ok none, r2) => (.error .assertion, r2)
  | (.ok (some (pool, setHandles)), r2) =>
    if setHandles.length = 0 then (.error .assertion, r2)
    else root.complete_all pool (aPreparedSets.zip setHandles) r2 []

/-- The sanity check of `alloc_new_descriptor_sets` (ak.cpp 1755-1763) for one
layout and its prepared set. -/
def sanity_check (layout : descriptor_set_layout) (preparedSet : descriptor_set) : Bool :=
  decide (layout.mOrderedBindings.length = preparedSet.mOrderedDescriptorDataWrites.length) &&
    (layout.mOrderedBindings.zip preparedSet.mOrderedDescriptorDataWrites).all (fun bw =>
      decide (bw.1.binding = bw.2.dstBinding) &&
      decide (bw.1.descriptorCount = bw.2.descriptorCount) &&
      decide (bw.1.descriptorType = bw.2.descriptorType))

/-- The method `standard_descriptor_cache::alloc_new_descriptor_sets`
(ak.cpp 1748-1814), called on thread `tid`. -/
def root.alloc_new_descriptor_sets (r : root) (native : native_allocator) (tid : Nat)
    (aLayouts : List descriptor_set_layout) (aPreparedSets : List descriptor_set) :
    Except Err (List descriptor_set) × root :=
  if aLayouts.length ≠ aPreparedSets.length then (.error .assertion, r)
  else if !(aLayouts.zip aPreparedSets).all (fun lp => sanity_check lp.1 lp.2) then
    (.error .assertion, r)
  else
    let allocRequest := descriptor_alloc_request.ofLayouts aLayouts
    let (poolToTry, r1) := r.get_descriptor_pool_for_layouts tid [] allocRequest stch false
    root.finish_alloc aPreparedSets
      (root.retry_loop native tid aLayouts aPreparedSets.length 3 r1 allocRequest poolToTry)

/-- The method `standard_descriptor_cache::cleanup` (ak.cpp 1816-1820). -/
def root.cleanup (r : root) : root :=
  { r with mSets := [], mLayouts := [] }

/-! ## Resolving a batch of bindings -/

/-- The sorted insertion of one binding (ak.cpp 1949-1950): `std::lower_bound`
with `operator<`, then `insert` before the position found. The binary search
is rendered as the scan for the first element that is not smaller than `b`,
which is what it finds on the sorted vector. -/
def insert_ordered : List binding_data → binding_data → List binding_data
  | [], b => [b]
  | x :: xs, b => if x.lt b then x :: insert_ordered xs b else b :: x :: xs

/-- The four vectors that the loop over the set ids fills (ak.cpp 1953-1956). -/
structure resolve_state where
  layouts : List descriptor_set_layout
  preparedSets : List descriptor_set
  cachedSets : List descriptor_set
  validSets : List Bool
deriving DecidableEq, Repr, Inhabited

/-- The four vectors before the loop over the set ids, all empty. -/
def resolve_state.initial : resolve_state :=
  { layouts := [], preparedSets := [], cachedSets := [], validSets := [] }

/-- The body of the loop over the set ids (ak.cpp 1960-1986) for one set id.
The range between `std::lower_bound` and `std::upper_bound` by set id is the
run of the ordered bindings that carry this set id. -/
def root.resolve_set (r : root) (orderedBindings : List binding_data) (setId : Nat)
    (st : resolve_state) : Except Err resolve_state × root :=
  match orderedBindings.filter (fun b => b.mSetId == setId) with
  | [] => (.ok st, r)
  | first :: rest =>
    match descriptor_set_layout.prepare (first :: rest) with
    | .error e => (.error e, r)
    | .ok preparedLayout =>
      match r.get_or_alloc_layout preparedLayout with
      | (.error e, r1) => (.error e, r1)
      | (.ok layout, r1) =>
        match descriptor_set.prepare first rest with
        | .error e => (.error e, r1)
        | .ok preparedSet =>
          match r1.get_descriptor_set_from_cache preparedSet with
          | some cachedSet =>
            (.ok { layouts := st.layouts ++ [layout]
                   preparedSets := st.preparedSets ++ [preparedSet]
                   cachedSets := st.cachedSets ++ [cachedSet]
                   validSets := st.validSets ++ [true] }, r1)
          | none =>
            (.ok { layouts := st.layouts ++ [layout]
                   preparedSets := st.preparedSets ++ [preparedSet]
                   cachedSets := st.cachedSets ++ [descriptor_set.empty]
                   validSets := st.validSets ++ [false] }, r1)

/-- The loop over the set ids (ak.cpp 1959-1987) for the given set ids in
order. -/
def root.resolve_sets (orderedBindings : List binding_data) :
    List Nat → root → resolve_state → Except Err resolve_state × root
  | [], r, st => (.ok st, r)
  | setId :: setIds, r, st =>
    match r.resolve_set orderedBindings setId st with
    | (.error e, r1) => (.error e, r1)
    | (.ok st1, r1) => root.resolve_sets orderedBindings setIds r1 st1

/-- The method `root::get_or_create_descriptor_sets` (ak.cpp 1937-2010), called
on thread `tid`. The loop over the set ids runs from `minSetId` to `maxSetId`;
when `maxSetId` is the largest 32-bit value its condition `setId <= maxSetId`
never fails, the loop goes through the same sets again and again, and the
outcome is `Err.diverges` unless an assertion has failed on the first pass. -/
def root.get_or_create_descriptor_sets (r : root) (native : native_allocator) (tid : Nat)
    (aBindings : List binding_data) : Except Err (List descriptor_set) × root :=
  let orderedBindings := aBindings.foldl insert_ordered []
  let minSetId := aBindings.foldl (fun m b => min m b.mSetId) (2 ^ 32 - 1)
  let maxSetId := aBindings.foldl (fun m b => max m b.mSetId) 0
  match root.resolve_sets orderedBindings (List.range' minSetId (maxSetId + 1 - minSetId)) r
      resolve_state.initial with
  | (.error e, r1) => (.error e, r1)
  | (.ok st, r1) =>
    if maxSetId = 2 ^ 32 - 1 then (.error .diverges, r1)
    else if st.cachedSets.length = st.validSets.count true then (.ok st.cachedSets, r1)
    else
      let indexMapping :=
        (List.range st.cachedSets.length).filter (fun i => !(st.validSets.getD i true))
      let layoutsForAlloc := indexMapping.map (fun i => st.layouts.getD i default)
      let toBeAlloced := indexMapping.map (fun i => st.preparedSets.getD i default)
      match r1.alloc_new_descriptor_sets native tid layoutsForAlloc toBeAlloced with
      | (.error e, r2) => (.error e, r2)
      | (.ok nowAlsoInCache, r2) =>
        (.ok ((indexMapping.zip nowAlsoInCache).foldl
          (fun cachedSets inew => cachedSets.set inew.1 inew.2) st.cachedSets), r2)

/-! ## Concrete states used below -/

/-- A root with empty caches and an empty pool directory on a device of the
given vendor, with preallocation factor 5. -/
def root.fresh (vendorID : Nat) : root :=
  { mLayouts := [], mSets := [], mDescriptorPools := [], mHeap := [], mHeldByCallers := [],
    mNextHandle := 1, mCarveCalls := [], vendorID := vendorID,
    sDescriptorPoolPreallocFactor := 5 }

/-- A uniform-buffer binding (kind ordinal 6) with one buffer. -/
def uniform_buffer_binding (setId slot buffer : Nat) : binding_data :=
  { mSetId := setId
    mLayoutBinding := { binding := slot, descriptorType := 6, descriptorCount := 1 }
    mResourcePtr := .buffers [{ buffer := buffer, offset := 0, range := 64 }] }

/-! ## Vocabulary of the statements -/

/-- The entries at index `i` of a request and of a pool agree in kind, and the
pool entry holds at least the requested count. -/
def entry_fits (weNeed weHave : List DescriptorPoolSize) (i : Nat) : Prop :=
  (weNeed.getD i default).type = (weHave.getD i default).type ∧
    (weNeed.getD i default).descriptorCount ≤ (weHave.getD i default).descriptorCount

/-- The kinds of a per-kind list are strictly increasing by ordinal. -/
def strictly_increasing_kinds (sizes : List DescriptorPoolSize) : Prop :=
  sizes.Pairwise (fun a b => a.type < b.type)

instance (sizes : List DescriptorPoolSize) : Decidable (strictly_increasing_kinds sizes) := by
  unfold strictly_increasing_kinds; infer_instance

/-- The remaining capacity a list holds for a kind: the count of the first
entry of that kind, which is the entry `descriptor_pool::allocate` updates. -/
def capacity_of (caps : List DescriptorPoolSize) (kind : Int) : Option Nat :=
  (caps.find? (fun el => decide (el.type = kind))).map (fun el => el.descriptorCount)

/-- The sum of the counts that a list of required pool sizes holds for a kind. -/
def count_of_kind (sizes : List DescriptorPoolSize) (kind : Int) : Nat :=
  ((sizes.filter (fun dps => decide (dps.type = kind))).map (fun dps => dps.descriptorCount)).sum

/-- The sum of the counts that the layouts require of a kind. -/
def required_of_kind (aLayouts : List descriptor_set_layout) (kind : Int) : Nat :=
  (aLayouts.map (fun dsl => count_of_kind dsl.required_pool_sizes kind)).sum

/-- A pool with the given remaining (and initial) capacities and room for
eight sets. -/
def pool_of (remaining : List DescriptorPoolSize) : descriptor_pool :=
  { mInitialCapacities := remaining, mRemainingCapacities := remaining,
    mNumInitialSets := 8, mNumRemainingSets := 8, mDescriptorPool := some 1 }

/-- A layout with one uniform buffer (kind ordinal 6) at slot 0. -/
def uniform_buffer_layout (handle : Option Nat) : descriptor_set_layout :=
  { mOrderedBindings := [{ binding := 0, descriptorType := 6, descriptorCount := 1 }]
    mBindingRequirements := [{ type := 6, descriptorCount := 1 }]
    mLayout := handle }

/-- Position by position, the remaining capacities name the kinds of the
initial capacities and do not exceed their counts. -/
def capacities_within : List DescriptorPoolSize → List DescriptorPoolSize → Bool
  | [], [] => true
  | rem :: remaining, ini :: initial =>
    decide (rem.type = ini.type) && decide (rem.descriptorCount ≤ ini.descriptorCount) &&
      capacities_within remaining initial
  | _, _ => false

/-- The pool invariant of the data model: remaining capacity ≤ initial capacity
for every kind, and remaining set count ≤ initial set count. -/
def descriptor_pool.within_initial (p : descriptor_pool) : Prop :=
  capacities_within p.mRemainingCapacities p.mInitialCapacities = true ∧
    p.mNumRemainingSets ≤ p.mNumInitialSets

/-- The pool invariant as the code keeps it: the set counts always, the
capacities on devices whose vendor id is not `0x12d2`. -/
def descriptor_pool.within_initial_for (vendorID : Nat) (p : descriptor_pool) : Prop :=
  p.mNumRemainingSets ≤ p.mNumInitialSets ∧
    (vendorID ≠ 0x12d2 →
      capacities_within p.mRemainingCapacities p.mInitialCapacities = true)

/-- The pool states reached from `p` by successful calls of
`descriptor_pool::allocate`. -/
inductive reached_by_allocate (p : descriptor_pool) : descriptor_pool → Prop
  | start : reached_by_allocate p p
  | step {q q1 : descriptor_pool} (aLayouts : List descriptor_set_layout)
      (native : Except VkError (List Nat)) (result : List Nat) :
      reached_by_allocate p q → q.allocate aLayouts native = .ok (result, q1) →
      reached_by_allocate p q1

/-- The completed form of a prepared set: linked to its native handle and to
its pool, with the data pointers refreshed. -/
def descriptor_set.completed (s : descriptor_set) (setHandle pool : Nat) : descriptor_set :=
  (s.link_to_handle_and_pool (some setHandle) (some pool)).with_data_pointers

/-- The amplified request holds at least the requested count of every kind:
the multiplication by the factor neither wraps below the count nor is by 0. -/
def scaling_fits (factor : Nat) (request : descriptor_alloc_request) : Prop :=
  ∀ s ∈ request.accumulated_pool_sizes, s.descriptorCount ≤ u32 (s.descriptorCount * factor)

/-- The capacities a pool created for a request starts with on a device of the
given vendor and with the given preallocation factor. -/
def initial_capacities_for (vendorID factor : Nat) (request : descriptor_alloc_request) :
    List DescriptorPoolSize :=
  if 0x12d2 = vendorID then request.accumulated_pool_sizes
  else (request.multiply_size_requirements factor).accumulated_pool_sizes

/-- Every pool object of the heap has its native pool. -/
def root.pools_created (r : root) : Prop :=
  ∀ p ∈ r.mHeap, p.mDescriptorPool.isNone = false

/-- The request the retry loop goes on with after a failure at the value
`maxTries` has inside the loop body: doubled at 1, unchanged otherwise. -/
def request_after_failure (maxTries : Nat) (allocRequest : descriptor_alloc_request) :
    descriptor_alloc_request :=
  if maxTries = 1 then allocRequest.multiply_size_requirements 2 else allocRequest

/-- A root whose pool directory holds, for thread 0 and the name `'stch'`, one
pool with room for a hundred uniform buffers, kept alive by a caller. -/
def root.with_roomy_pool : root :=
  { root.fresh 0 with
    mHeap := [pool_of [⟨6, 100⟩]]
    mDescriptorPools := [(⟨0, stch⟩, [0])]
    mHeldByCallers := [0]
    mNextHandle := 2 }

/-- A prepared set with one uniform buffer at slot 0. -/
def uniform_buffer_set (buffer : Nat) : descriptor_set :=
  { descriptor_set.empty with
    mOrderedDescriptorDataWrites :=
      [{ dstSet := none, dstBinding := 0, dstArrayElement := 0, descriptorCount := 1,
         descriptorType := 6, pImageInfo := none,
         pBufferInfo := some [{ buffer := buffer, offset := 0, range := 64 }],
         pTexelBufferView := none, pNext := none }]
    mStoredBufferInfos := [(0, [{ buffer := buffer, offset := 0, range := 64 }])] }

/-- A native allocator that rejects its first `n` calls with
out-of-pool-memory and answers every later call with the given handles. -/
def out_of_pool_memory_first (n : Nat) (handles : List Nat) : native_allocator :=
  fun k => if k < n then .error .outOfPoolMemory else .ok handles

/-- A native allocator that rejects every call with the given error code. -/
def always_failing (code : Nat) : native_allocator :=
  fun _ => .error (.other code)

instance (factor : Nat) (request : descriptor_alloc_request) :
    Decidable (scaling_fits factor request) := by
  unfold scaling_fits; infer_instance

instance (r : root) : Decidable r.pools_created := by
  unfold root.pools_created; infer_instance

/-- The vectors the loop over the set ids has filled after it has gone through
the prepared sets `ps` with the layouts `ls` against the set cache `cache`,
starting from the vectors of `st`. -/
def resolve_state.extended (st : resolve_state) (cache : List descriptor_set)
    (ls : List descriptor_set_layout) (ps : List descriptor_set) : resolve_state :=
  { layouts := st.layouts ++ ls
    preparedSets := st.preparedSets ++ ps
    cachedSets := st.cachedSets ++
      ps.map (fun p => (cache.find? (fun s => p.eq s)).getD descriptor_set.empty)
    validSets := st.validSets ++ ps.map (fun p => (cache.find? (fun s => p.eq s)).isSome) }

/-- The prepared sets that the set cache does not hold, in order. -/
def misses_of (cache : List descriptor_set) (ps : List descriptor_set) : List descriptor_set :=
  ps.filter (fun p => (cache.find? (fun s => p.eq s)).isNone)

/-- The result list of a batch: for every prepared set the set found in the
cache, or else the next of the newly allocated sets. -/
def resolve_against (cache : List descriptor_set) :
    List descriptor_set → List descriptor_set → List descriptor_set
  | [], _ => []
  | p :: ps, news =>
    match cache.find? (fun s => p.eq s) with
    | some found => found :: resolve_against cache ps news
    | none => news.headD descriptor_set.empty :: resolve_against cache ps news.tail

/-- The vector `indexMapping` of `get_or_create_descriptor_sets`
(ak.cpp 1998-2004): the indices below `n` whose entry of `validSets` is false. -/
def index_mapping (n : Nat) (validSets : List Bool) : List Nat :=
  (List.range n).filter (fun i => !(validSets.getD i true))

/-- A batch of two sets, each with one uniform buffer at slot 0. -/
def two_uniform_buffer_sets : List binding_data :=
  [uniform_buffer_binding 0 0 7, uniform_buffer_binding 1 0 8]

/-- A uniform-buffer binding (kind ordinal 6, count 1) that holds no resource
handle. -/
def resource_less_binding (setId slot : Nat) : binding_data :=
  { mSetId := setId
    mLayoutBinding := { binding := slot, descriptorType := 6, descriptorCount := 1 }
    mResourcePtr := .absent }

/-- A prepared set with one uniform-buffer write at slot 0 whose four resource
pointers are all null. -/
def resource_less_set : descriptor_set :=
  { descriptor_set.empty with
    mOrderedDescriptorDataWrites :=
      [{ dstSet := none, dstBinding := 0, dstArrayElement := 0, descriptorCount := 1,
         descriptorType := 6, pImageInfo := none, pBufferInfo := none,
         pTexelBufferView := none, pNext := none }] }

/-- The agreement of two writes in the words of the specification: the same
slot id, array offset, descriptor count and kind, and each of the image-info,
buffer-info, texel-buffer-view and acceleration-structure arrays absent on both
sides or present on both sides and equal element by element. -/
def writes_content_equal (l r : WriteDescriptorSet) : Bool :=
  decide (l.dstBinding = r.dstBinding) && decide (l.dstArrayElement = r.dstArrayElement) &&
  decide (l.descriptorCount = r.descriptorCount) &&
  decide (l.descriptorType = r.descriptorType) &&
  decide (l.pImageInfo = r.pImageInfo) && decide (l.pBufferInfo = r.pBufferInfo) &&
  decide (l.pTexelBufferView = r.pTexelBufferView) &&
  decide (l.pNext.map (fun info => info.pAccelerationStructures) =
    r.pNext.map (fun info => info.pAccelerationStructures))

/-- The content equality of two templates in the words of the specification:
the same number of writes, and the writes agree index by index. -/
def descriptor_set.content_equal (a b : descriptor_set) : Bool :=
  decide (a.mOrderedDescriptorDataWrites.length = b.mOrderedDescriptorDataWrites.length) &&
    (a.mOrderedDescriptorDataWrites.zip b.mOrderedDescriptorDataWrites).all
      (fun pair => writes_content_equal pair.1 pair.2)

/-- The templates of a batch in the order of the loop over the set ids: for
every set id that has bindings, the set that `descriptor_set::prepare` builds
from the run of ordered bindings with this set id. -/
def templates_of (orderedBindings : List binding_data) (setIds : List Nat) :
    List descriptor_set :=
  setIds.filterMap (fun setId =>
    match orderedBindings.filter (fun b => b.mSetId == setId) with
    | [] => none
    | first :: rest => (descriptor_set.prepare first rest).toOption)

/-- The (layout, template) pairs of a batch whose template the set cache does
not hold, in order. -/
def miss_pairs (cache : List descriptor_set) (ls : List descriptor_set_layout)
    (ps : List descriptor_set) : List (descriptor_set_layout × descriptor_set) :=
  (ls.zip ps).filter (fun lp => (cache.find? (fun s => lp.2.eq s)).isNone)

/-- The state that resolving one uniform buffer (buffer 7) at set 0, slot 0
leaves on empty caches when the native allocator answers with handle 100. -/
def root.after_first_buffer : root :=
  ((root.fresh 0).get_or_create_descriptor_sets (out_of_pool_memory_first 0 [100]) 0
    [uniform_buffer_binding 0 0 7]).2

/-- The loop over the set ids for the batch `two_uniform_buffer_sets` on the
state `root.after_first_buffer`. -/
def mixed_batch_loop : Except Err resolve_state × root :=
  root.resolve_sets (two_uniform_buffer_sets.foldl insert_ordered [])
    (List.range' (two_uniform_buffer_sets.foldl (fun m b => min m b.mSetId) (2 ^ 32 - 1))
      (two_uniform_buffer_sets.foldl (fun m b => max m b.mSetId) 0 + 1 -
        two_uniform_buffer_sets.foldl (fun m b => min m b.mSetId) (2 ^ 32 - 1)))
    root.after_first_buffer resolve_state.initial

/-- The part of a binding description that the layout schema is made of: the
set id and the (slot id, kind, count) triple, without the resource handles. -/
def binding_data.schema_key (b : binding_data) : Nat × DescriptorSetLayoutBinding :=
  (b.mSetId, b.mLayoutBinding)

/-- The vector `orderedBindings` of `get_or_create_descriptor_sets` after step 1
(ak.cpp 1946-1951). -/
def ordered_bindings (aBindings : List binding_data) : List binding_data :=
  aBindings.foldl insert_ordered []

/-- The set ids that the loop of `get_or_create_descriptor_sets` goes through
(ak.cpp 1959), from `minSetId` to `maxSetId`. -/
def set_id_range (aBindings : List binding_data) : List Nat :=
  List.range' (aBindings.foldl (fun m b => min m b.mSetId) (2 ^ 32 - 1))
    (aBindings.foldl (fun m b => max m b.mSetId) 0 + 1 -
      aBindings.foldl (fun m b => min m b.mSetId) (2 ^ 32 - 1))

/-- The batch `two_uniform_buffer_sets` with the two buffers exchanged. -/
def two_uniform_buffer_sets_swapped : List binding_data :=
  [uniform_buffer_binding 0 0 8, uniform_buffer_binding 1 0 7]

/-- The batch `two_uniform_buffer_sets` with two other buffers. -/
def two_other_uniform_buffer_sets : List binding_data :=
  [uniform_buffer_binding 0 0 9, uniform_buffer_binding 1 0 10]

/-- The state that resolving `two_uniform_buffer_sets` leaves on empty caches
when the native allocator answers with the handles 100 and 101. -/
def root.after_two_buffers : root :=
  ((root.fresh 0).get_or_create_descriptor_sets (out_of_pool_memory_first 0 [100, 101]) 0
    two_uniform_buffer_sets).2

/-- A batch that binds the same uniform buffer at slot 0 of set 0 and of
set 1. -/
def same_buffer_at_two_sets : List binding_data :=
  [uniform_buffer_binding 0 0 7, uniform_buffer_binding 1 0 7]

/-- The loop `for (uint32_t setId = minSetId; setId <= maxSetId; ++setId)` of
`get_or_create_descriptor_sets` (ak.cpp 1959-1987) with its 32-bit counter,
run for at most the given number of iterations from the counter value
`setId`. The result is `none` when the loop is still running after that many
iterations. -/
def root.resolve_loop (orderedBindings : List binding_data) (maxSetId : Nat) :
    Nat → Nat → root → resolve_state → Option (Except Err resolve_state × root)
  | 0, setId, r, st => if setId ≤ maxSetId then none else some (.ok st, r)
  | iterations + 1, setId, r, st =>
    if setId ≤ maxSetId then
      match r.resolve_set orderedBindings setId st with
      | (.error e, r1) => some (.error e, r1)
      | (.ok st1, r1) =>
        root.resolve_loop orderedBindings maxSetId iterations (u32 (setId + 1)) r1 st1
    else some (.ok st, r)

/-- A batch with one uniform buffer at the largest 32-bit set id. -/
def largest_set_id_batch : List binding_data :=
  [uniform_buffer_binding (2 ^ 32 - 1) 0 7]

/-- A value passed to `ak::hash_combine` by `std::hash<ak::descriptor_set>`,
with its C++ type: `uint32_t`, `VkDeviceSize`, an enumeration, a native handle
or `bool`. -/
inductive hash_arg where
  | uint32 (value : Nat)
  | device_size (value : Nat)
  | enumerator (value : Int)
  | handle (value : Nat)
  | boolean (value : Bool)
deriving DecidableEq, Repr, Inhabited

/-- One of the three steps `if (nullptr != p && w.descriptorCount > 0)
hash_combine(h, p[0]...)` of `std::hash<ak::descriptor_set>` (descriptor_set.hpp
206-214): the first element behind the pointer `p` is combined into `h` with
the values `args` takes from it. An index past the end of an array reads
nothing. -/
def hash_first_element {α : Type} (hash_combine : Nat → List hash_arg → Nat)
    (args : α → List hash_arg) (h : Nat) (descriptorCount : Nat) (p : Option (List α)) : Nat :=
  match p with
  | none => h
  | some elements =>
    if 0 < descriptorCount then
      match elements.head? with
      | none => h
      | some first => hash_combine h (args first)
    else h

/-- The step of `std::hash<ak::descriptor_set>` for the `pNext` pointer
(descriptor_set.hpp 215-226). -/
def hash_next_pointer (hash_combine : Nat → List hash_arg → Nat) (h : Nat)
    (descriptorType : Int) (pNext : Option WriteDescriptorSetAccelerationStructureKHR) : Nat :=
  match pNext with
  | none => h
  | some asInfo =>
    if descriptorType = eAccelerationStructureKHR then
      let h1 := hash_combine h [.uint32 asInfo.accelerationStructureCount]
      if 0 < asInfo.accelerationStructureCount then
        match asInfo.pAccelerationStructures.head? with
        | none => h1
        | some first => hash_combine h1 [.handle first]
      else h1
    else hash_combine h [.boolean true]

/-- The body of the loop of `std::hash<ak::descriptor_set>` (descriptor_set.hpp
202-227) for one write, from the hash value `h` so far. The function template
`ak::hash_combine` is declared in a header that is not part of the sources; it
is the parameter `hash_combine`, which maps the hash value so far and the
values passed to the new hash value. -/
def hash_write (hash_combine : Nat → List hash_arg → Nat) (h : Nat) (w : WriteDescriptorSet) :
    Nat :=
  let h1 := hash_combine h
    [.uint32 w.dstBinding, .uint32 w.dstArrayElement, .uint32 w.descriptorCount,
      .enumerator w.descriptorType]
  let h2 := hash_first_element hash_combine
    (fun (first : DescriptorImageInfo) =>
      [.handle first.sampler, .handle first.imageView, .enumerator first.imageLayout])
    h1 w.descriptorCount w.pImageInfo
  let h3 := hash_first_element hash_combine
    (fun (first : DescriptorBufferInfo) =>
      [.handle first.buffer, .device_size first.offset, .device_size first.range])
    h2 w.descriptorCount w.pBufferInfo
  let h4 := hash_first_element hash_combine (fun (first : Nat) => [.handle first])
    h3 w.descriptorCount w.pTexelBufferView
  hash_next_pointer hash_combine h4 w.descriptorType w.pNext

/-- The function `std::hash<ak::descriptor_set>::operator()` (descriptor_set.hpp
197-231) for a given `ak::hash_combine`. -/
def descriptor_set.hash (hash_combine : Nat → List hash_arg → Nat) (o : descriptor_set) : Nat :=
  o.mOrderedDescriptorDataWrites.foldl (hash_write hash_combine) 0

/-- The value that the `std::hash` of the standard library gives an argument
when it is the identity on integers and handles, as in libstdc++. -/
def hash_arg.identity_hash : hash_arg → Nat
  | .uint32 value => value
  | .device_size value => value
  | .enumerator value => (value % 2 ^ 64).toNat
  | .handle value => value
  | .boolean value => if value then 1 else 0

/-- An instance of the parameter `hash_combine`: the widespread implementation
`seed ^= std::hash(v) + 0x9e3779b9 + (seed << 6) + (seed >> 2)`, applied to the
values in order, with 64-bit `std::size_t`. -/
def golden_ratio_hash_combine : Nat → List hash_arg → Nat
  | seed, [] => seed
  | seed, v :: rest =>
    golden_ratio_hash_combine
      (seed ^^^ ((v.identity_hash + 0x9e3779b9 + (seed <<< 6) % 2 ^ 64 + seed >>> 2) % 2 ^ 64))
      rest

/-- The set `s` with another native handle, owning pool, set id and
destination-set field of its writes. -/
def descriptor_set.relabelled (s : descriptor_set) (aHandle aPool : Option Nat) (setId : Nat)
    (dstSet : Option Nat) : descriptor_set :=
  { s with
    mDescriptorSet := aHandle
    mPool := aPool
    mSetId := setId
    mOrderedDescriptorDataWrites :=
      s.mOrderedDescriptorDataWrites.map (fun w => { w with dstSet := dstSet }) }

/-- A sampled-image binding (kind ordinal 2) with one image view. -/
def sampled_image_binding (setId slot imageView : Nat) : binding_data :=
  { mSetId := setId
    mLayoutBinding := { binding := slot, descriptorType := 2, descriptorCount := 1 }
    mResourcePtr := .images [{ sampler := 0, imageView := imageView, imageLayout := 5 }] }

/-- A storage-buffer binding (kind ordinal 7) with one buffer. -/
def storage_buffer_binding (setId slot buffer : Nat) : binding_data :=
  { mSetId := setId
    mLayoutBinding := { binding := slot, descriptorType := 7, descriptorCount := 1 }
    mResourcePtr := .buffers [{ buffer := buffer, offset := 0, range := 64 }] }

/-- A batch of two sets: set 0 with one sampled image at slot 0 and one uniform
buffer at slot 1, set 1 with one storage buffer at slot 0. -/
def image_and_buffers_batch : List binding_data :=
  [sampled_image_binding 0 0 3, uniform_buffer_binding 0 1 7, storage_buffer_binding 1 0 8]

/-- The loop over the set ids for the batch `image_and_buffers_batch` on empty
caches, on a device of the given vendor. -/
def image_and_buffers_loop (vendorID : Nat) : Except Err resolve_state × root :=
  root.resolve_sets (ordered_bindings image_and_buffers_batch)
    (set_id_range image_and_buffers_batch) (root.fresh vendorID) resolve_state.initial

/-! # Theorems -/

/-! ## The capacity join `has_capacity_for` -/

theorem has_capacity_for_loop_off_diagonal (weNeed weHave : List DescriptorPoolSize) :
    ∀ (fuel n h : Nat), n < h → has_capacity_for_loop weNeed weHave fuel n h = false := by
  intro fuel
  induction fuel with
  | zero => intro n h hlt; simp [has_capacity_for_loop]; omega
  | succ fuel ih =>
    intro n h hlt
    unfold has_capacity_for_loop
    split
    · simp only []
      split
      · exact ih n (h + 1) (by omega)
      · split
        · exact ih (n + 1) (h + 1) (by omega)
        · rfl
    · simp; omega

theorem has_capacity_for_loop_diagonal (weNeed weHave : List DescriptorPoolSize) :
    ∀ (fuel k : Nat), weHave.length - k ≤ fuel →
      (has_capacity_for_loop weNeed weHave fuel k k = true ↔
        ∀ i, k ≤ i → i < weNeed.length → i < weHave.length → entry_fits weNeed weHave i) := by
  intro fuel
  induction fuel with
  | zero =>
    intro k hk
    simp only [has_capacity_for_loop, decide_True, true_iff]
    intro i h1 _ h3; omega
  | succ fuel ih =>
    intro k hk
    unfold has_capacity_for_loop
    split
    · rename_i hlt
      simp only []
      split
      · rename_i htype
        rw [has_capacity_for_loop_off_diagonal _ _ _ _ _ (Nat.lt_succ_self k)]
        simp only [Bool.false_eq_true, false_iff, not_forall]
        refine ⟨k, le_refl k, hlt.1, hlt.2, ?_⟩
        intro hfit
        have := hfit.1
        omega
      · rename_i htype
        split
        · rename_i hfit
          rw [ih (k + 1) (by omega)]
          constructor
          · intro h i h1 h2 h3
            rcases Nat.eq_or_lt_of_le h1 with heq | hlt2
            · subst heq; exact hfit
            · exact h i hlt2 h2 h3
          · intro h i h1 h2 h3
            exact h i (by omega) h2 h3
        · rename_i hfit
          simp only [Bool.false_eq_true, false_iff, not_forall]
          exact ⟨k, le_refl k, hlt.1, hlt.2, hfit⟩
    · rename_i hlt
      simp only [decide_True, true_iff]
      intro i h1 h2 h3
      exfalso; apply hlt; constructor <;> omega

theorem has_capacity_for_iff (p : descriptor_pool) (pRequest : descriptor_alloc_request) :
    p.has_capacity_for pRequest = true ↔
      ∀ i, i < pRequest.mAccumulatedSizes.length → i < p.mRemainingCapacities.length →
        entry_fits pRequest.mAccumulatedSizes p.mRemainingCapacities i := by
  unfold descriptor_pool.has_capacity_for descriptor_alloc_request.accumulated_pool_sizes
  rw [has_capacity_for_loop_diagonal _ _ _ 0 (by omega)]
  constructor
  · intro h i h1 h2; exact h i (Nat.zero_le i) h1 h2
  · intro h i _ h1 h2; exact h i h1 h2

theorem kinds_lt_of_lt {sizes : List DescriptorPoolSize} (hs : strictly_increasing_kinds sizes)
    {i j : Nat} (hi : i < sizes.length) (hj : j < sizes.length) (hij : i < j) :
    (sizes.getD i default).type < (sizes.getD j default).type := by
  rw [List.getD_eq_getElem _ _ hi, List.getD_eq_getElem _ _ hj]
  exact (List.pairwise_iff_getElem.mp hs) i j hi hj hij

theorem kinds_index_eq {sizes : List DescriptorPoolSize} (hs : strictly_increasing_kinds sizes)
    {i j : Nat} (hi : i < sizes.length) (hj : j < sizes.length)
    (h : (sizes.getD i default).type = (sizes.getD j default).type) : i = j := by
  rcases Nat.lt_trichotomy i j with hlt | heq | hgt
  · have := kinds_lt_of_lt hs hi hj hlt; omega
  · exact heq
  · have := kinds_lt_of_lt hs hj hi hgt; omega

/-- C2: evaluation of `descriptor_pool::has_capacity_for` at the failing input.
The pool holds only kind 6, the request needs kinds 6 and 7, and the pool is
accepted although kind 7 is absent from it. -/
theorem has_capacity_for_accepts_absent_kind :
    (pool_of [⟨6, 5⟩]).has_capacity_for ⟨[⟨6, 1⟩, ⟨7, 1⟩], 1⟩ = true := by
  decide

/-- C3: evaluation of `descriptor_pool::has_capacity_for` at the failing input.
The pool holds five of kind 6 and five of kind 7, the request needs one of
kind 7, and the pool is rejected although it is sufficient. -/
theorem has_capacity_for_rejects_sufficient_pool :
    (pool_of [⟨6, 5⟩, ⟨7, 5⟩]).has_capacity_for ⟨[⟨7, 1⟩], 1⟩ = false := by
  decide

/-- C4: for a pool and a request whose per-kind lists are strictly increasing
by kind ordinal, if some requested kind occurs in the pool with a remaining
count strictly less than the requested count, `has_capacity_for` returns
false. -/
theorem has_capacity_for_rejects_under_capacity (p : descriptor_pool)
    (pRequest : descriptor_alloc_request)
    (hreq : strictly_increasing_kinds pRequest.accumulated_pool_sizes)
    (hpool : strictly_increasing_kinds p.mRemainingCapacities)
    (need have_ : DescriptorPoolSize)
    (hneed : need ∈ pRequest.accumulated_pool_sizes)
    (hhave : have_ ∈ p.mRemainingCapacities)
    (hkind : need.type = have_.type)
    (hless : have_.descriptorCount < need.descriptorCount) :
    p.has_capacity_for pRequest = false := by
  unfold descriptor_alloc_request.accumulated_pool_sizes at hreq hneed
  rw [← Bool.not_eq_true]
  intro htrue
  rw [has_capacity_for_iff] at htrue
  obtain ⟨i, hi, hni⟩ := List.getElem_of_mem hneed
  obtain ⟨j, hj, hhj⟩ := List.getElem_of_mem hhave
  have hni' : pRequest.mAccumulatedSizes.getD i default = need := by
    rw [List.getD_eq_getElem _ _ hi]; exact hni
  have hhj' : p.mRemainingCapacities.getD j default = have_ := by
    rw [List.getD_eq_getElem _ _ hj]; exact hhj
  by_cases hiH : i < p.mRemainingCapacities.length
  · have hfit := htrue i hi hiH
    unfold entry_fits at hfit
    have hij : i = j := by
      apply kinds_index_eq hpool hiH hj
      rw [← hfit.1, hni', hhj', hkind]
    subst hij
    rw [hni', hhj'] at hfit
    omega
  · have hjN : j < pRequest.mAccumulatedSizes.length := by omega
    have hfit := htrue j hjN hj
    unfold entry_fits at hfit
    have hlt := kinds_lt_of_lt hreq hjN hi (by omega)
    rw [hfit.1, hhj', hni', hkind] at hlt
    omega

/-- Witness for C4: the pool holds five of kind 7 and six are requested. -/
theorem has_capacity_for_rejects_under_capacity_witness :
    strictly_increasing_kinds [⟨6, 1⟩, ⟨7, 6⟩] ∧ strictly_increasing_kinds [⟨6, 5⟩, ⟨7, 5⟩] ∧
      (pool_of [⟨6, 5⟩, ⟨7, 5⟩]).has_capacity_for ⟨[⟨6, 1⟩, ⟨7, 6⟩], 1⟩ = false :=
  ⟨by decide, by decide,
    has_capacity_for_rejects_under_capacity (pool_of [⟨6, 5⟩, ⟨7, 5⟩]) ⟨[⟨6, 1⟩, ⟨7, 6⟩], 1⟩
      (by decide) (by decide) ⟨7, 6⟩ ⟨7, 5⟩ (by decide) (by decide) (by decide) (by decide)⟩

/-! ## Capacity accounting of `descriptor_pool::allocate` -/

theorem update_remaining_kinds (caps : List DescriptorPoolSize) (dps : DescriptorPoolSize) :
    (update_remaining caps dps).map (fun el => el.type) = caps.map (fun el => el.type) := by
  induction caps with
  | nil => rfl
  | cons el rest ih =>
    unfold update_remaining
    split
    · simp
    · simp [ih]

theorem capacity_of_update_remaining (caps : List DescriptorPoolSize) (dps : DescriptorPoolSize)
    (kind : Int) :
    capacity_of (update_remaining caps dps) kind =
      (capacity_of caps kind).map
        (fun c => if dps.type = kind then c - dps.descriptorCount else c) := by
  induction caps with
  | nil => simp [update_remaining, capacity_of]
  | cons el rest ih =>
    simp only [capacity_of] at ih ⊢
    by_cases h1 : el.type = dps.type
    · have hu : update_remaining (el :: rest) dps =
          { el with descriptorCount :=
              el.descriptorCount - min dps.descriptorCount el.descriptorCount } :: rest := by
        simp [update_remaining, h1]
      rw [hu]
      by_cases h2 : el.type = kind
      · have h3 : dps.type = kind := by rw [← h1]; exact h2
        simp only [List.find?_cons, h2, decide_True, Option.map_some', h3, if_true]
        congr 1
        omega
      · have h3 : ¬ dps.type = kind := by rw [← h1]; exact h2
        simp only [List.find?_cons, h2, decide_False, h3, if_false]
        cases List.find? (fun el => decide (el.type = kind)) rest <;> rfl
    · have hu : update_remaining (el :: rest) dps = el :: update_remaining rest dps := by
        simp [update_remaining, h1]
      rw [hu]
      by_cases h2 : el.type = kind
      · have h3 : ¬ dps.type = kind := fun h => h1 (h2.trans h.symm)
        simp only [List.find?_cons, h2, decide_True, Option.map_some', h3, if_false]
      · simp only [List.find?_cons, h2, decide_False]
        exact ih

theorem capacity_of_foldl_update_remaining (sizes : List DescriptorPoolSize) :
    ∀ (caps : List DescriptorPoolSize) (kind : Int),
      capacity_of (sizes.foldl update_remaining caps) kind =
        (capacity_of caps kind).map (fun c => c - count_of_kind sizes kind) := by
  induction sizes with
  | nil => intro caps kind; simp [count_of_kind]
  | cons dps rest ih =>
    intro caps kind
    rw [List.foldl_cons, ih, capacity_of_update_remaining]
    cases capacity_of caps kind with
    | none => rfl
    | some c =>
      by_cases h : dps.type = kind
      · simp [count_of_kind, List.filter_cons, h]; omega
      · simp [count_of_kind, List.filter_cons, h]

theorem capacity_of_update_pool_stats (aLayouts : List descriptor_set_layout) :
    ∀ (caps : List DescriptorPoolSize) (kind : Int),
      capacity_of (update_pool_stats caps aLayouts) kind =
        (capacity_of caps kind).map (fun c => c - required_of_kind aLayouts kind) := by
  induction aLayouts with
  | nil => intro caps kind; simp [update_pool_stats, required_of_kind]
  | cons dsl rest ih =>
    intro caps kind
    unfold update_pool_stats at ih ⊢
    rw [List.foldl_cons, ih, capacity_of_foldl_update_remaining]
    cases capacity_of caps kind with
    | none => rfl
    | some c => simp [required_of_kind]; omega

theorem foldl_update_remaining_kinds (sizes : List DescriptorPoolSize) :
    ∀ (caps : List DescriptorPoolSize),
      (sizes.foldl update_remaining caps).map (fun el => el.type) =
        caps.map (fun el => el.type) := by
  induction sizes with
  | nil => intro caps; rfl
  | cons dps rest ih => intro caps; rw [List.foldl_cons, ih, update_remaining_kinds]

theorem update_pool_stats_kinds (aLayouts : List descriptor_set_layout) :
    ∀ (caps : List DescriptorPoolSize),
      (update_pool_stats caps aLayouts).map (fun el => el.type) =
        caps.map (fun el => el.type) := by
  induction aLayouts with
  | nil => intro caps; rfl
  | cons dsl rest ih =>
    intro caps
    unfold update_pool_stats at ih ⊢
    rw [List.foldl_cons, ih, foldl_update_remaining_kinds]

theorem allocate_ok_iff (p p1 : descriptor_pool) (aLayouts : List descriptor_set_layout)
    (native : Except VkError (List Nat)) (result : List Nat) :
    p.allocate aLayouts native = .ok (result, p1) ↔
      p.mDescriptorPool.isNone = false ∧ native = .ok result ∧
        p1 = { p with
          mRemainingCapacities := update_pool_stats p.mRemainingCapacities aLayouts
          mNumRemainingSets := p.mNumRemainingSets - (aLayouts.length : Int) } := by
  unfold descriptor_pool.allocate
  cases hn : p.mDescriptorPool.isNone with
  | true => simp
  | false =>
    cases native with
    | error e => simp
    | ok res =>
      simp only [hn, Bool.false_eq_true, if_false, Except.ok.injEq, Prod.mk.injEq, true_and]
      constructor
      · rintro ⟨h1, h2⟩; exact ⟨h1.symm ▸ rfl, h2.symm⟩
      · rintro ⟨h1, h2⟩; cases h1; exact ⟨rfl, h2.symm⟩

/-- C5: for a pool whose remaining capacity for kind `K` is `C`, a successful
`descriptor_pool::allocate` over layouts that require `k_1 .. k_m` of `K` leaves
the remaining capacity `max 0 (C - Σ k_i)`, which is `C - Σ k_i` when
`Σ k_i ≤ C`; the kinds of the remaining-capacity list and the initial
capacities are unchanged. -/
theorem allocate_capacity_accounting (p p1 : descriptor_pool)
    (aLayouts : List descriptor_set_layout) (native : Except VkError (List Nat))
    (result : List Nat) (K : Int) (C : Nat)
    (hC : capacity_of p.mRemainingCapacities K = some C)
    (hok : p.allocate aLayouts native = .ok (result, p1)) :
    capacity_of p1.mRemainingCapacities K = some (C - required_of_kind aLayouts K) ∧
      ((C - required_of_kind aLayouts K : Nat) : Int) =
        max 0 ((C : Int) - (required_of_kind aLayouts K : Int)) ∧
      (required_of_kind aLayouts K ≤ C →
        ((C - required_of_kind aLayouts K : Nat) : Int) =
          (C : Int) - (required_of_kind aLayouts K : Int)) ∧
      p1.mRemainingCapacities.map (fun el => el.type) =
        p.mRemainingCapacities.map (fun el => el.type) ∧
      p1.mInitialCapacities = p.mInitialCapacities := by
  rw [allocate_ok_iff] at hok
  obtain ⟨_, _, hp1⟩ := hok
  subst hp1
  refine ⟨?_, ?_, ?_, ?_, rfl⟩
  · simp only [capacity_of_update_pool_stats, hC, Option.map_some']
  · omega
  · intro h; omega
  · exact update_pool_stats_kinds _ _

/-- Witness for C5: two layouts of one uniform buffer each carved from a pool
with ten uniform buffers left. -/
theorem allocate_capacity_accounting_witness :
    capacity_of (pool_of [⟨6, 10⟩]).mRemainingCapacities 6 = some 10 ∧
      capacity_of
        (update_pool_stats [⟨6, 10⟩] [uniform_buffer_layout (some 1), uniform_buffer_layout (some 1)])
        6 = some (10 - required_of_kind
          [uniform_buffer_layout (some 1), uniform_buffer_layout (some 1)] 6) :=
  ⟨by decide,
    (allocate_capacity_accounting (pool_of [⟨6, 10⟩])
      { pool_of [⟨6, 10⟩] with
        mRemainingCapacities := update_pool_stats [⟨6, 10⟩]
          [uniform_buffer_layout (some 1), uniform_buffer_layout (some 1)]
        mNumRemainingSets := 8 - 2 }
      [uniform_buffer_layout (some 1), uniform_buffer_layout (some 1)] (.ok [100, 101])
      [100, 101] 6 10 (by decide) rfl).1⟩

/-! ## The pool invariant -/

theorem capacities_within_refl (caps : List DescriptorPoolSize) :
    capacities_within caps caps = true := by
  induction caps with
  | nil => rfl
  | cons el rest ih => simp [capacities_within, ih]

theorem capacities_within_update_remaining (dps : DescriptorPoolSize) :
    ∀ (remaining initial : List DescriptorPoolSize),
      capacities_within remaining initial = true →
      capacities_within (update_remaining remaining dps) initial = true := by
  intro remaining
  induction remaining with
  | nil => intro initial h; exact h
  | cons el rest ih =>
    intro initial h
    cases initial with
    | nil => simp [capacities_within] at h
    | cons ini initial =>
      simp only [capacities_within, Bool.and_eq_true, decide_eq_true_eq] at h
      unfold update_remaining
      split
      · simp only [capacities_within, Bool.and_eq_true, decide_eq_true_eq]
        exact ⟨⟨h.1.1, by omega⟩, h.2⟩
      · simp only [capacities_within, Bool.and_eq_true, decide_eq_true_eq]
        exact ⟨h.1, ih initial h.2⟩

theorem capacities_within_foldl_update_remaining (sizes : List DescriptorPoolSize) :
    ∀ (remaining initial : List DescriptorPoolSize),
      capacities_within remaining initial = true →
      capacities_within (sizes.foldl update_remaining remaining) initial = true := by
  induction sizes with
  | nil => intro remaining initial h; exact h
  | cons dps rest ih =>
    intro remaining initial h
    rw [List.foldl_cons]
    exact ih _ _ (capacities_within_update_remaining dps _ _ h)

theorem capacities_within_update_pool_stats (aLayouts : List descriptor_set_layout) :
    ∀ (remaining initial : List DescriptorPoolSize),
      capacities_within remaining initial = true →
      capacities_within (update_pool_stats remaining aLayouts) initial = true := by
  induction aLayouts with
  | nil => intro remaining initial h; exact h
  | cons dsl rest ih =>
    intro remaining initial h
    unfold update_pool_stats at ih ⊢
    rw [List.foldl_cons]
    exact ih _ _ (capacities_within_foldl_update_remaining _ _ _ h)

theorem allocate_within_initial_for (vendorID : Nat) (p p1 : descriptor_pool)
    (aLayouts : List descriptor_set_layout) (native : Except VkError (List Nat))
    (result : List Nat) (hp : p.within_initial_for vendorID)
    (hok : p.allocate aLayouts native = .ok (result, p1)) :
    p1.within_initial_for vendorID := by
  rw [allocate_ok_iff] at hok
  obtain ⟨_, _, hp1⟩ := hok
  subst hp1
  refine ⟨?_, ?_⟩
  · have := hp.1
    simp only
    omega
  · intro hv
    exact capacities_within_update_pool_stats _ _ _ (hp.2 hv)

theorem reached_within_initial_for (vendorID : Nat) (p q : descriptor_pool)
    (hp : p.within_initial_for vendorID) (hq : reached_by_allocate p q) :
    q.within_initial_for vendorID := by
  induction hq with
  | start => exact hp
  | step aLayouts native result _ hok ih =>
    exact allocate_within_initial_for vendorID _ _ aLayouts native result ih hok

theorem new_pool_for_within_initial_for (r : root) (aAllocRequest : descriptor_alloc_request) :
    (r.new_pool_for aAllocRequest).1.within_initial_for r.vendorID := by
  unfold root.new_pool_for root.create_descriptor_pool descriptor_pool.within_initial_for
  refine ⟨le_refl _, ?_⟩
  intro hv
  have hne : ¬ (0x12d2 = r.vendorID) := fun h => hv h.symm
  simp only [hne, decide_False, Bool.false_eq_true, if_false]
  exact capacities_within_refl _

/-- The two outcomes of `get_descriptor_pool_for_layouts`: a pool of the pruned
bucket that has capacity, or a new pool at the end of the heap. -/
theorem get_descriptor_pool_for_layouts_cases (r : root) (tid : Nat) (locals : List Nat)
    (aAllocRequest : descriptor_alloc_request) (aPoolName : Int) (aRequestNewPool : Bool) :
    (aRequestNewPool = false ∧
      ∃ sptr p, sptr ∈ r.surviving_pools locals ⟨tid, aPoolName⟩ ∧ r.mHeap[sptr]? = some p ∧
        p.has_capacity_for aAllocRequest = true ∧
        r.find_pool_with_capacity (r.surviving_pools locals ⟨tid, aPoolName⟩) aAllocRequest =
          some sptr ∧
        r.get_descriptor_pool_for_layouts tid locals aAllocRequest aPoolName aRequestNewPool =
          (sptr, { r with
            mDescriptorPools :=
              set_bucket r.mDescriptorPools ⟨tid, aPoolName⟩
                (r.surviving_pools locals ⟨tid, aPoolName⟩) })) ∨
    ((aRequestNewPool = true ∨
        r.find_pool_with_capacity (r.surviving_pools locals ⟨tid, aPoolName⟩) aAllocRequest =
          none) ∧
      r.get_descriptor_pool_for_layouts tid locals aAllocRequest aPoolName aRequestNewPool =
        (r.mHeap.length,
          { r with
            mNextHandle := r.mNextHandle + 1
            mHeap := r.mHeap ++ [(r.new_pool_for aAllocRequest).1]
            mDescriptorPools :=
              set_bucket r.mDescriptorPools ⟨tid, aPoolName⟩
                (r.surviving_pools locals ⟨tid, aPoolName⟩ ++ [r.mHeap.length]) })) := by
  unfold root.get_descriptor_pool_for_layouts
  cases aRequestNewPool with
  | true => right; exact ⟨Or.inl rfl, rfl⟩
  | false =>
    simp only [Bool.false_eq_true, if_false]
    cases hfind : r.find_pool_with_capacity (r.surviving_pools locals ⟨tid, aPoolName⟩)
        aAllocRequest with
    | none => right; exact ⟨Or.inr rfl, rfl⟩
    | some sptr =>
      left
      refine ⟨by trivial, ?_⟩
      have hmem := List.mem_of_find?_eq_some hfind
      have hprop := List.find?_some hfind
      cases hheap : r.mHeap[sptr]? with
      | none => simp [hheap] at hprop
      | some p =>
        simp only [hheap] at hprop
        exact ⟨sptr, p, hmem, hheap, hprop, rfl, rfl⟩

/-- C6 as amended: on a heap whose pools keep the invariant,
`get_descriptor_pool_for_layouts` leaves a heap whose pools keep it and returns
a pool of that heap, and every state reached from the returned pool by
successful `allocate` calls keeps it: remaining set count ≤ initial set count
always, and remaining capacity ≤ initial capacity for every kind when the
vendor id is not `0x12d2`. -/
theorem pool_invariant_except_vendor_branch (r : root) (tid : Nat) (locals : List Nat)
    (aAllocRequest : descriptor_alloc_request) (aPoolName : Int) (aRequestNewPool : Bool)
    (hinv : ∀ p ∈ r.mHeap, p.within_initial_for r.vendorID) :
    (∀ p ∈ (r.get_descriptor_pool_for_layouts tid locals aAllocRequest aPoolName
        aRequestNewPool).2.mHeap, p.within_initial_for r.vendorID) ∧
    ∃ p, (r.get_descriptor_pool_for_layouts tid locals aAllocRequest aPoolName
        aRequestNewPool).2.mHeap[(r.get_descriptor_pool_for_layouts tid locals aAllocRequest
          aPoolName aRequestNewPool).1]? = some p ∧
      ∀ q, reached_by_allocate p q → q.within_initial_for r.vendorID := by
  rcases get_descriptor_pool_for_layouts_cases r tid locals aAllocRequest aPoolName
    aRequestNewPool with ⟨_, sptr, p, _, hheap, _, _, heq⟩ | ⟨_, heq⟩
  · rw [heq]
    refine ⟨hinv, p, hheap, ?_⟩
    intro q hq
    exact reached_within_initial_for _ p q (hinv p (List.mem_iff_getElem?.mpr ⟨sptr, hheap⟩)) hq
  · rw [heq]
    have hnew := new_pool_for_within_initial_for r aAllocRequest
    refine ⟨?_, (r.new_pool_for aAllocRequest).1, ?_, ?_⟩
    · intro p hp
      simp only [List.mem_append, List.mem_singleton] at hp
      rcases hp with hp | hp
      · exact hinv p hp
      · rw [hp]; exact hnew
    · simp
    · intro q hq
      exact reached_within_initial_for _ _ q hnew hq

/-- Witness for C6 as amended: the first pool created on a device of vendor 0. -/
theorem pool_invariant_except_vendor_branch_witness :
    (∀ p ∈ (root.fresh 0).mHeap, p.within_initial_for (root.fresh 0).vendorID) ∧
    ∃ p, ((root.fresh 0).get_descriptor_pool_for_layouts 0 [] ⟨[⟨6, 1⟩], 1⟩ stch false).2.mHeap[
        ((root.fresh 0).get_descriptor_pool_for_layouts 0 [] ⟨[⟨6, 1⟩], 1⟩ stch false).1]? =
          some p ∧
      ∀ q, reached_by_allocate p q → q.within_initial_for (root.fresh 0).vendorID :=
  ⟨(fun p hp => by cases hp),
    (pool_invariant_except_vendor_branch (root.fresh 0) 0 [] ⟨[⟨6, 1⟩], 1⟩ stch false
      (fun p hp => by cases hp)).2⟩

/-- C6, counterexample: on a device of vendor id `0x12d2` with preallocation
factor 5, the pool that `get_descriptor_pool_for_layouts` creates for a request
of one uniform buffer has initial capacity 1 and remaining capacity 5 for that
kind, so it does not satisfy remaining ≤ initial. -/
theorem new_pool_exceeds_initial_on_vendor_branch :
    ((root.fresh 0x12d2).get_descriptor_pool_for_layouts 0 [] ⟨[⟨6, 1⟩], 1⟩ stch false).1 = 0 ∧
    ((root.fresh 0x12d2).get_descriptor_pool_for_layouts 0 [] ⟨[⟨6, 1⟩], 1⟩ stch false).2.mHeap =
      [{ mInitialCapacities := [⟨6, 1⟩], mRemainingCapacities := [⟨6, 5⟩],
         mNumInitialSets := 5, mNumRemainingSets := 5, mDescriptorPool := some 1 }] ∧
    ¬ descriptor_pool.within_initial
      { mInitialCapacities := [⟨6, 1⟩], mRemainingCapacities := [⟨6, 5⟩],
        mNumInitialSets := 5, mNumRemainingSets := 5, mDescriptorPool := some 1 } := by
  refine ⟨by decide, by decide, ?_⟩
  intro h
  have := h.1
  simp [capacities_within] at this

/-! ## State kept by the pool directory and by carving -/

theorem get_descriptor_pool_for_layouts_keeps (r : root) (tid : Nat) (locals : List Nat)
    (aAllocRequest : descriptor_alloc_request) (aPoolName : Int) (aRequestNewPool : Bool) :
    (r.get_descriptor_pool_for_layouts tid locals aAllocRequest aPoolName aRequestNewPool).2.mSets
        = r.mSets ∧
    (r.get_descriptor_pool_for_layouts tid locals aAllocRequest aPoolName
        aRequestNewPool).2.mLayouts = r.mLayouts ∧
    (r.get_descriptor_pool_for_layouts tid locals aAllocRequest aPoolName
        aRequestNewPool).2.mCarveCalls = r.mCarveCalls ∧
    (r.get_descriptor_pool_for_layouts tid locals aAllocRequest aPoolName
        aRequestNewPool).2.vendorID = r.vendorID ∧
    (r.get_descriptor_pool_for_layouts tid locals aAllocRequest aPoolName
        aRequestNewPool).2.sDescriptorPoolPreallocFactor = r.sDescriptorPoolPreallocFactor := by
  rcases get_descriptor_pool_for_layouts_cases r tid locals aAllocRequest aPoolName
    aRequestNewPool with ⟨_, sptr, p, _, _, _, _, heq⟩ | ⟨_, heq⟩ <;>
  · rw [heq]; exact ⟨rfl, rfl, rfl, rfl, rfl⟩

theorem get_descriptor_pool_for_layouts_forced (r : root) (tid : Nat) (locals : List Nat)
    (aAllocRequest : descriptor_alloc_request) (aPoolName : Int) :
    r.get_descriptor_pool_for_layouts tid locals aAllocRequest aPoolName true =
      (r.mHeap.length,
        { r with
          mNextHandle := r.mNextHandle + 1
          mHeap := r.mHeap ++ [(r.new_pool_for aAllocRequest).1]
          mDescriptorPools :=
            set_bucket r.mDescriptorPools ⟨tid, aPoolName⟩
              (r.surviving_pools locals ⟨tid, aPoolName⟩ ++ [r.mHeap.length]) }) := by
  rfl

theorem new_pool_for_created (r : root) (aAllocRequest : descriptor_alloc_request) :
    (r.new_pool_for aAllocRequest).1.mDescriptorPool.isNone = false := by
  rfl

theorem new_pool_for_remaining (r : root) (aAllocRequest : descriptor_alloc_request) :
    (r.new_pool_for aAllocRequest).1.mRemainingCapacities =
      (aAllocRequest.multiply_size_requirements
        r.sDescriptorPoolPreallocFactor).accumulated_pool_sizes := by
  rfl

theorem new_pool_for_initial (r : root) (aAllocRequest : descriptor_alloc_request) :
    (r.new_pool_for aAllocRequest).1.mInitialCapacities =
      initial_capacities_for r.vendorID r.sDescriptorPoolPreallocFactor aAllocRequest := by
  unfold root.new_pool_for root.create_descriptor_pool initial_capacities_for
  by_cases h : 0x12d2 = r.vendorID <;> simp [h]

theorem new_pool_for_has_capacity (r : root) (aAllocRequest : descriptor_alloc_request)
    (hfits : scaling_fits r.sDescriptorPoolPreallocFactor aAllocRequest) :
    (r.new_pool_for aAllocRequest).1.has_capacity_for aAllocRequest = true := by
  rw [has_capacity_for_iff, new_pool_for_remaining]
  intro i hi _
  unfold descriptor_alloc_request.multiply_size_requirements
    descriptor_alloc_request.accumulated_pool_sizes entry_fits
  simp only [List.getD_eq_getElem?_getD, List.getElem?_map]
  rw [List.getElem?_eq_getElem hi]
  simp only [Option.map_some', Option.getD_some, true_and]
  exact hfits _ (List.getElem_mem _)

/-- The pool that `get_descriptor_pool_for_layouts` returns is an object of the
heap it leaves, has its native pool, and has capacity for the request when the
amplified request holds the requested counts. -/
theorem get_descriptor_pool_for_layouts_returns (r : root) (tid : Nat) (locals : List Nat)
    (aAllocRequest : descriptor_alloc_request) (aPoolName : Int) (aRequestNewPool : Bool)
    (hcreated : r.pools_created)
    (hfits : scaling_fits r.sDescriptorPoolPreallocFactor aAllocRequest) :
    (r.get_descriptor_pool_for_layouts tid locals aAllocRequest aPoolName
        aRequestNewPool).2.pools_created ∧
    r.mHeap.length ≤ (r.get_descriptor_pool_for_layouts tid locals aAllocRequest aPoolName
        aRequestNewPool).2.mHeap.length ∧
    ∃ p, (r.get_descriptor_pool_for_layouts tid locals aAllocRequest aPoolName
        aRequestNewPool).2.mHeap[(r.get_descriptor_pool_for_layouts tid locals aAllocRequest
          aPoolName aRequestNewPool).1]? = some p ∧
      p.has_capacity_for aAllocRequest = true ∧ p.mDescriptorPool.isNone = false := by
  rcases get_descriptor_pool_for_layouts_cases r tid locals aAllocRequest aPoolName
    aRequestNewPool with ⟨_, sptr, p, _, hheap, hcap, _, heq⟩ | ⟨_, heq⟩
  · rw [heq]
    exact ⟨hcreated, le_refl _, p, hheap, hcap, hcreated p (List.getElem?_mem hheap)⟩
  · rw [heq]
    refine ⟨?_, ?_, (r.new_pool_for aAllocRequest).1, ?_, ?_, ?_⟩
    · intro p hp
      simp only [List.mem_append, List.mem_singleton] at hp
      rcases hp with hp | hp
      · exact hcreated p hp
      · rw [hp]; rfl
    · simp
    · simp
    · exact new_pool_for_has_capacity r aAllocRequest hfits
    · rfl

theorem allocate_from_error (r : root) (native : native_allocator) (address : Nat)
    (aLayouts : List descriptor_set_layout) (p : descriptor_pool) (e : VkError)
    (hp : r.mHeap[address]? = some p) (hcreated : p.mDescriptorPool.isNone = false)
    (hnative : native r.mCarveCalls.length = .error e) :
    r.allocate_from native address aLayouts =
      (.error (.vulkan e), r.with_carve_call address aLayouts) := by
  unfold root.allocate_from descriptor_pool.allocate
  simp only [hp, hcreated, hnative, Bool.false_eq_true, if_false]

theorem allocate_from_ok (r : root) (native : native_allocator) (address : Nat)
    (aLayouts : List descriptor_set_layout) (p : descriptor_pool) (setHandles : List Nat)
    (hp : r.mHeap[address]? = some p) (hcreated : p.mDescriptorPool.isNone = false)
    (hnative : native r.mCarveCalls.length = .ok setHandles) :
    r.allocate_from native address aLayouts =
      (.ok setHandles,
        { r.with_carve_call address aLayouts with
          mHeap := r.mHeap.set address
            { p with
              mRemainingCapacities := update_pool_stats p.mRemainingCapacities aLayouts
              mNumRemainingSets := p.mNumRemainingSets - (aLayouts.length : Int) } }) := by
  unfold root.allocate_from descriptor_pool.allocate
  simp only [hp, hcreated, hnative, Bool.false_eq_true, if_false]
  rfl

/-! ## The retry loop of `alloc_new_descriptor_sets` -/

theorem retry_loop_out_of_pool_memory (native : native_allocator) (tid : Nat)
    (aLayouts : List descriptor_set_layout) (numPreparedSets maxTries : Nat) (r : root)
    (allocRequest : descriptor_alloc_request) (poolToTry : Nat) (p : descriptor_pool)
    (hp : r.mHeap[poolToTry]? = some p) (hcap : p.has_capacity_for allocRequest = true)
    (hcreated : p.mDescriptorPool.isNone = false)
    (hnative : native r.mCarveCalls.length = .error .outOfPoolMemory) :
    root.retry_loop native tid aLayouts numPreparedSets (maxTries + 1) r allocRequest poolToTry =
      root.retry_loop native tid aLayouts numPreparedSets maxTries
        ((r.with_carve_call poolToTry aLayouts).on_out_of_pool_memory tid maxTries allocRequest
          poolToTry).2.2
        ((r.with_carve_call poolToTry aLayouts).on_out_of_pool_memory tid maxTries allocRequest
          poolToTry).1
        ((r.with_carve_call poolToTry aLayouts).on_out_of_pool_memory tid maxTries allocRequest
          poolToTry).2.1 := by
  conv => lhs; unfold root.retry_loop
  simp only [hp, hcap, Bool.not_true, Bool.false_eq_true, if_false,
    allocate_from_error r native poolToTry aLayouts p _ hp hcreated hnative]

theorem retry_loop_other_error (native : native_allocator) (tid : Nat)
    (aLayouts : List descriptor_set_layout) (numPreparedSets maxTries : Nat) (r : root)
    (allocRequest : descriptor_alloc_request) (poolToTry : Nat) (p : descriptor_pool)
    (code : Nat)
    (hp : r.mHeap[poolToTry]? = some p) (hcap : p.has_capacity_for allocRequest = true)
    (hcreated : p.mDescriptorPool.isNone = false)
    (hnative : native r.mCarveCalls.length = .error (.other code)) :
    root.retry_loop native tid aLayouts numPreparedSets (maxTries + 1) r allocRequest poolToTry =
      (.error (.vulkan (.other code)), r.with_carve_call poolToTry aLayouts) := by
  conv => lhs; unfold root.retry_loop
  simp only [hp, hcap, Bool.not_true, Bool.false_eq_true, if_false,
    allocate_from_error r native poolToTry aLayouts p _ hp hcreated hnative]

theorem retry_loop_success (native : native_allocator) (tid : Nat)
    (aLayouts : List descriptor_set_layout) (numPreparedSets maxTries : Nat) (r : root)
    (allocRequest : descriptor_alloc_request) (poolToTry : Nat) (p : descriptor_pool)
    (setHandles : List Nat)
    (hp : r.mHeap[poolToTry]? = some p) (hcap : p.has_capacity_for allocRequest = true)
    (hcreated : p.mDescriptorPool.isNone = false)
    (hnative : native r.mCarveCalls.length = .ok setHandles)
    (hlen : setHandles.length = numPreparedSets) :
    root.retry_loop native tid aLayouts numPreparedSets (maxTries + 1) r allocRequest poolToTry =
      (.ok (some (poolToTry, setHandles)),
        { r.with_carve_call poolToTry aLayouts with
          mHeap := r.mHeap.set poolToTry
            { p with
              mRemainingCapacities := update_pool_stats p.mRemainingCapacities aLayouts
              mNumRemainingSets := p.mNumRemainingSets - (aLayouts.length : Int) } }) := by
  conv => lhs; unfold root.retry_loop
  simp only [hp, hcap, Bool.not_true, Bool.false_eq_true, if_false,
    allocate_from_ok r native poolToTry aLayouts p _ hp hcreated hnative, hlen, ne_eq,
    not_true_eq_false]

theorem with_carve_call_pools_created (r : root) (address : Nat)
    (aLayouts : List descriptor_set_layout) (h : r.pools_created) :
    (r.with_carve_call address aLayouts).pools_created := h

/-- What the `catch` block leaves behind: the request of `request_after_failure`,
and as `poolToTry` a pool object created by this block, the last of the heap,
with capacity for that request; caches and recorded calls are untouched. -/
theorem on_out_of_pool_memory_spec (r : root) (tid maxTries : Nat)
    (allocRequest : descriptor_alloc_request) (poolToTry : Nat)
    (hcreated : r.pools_created)
    (hfits : scaling_fits r.sDescriptorPoolPreallocFactor
      (request_after_failure maxTries allocRequest)) :
    (r.on_out_of_pool_memory tid maxTries allocRequest poolToTry).1 =
        request_after_failure maxTries allocRequest ∧
    (r.on_out_of_pool_memory tid maxTries allocRequest poolToTry).2.2.pools_created ∧
    (r.on_out_of_pool_memory tid maxTries allocRequest poolToTry).2.2.mSets = r.mSets ∧
    (r.on_out_of_pool_memory tid maxTries allocRequest poolToTry).2.2.mLayouts = r.mLayouts ∧
    (r.on_out_of_pool_memory tid maxTries allocRequest poolToTry).2.2.mCarveCalls =
        r.mCarveCalls ∧
    (r.on_out_of_pool_memory tid maxTries allocRequest poolToTry).2.2.vendorID = r.vendorID ∧
    (r.on_out_of_pool_memory tid maxTries allocRequest poolToTry).2.2.sDescriptorPoolPreallocFactor
        = r.sDescriptorPoolPreallocFactor ∧
    r.mHeap.length ≤ (r.on_out_of_pool_memory tid maxTries allocRequest poolToTry).2.1 ∧
    (r.on_out_of_pool_memory tid maxTries allocRequest poolToTry).2.1 + 1 =
        (r.on_out_of_pool_memory tid maxTries allocRequest poolToTry).2.2.mHeap.length ∧
    ∃ p, (r.on_out_of_pool_memory tid maxTries allocRequest poolToTry).2.2.mHeap[
        (r.on_out_of_pool_memory tid maxTries allocRequest poolToTry).2.1]? = some p ∧
      p.has_capacity_for (request_after_failure maxTries allocRequest) = true ∧
      p.mDescriptorPool.isNone = false ∧
      p.mInitialCapacities = initial_capacities_for r.vendorID r.sDescriptorPoolPreallocFactor
        (request_after_failure maxTries allocRequest) := by
  unfold root.on_out_of_pool_memory
  by_cases hm : maxTries = 1
  · simp only [hm, if_true, request_after_failure] at hfits ⊢
    obtain ⟨k1, k2, k3, k4, k5⟩ := get_descriptor_pool_for_layouts_keeps r tid [poolToTry]
      (allocRequest.multiply_size_requirements 2) stch false
    obtain ⟨c1, c2, _⟩ := get_descriptor_pool_for_layouts_returns r tid [poolToTry]
      (allocRequest.multiply_size_requirements 2) stch false hcreated hfits
    generalize r.get_descriptor_pool_for_layouts tid [poolToTry]
      (allocRequest.multiply_size_requirements 2) stch false = sel at k1 k2 k3 k4 k5 c1 c2 ⊢
    obtain ⟨poolToTry1, r1⟩ := sel
    simp only at k1 k2 k3 k4 k5 c1 c2 ⊢
    rw [get_descriptor_pool_for_layouts_forced]
    simp only [k1, k2, k3, List.length_append, List.length_singleton, true_and]
    refine ⟨?_, k4, k5, c2, ?_⟩
    · intro p hp
      simp only [List.mem_append, List.mem_singleton] at hp
      rcases hp with hp | hp
      · exact c1 p hp
      · rw [hp]; rfl
    · refine ⟨(r1.new_pool_for (allocRequest.multiply_size_requirements 2)).1, by simp, ?_, rfl, ?_⟩
      · exact new_pool_for_has_capacity r1 _ (k5 ▸ hfits)
      · rw [new_pool_for_initial, k4, k5]
  · simp only [hm, if_false, request_after_failure] at hfits ⊢
    rw [get_descriptor_pool_for_layouts_forced]
    simp only [List.length_append, List.length_singleton, true_and, le_refl]
    refine ⟨?_, ?_⟩
    · intro p hp
      simp only [List.mem_append, List.mem_singleton] at hp
      rcases hp with hp | hp
      · exact hcreated p hp
      · rw [hp]; rfl
    · refine ⟨(r.new_pool_for allocRequest).1, by simp, ?_, rfl, ?_⟩
      · exact new_pool_for_has_capacity r _ hfits
      · rw [new_pool_for_initial]

/-- C7 as amended: when the first carve attempt of `alloc_new_descriptor_sets`
fails with out-of-pool-memory, the second attempt is made with the unchanged
allocation request against a pool that `get_descriptor_pool_for_layouts`
creates with `aRequestNewPool = true`, a new object at the end of the heap. -/
theorem second_attempt_on_new_pool_with_unchanged_request (r r1 : root)
    (native : native_allocator) (tid : Nat) (aLayouts : List descriptor_set_layout)
    (aPreparedSets : List descriptor_set) (poolToTry : Nat) (p : descriptor_pool)
    (hlen : aLayouts.length = aPreparedSets.length)
    (hsane : (aLayouts.zip aPreparedSets).all (fun lp => sanity_check lp.1 lp.2) = true)
    (hsel : r.get_descriptor_pool_for_layouts tid []
      (descriptor_alloc_request.ofLayouts aLayouts) stch false = (poolToTry, r1))
    (hp : r1.mHeap[poolToTry]? = some p)
    (hcap : p.has_capacity_for (descriptor_alloc_request.ofLayouts aLayouts) = true)
    (hcreated : p.mDescriptorPool.isNone = false)
    (hnative : native r1.mCarveCalls.length = .error .outOfPoolMemory) :
    r.alloc_new_descriptor_sets native tid aLayouts aPreparedSets =
      root.finish_alloc aPreparedSets
        (root.retry_loop native tid aLayouts aPreparedSets.length 2
          ((r1.with_carve_call poolToTry aLayouts).get_descriptor_pool_for_layouts tid [poolToTry]
            (descriptor_alloc_request.ofLayouts aLayouts) stch true).2
          (descriptor_alloc_request.ofLayouts aLayouts)
          ((r1.with_carve_call poolToTry aLayouts).get_descriptor_pool_for_layouts tid [poolToTry]
            (descriptor_alloc_request.ofLayouts aLayouts) stch true).1) ∧
    ((r1.with_carve_call poolToTry aLayouts).get_descriptor_pool_for_layouts tid [poolToTry]
      (descriptor_alloc_request.ofLayouts aLayouts) stch true).1 = r1.mHeap.length ∧
    ((r1.with_carve_call poolToTry aLayouts).get_descriptor_pool_for_layouts tid [poolToTry]
      (descriptor_alloc_request.ofLayouts aLayouts) stch true).2.mHeap =
      r1.mHeap ++ [((r1.with_carve_call poolToTry aLayouts).new_pool_for
        (descriptor_alloc_request.ofLayouts aLayouts)).1] := by
  refine ⟨?_, rfl, rfl⟩
  unfold root.alloc_new_descriptor_sets
  simp only [hlen, hsane, ne_eq, not_true_eq_false, if_false, Bool.not_true, Bool.false_eq_true,
    hsel]
  rw [retry_loop_out_of_pool_memory native tid aLayouts aPreparedSets.length 2 r1 _ poolToTry p
    hp hcap hcreated hnative]
  rfl

/-- Witness for C7 as amended: the directory holds a pool with room, the first
carve fails, the second is answered. -/
theorem second_attempt_on_new_pool_with_unchanged_request_witness :
    (root.with_roomy_pool.get_descriptor_pool_for_layouts 0 []
      (descriptor_alloc_request.ofLayouts [uniform_buffer_layout (some 1)]) stch false).1 = 0 ∧
    ((root.with_roomy_pool.with_carve_call 0
      [uniform_buffer_layout (some 1)]).get_descriptor_pool_for_layouts 0 [0]
      (descriptor_alloc_request.ofLayouts [uniform_buffer_layout (some 1)]) stch true).1 = 1 :=
  ⟨by decide,
    (second_attempt_on_new_pool_with_unchanged_request root.with_roomy_pool
      root.with_roomy_pool (out_of_pool_memory_first 1 [100]) 0
      [uniform_buffer_layout (some 1)] [uniform_buffer_set 7] 0 (pool_of [⟨6, 100⟩])
      (by decide) (by decide) (by decide) (by decide) (by decide) (by decide) rfl).2.1⟩

/-- C7, counterexample: the directory holds a pool with room for the request
and for the doubled request, and the first carve fails with
out-of-pool-memory. The second carve goes to a new pool (index 1) sized for the
request as it was (one uniform buffer times the factor 5), whereas a
re-selection for the doubled request without forcing a new pool returns the
existing pool (index 0). -/
theorem second_attempt_neither_doubles_nor_reselects :
    ((root.with_roomy_pool.alloc_new_descriptor_sets (out_of_pool_memory_first 1 [100]) 0
      [uniform_buffer_layout (some 1)] [uniform_buffer_set 7]).2.mCarveCalls.map
        (fun call => call.pool)) = [0, 1] ∧
    ((root.with_roomy_pool.alloc_new_descriptor_sets (out_of_pool_memory_first 1 [100]) 0
      [uniform_buffer_layout (some 1)] [uniform_buffer_set 7]).2.mHeap.map
        (fun pool => pool.mInitialCapacities)) = [[⟨6, 100⟩], [⟨6, 5⟩]] ∧
    ((root.with_roomy_pool.with_carve_call 0
      [uniform_buffer_layout (some 1)]).get_descriptor_pool_for_layouts 0 [0]
        ((descriptor_alloc_request.ofLayouts
          [uniform_buffer_layout (some 1)]).multiply_size_requirements 2) stch false).1 = 0 := by
  refine ⟨by decide, by decide, by decide⟩

/-- C10: when a carve attempt of the retry loop fails with an error other than
out-of-pool-memory, `alloc_new_descriptor_sets` ends with that error in the
state the failed call left: one more recorded carve call, the same heap and
pool directory (no further pool is requested), and the same set cache. -/
theorem other_error_propagates_immediately (native : native_allocator) (tid : Nat)
    (aLayouts : List descriptor_set_layout) (aPreparedSets : List descriptor_set)
    (maxTries : Nat) (r : root) (allocRequest : descriptor_alloc_request) (poolToTry : Nat)
    (p : descriptor_pool) (code : Nat)
    (hp : r.mHeap[poolToTry]? = some p) (hcap : p.has_capacity_for allocRequest = true)
    (hcreated : p.mDescriptorPool.isNone = false)
    (hnative : native r.mCarveCalls.length = .error (.other code)) :
    root.finish_alloc aPreparedSets
        (root.retry_loop native tid aLayouts aPreparedSets.length (maxTries + 1) r allocRequest
          poolToTry) =
      (.error (.vulkan (.other code)), r.with_carve_call poolToTry aLayouts) ∧
    (r.with_carve_call poolToTry aLayouts).mCarveCalls =
      r.mCarveCalls ++ [⟨poolToTry, aLayouts.map (fun l => l.handle)⟩] ∧
    (r.with_carve_call poolToTry aLayouts).mHeap = r.mHeap ∧
    (r.with_carve_call poolToTry aLayouts).mDescriptorPools = r.mDescriptorPools ∧
    (r.with_carve_call poolToTry aLayouts).mSets = r.mSets := by
  refine ⟨?_, rfl, rfl, rfl, rfl⟩
  rw [retry_loop_other_error native tid aLayouts aPreparedSets.length maxTries r allocRequest
    poolToTry p code hp hcap hcreated hnative]
  rfl

/-- Witness for C10: the first attempt against the pool with room fails with
error code 4. -/
theorem other_error_propagates_immediately_witness :
    root.with_roomy_pool.mHeap[0]? = some (pool_of [⟨6, 100⟩]) ∧
    (root.with_roomy_pool.alloc_new_descriptor_sets (always_failing 4) 0
      [uniform_buffer_layout (some 1)] [uniform_buffer_set 7]) =
      (.error (.vulkan (.other 4)),
        root.with_roomy_pool.with_carve_call 0 [uniform_buffer_layout (some 1)]) :=
  ⟨by decide,
    (other_error_propagates_immediately (always_failing 4) 0 [uniform_buffer_layout (some 1)]
      [uniform_buffer_set 7] 2 root.with_roomy_pool
      (descriptor_alloc_request.ofLayouts [uniform_buffer_layout (some 1)]) 0
      (pool_of [⟨6, 100⟩]) 4 (by decide) (by decide) (by decide) rfl).1⟩

/-- One failed attempt of the retry loop: the loop goes on with the request of
`request_after_failure` against a pool object created by the `catch` block,
with one more recorded carve call and the caches untouched. -/
theorem retry_loop_failed_attempt (native : native_allocator) (tid : Nat)
    (aLayouts : List descriptor_set_layout) (numPreparedSets maxTries : Nat) (r : root)
    (allocRequest : descriptor_alloc_request) (poolToTry : Nat) (p : descriptor_pool)
    (hpools : r.pools_created)
    (hp : r.mHeap[poolToTry]? = some p) (hcap : p.has_capacity_for allocRequest = true)
    (hcreated : p.mDescriptorPool.isNone = false)
    (hnative : native r.mCarveCalls.length = .error .outOfPoolMemory)
    (hfits : scaling_fits r.sDescriptorPoolPreallocFactor
      (request_after_failure maxTries allocRequest)) :
    ∃ (r1 : root) (poolToTry1 : Nat) (p1 : descriptor_pool),
      root.retry_loop native tid aLayouts numPreparedSets (maxTries + 1) r allocRequest poolToTry
        = root.retry_loop native tid aLayouts numPreparedSets maxTries r1
          (request_after_failure maxTries allocRequest) poolToTry1 ∧
      r1.pools_created ∧ r1.mSets = r.mSets ∧ r1.mLayouts = r.mLayouts ∧
      r1.mCarveCalls = r.mCarveCalls ++ [⟨poolToTry, aLayouts.map (fun l => l.handle)⟩] ∧
      r1.vendorID = r.vendorID ∧
      r1.sDescriptorPoolPreallocFactor = r.sDescriptorPoolPreallocFactor ∧
      r.mHeap.length ≤ poolToTry1 ∧ poolToTry1 + 1 = r1.mHeap.length ∧
      r1.mHeap[poolToTry1]? = some p1 ∧
      p1.has_capacity_for (request_after_failure maxTries allocRequest) = true ∧
      p1.mDescriptorPool.isNone = false ∧
      p1.mInitialCapacities = initial_capacities_for r.vendorID r.sDescriptorPoolPreallocFactor
        (request_after_failure maxTries allocRequest) := by
  obtain ⟨e1, e2, e3, e4, e5, e6, e7, e8, e9, p1, e10, e11, e12, e13⟩ :=
    on_out_of_pool_memory_spec (r.with_carve_call poolToTry aLayouts) tid maxTries allocRequest
      poolToTry (with_carve_call_pools_created r poolToTry aLayouts hpools) hfits
  refine ⟨_, _, p1, ?_, e2, e3, e4, e5, e6, e7, e8, e9, e10, e11, e12, e13⟩
  rw [retry_loop_out_of_pool_memory native tid aLayouts numPreparedSets maxTries r allocRequest
    poolToTry p hp hcap hcreated hnative, e1]

/-- C9: when the native allocator rejects every carve attempt with
out-of-pool-memory, `alloc_new_descriptor_sets` makes exactly three carve
attempts and then fails fatally: it returns no list of sets, and the set
cache is what it was. The hypotheses are the assertions the method itself
makes before each attempt. -/
theorem retry_budget_exhausted (r : root) (native : native_allocator) (tid : Nat)
    (aLayouts : List descriptor_set_layout) (aPreparedSets : List descriptor_set)
    (hlen : aLayouts.length = aPreparedSets.length)
    (hsane : (aLayouts.zip aPreparedSets).all (fun lp => sanity_check lp.1 lp.2) = true)
    (hpools : r.pools_created)
    (hfits : scaling_fits r.sDescriptorPoolPreallocFactor
      (descriptor_alloc_request.ofLayouts aLayouts))
    (hfits2 : scaling_fits r.sDescriptorPoolPreallocFactor
      ((descriptor_alloc_request.ofLayouts aLayouts).multiply_size_requirements 2))
    (h1 : native r.mCarveCalls.length = .error .outOfPoolMemory)
    (h2 : native (r.mCarveCalls.length + 1) = .error .outOfPoolMemory)
    (h3 : native (r.mCarveCalls.length + 2) = .error .outOfPoolMemory) :
    ∃ r3 : root,
      r.alloc_new_descriptor_sets native tid aLayouts aPreparedSets = (.error .assertion, r3) ∧
      r3.mCarveCalls.length = r.mCarveCalls.length + 3 ∧
      r3.mSets = r.mSets := by
  unfold root.alloc_new_descriptor_sets
  simp only [hlen, hsane, ne_eq, not_true_eq_false, if_false, Bool.not_true, Bool.false_eq_true]
  obtain ⟨k1, _, k3, _, k5⟩ := get_descriptor_pool_for_layouts_keeps r tid []
    (descriptor_alloc_request.ofLayouts aLayouts) stch false
  obtain ⟨c1, _, p0, c3, c4, c5⟩ := get_descriptor_pool_for_layouts_returns r tid []
    (descriptor_alloc_request.ofLayouts aLayouts) stch false hpools hfits
  generalize r.get_descriptor_pool_for_layouts tid []
    (descriptor_alloc_request.ofLayouts aLayouts) stch false = sel at k1 k3 k5 c1 c3 ⊢
  obtain ⟨poolToTry, r0⟩ := sel
  simp only at k1 k3 k5 c1 c3 ⊢
  obtain ⟨ra, a1, pa, ea, ca, sa, _, la, _, fa, _, _, ha, capa, cra, _⟩ :=
    retry_loop_failed_attempt native tid aLayouts aPreparedSets.length 2 r0 _ poolToTry p0 c1 c3
      c4 c5 (by rw [k3]; exact h1) (by rw [k5]; exact hfits)
  obtain ⟨rb, a2, pb, eb, cb, sb, _, lb, _, fb, _, _, hb, capb, crb, _⟩ :=
    retry_loop_failed_attempt native tid aLayouts aPreparedSets.length 1 ra _ a1 pa ca ha
      capa cra (by rw [la, k3]; simpa using h2) (by rw [fa, k5]; exact hfits2)
  obtain ⟨rc, a3, pc, ec, _, sc, _, lc, _, _, _, _, _, _, _, _⟩ :=
    retry_loop_failed_attempt native tid aLayouts aPreparedSets.length 0 rb _ a2 pb cb hb
      capb crb (by rw [lb, la, k3]; simpa using h3) (by rw [fb, fa, k5]; exact hfits2)
  refine ⟨rc, ?_, ?_, ?_⟩
  · rw [ea, eb, ec]; rfl
  · rw [lc, lb, la, k3]; simp
  · rw [sc, sb, sa, k1]

/-- Witness for C9: an empty directory with preallocation factor 5 and a
native allocator that rejects every call. -/
theorem retry_budget_exhausted_witness :
    ∃ r3 : root,
      (root.fresh 0).alloc_new_descriptor_sets (out_of_pool_memory_first 3 [100]) 0
        [uniform_buffer_layout (some 1)] [uniform_buffer_set 7] = (.error .assertion, r3) ∧
      r3.mCarveCalls.length = (root.fresh 0).mCarveCalls.length + 3 ∧
      r3.mSets = (root.fresh 0).mSets :=
  retry_budget_exhausted (root.fresh 0) (out_of_pool_memory_first 3 [100]) 0
    [uniform_buffer_layout (some 1)] [uniform_buffer_set 7] (by decide) (by decide)
    (fun p hp => by cases hp) (by decide) (by decide) rfl rfl rfl

/-! ## Completing prepared sets -/

theorem with_data_pointers_idempotent (s : descriptor_set) :
    s.with_data_pointers.with_data_pointers = s.with_data_pointers := by
  unfold descriptor_set.with_data_pointers
  simp only [List.map_map]
  congr 1

theorem link_update_data_pointers (s : descriptor_set) (setHandle pool : Nat) :
    (s.link_to_handle_and_pool (some setHandle) (some pool)).update_data_pointers =
      .ok (s.completed setHandle pool) := by
  unfold descriptor_set.update_data_pointers descriptor_set.completed
  have hall : (s.link_to_handle_and_pool (some setHandle)
      (some pool)).mOrderedDescriptorDataWrites.all (fun w =>
        decide (some w.dstSet = (s.link_to_handle_and_pool (some setHandle)
          (some pool)).mOrderedDescriptorDataWrites.head?.map (fun w0 => w0.dstSet))) = true := by
    unfold descriptor_set.link_to_handle_and_pool
    cases s.mOrderedDescriptorDataWrites with
    | nil => rfl
    | cons w ws => simp
  rw [if_pos hall]

theorem completed_update_data_pointers (s : descriptor_set) (setHandle pool : Nat) :
    (s.completed setHandle pool).update_data_pointers = .ok (s.completed setHandle pool) := by
  unfold descriptor_set.update_data_pointers
  have hall : (s.completed setHandle pool).mOrderedDescriptorDataWrites.all (fun w =>
        decide (some w.dstSet = (s.completed setHandle
          pool).mOrderedDescriptorDataWrites.head?.map (fun w0 => w0.dstSet))) = true := by
    unfold descriptor_set.completed descriptor_set.with_data_pointers
      descriptor_set.link_to_handle_and_pool
    cases s.mOrderedDescriptorDataWrites with
    | nil => rfl
    | cons w ws => simp
  rw [if_pos hall]
  unfold descriptor_set.completed
  rw [with_data_pointers_idempotent]

theorem complete_and_insert_eq (r : root) (pool : Nat) (s : descriptor_set) (setHandle : Nat) :
    r.complete_and_insert pool s setHandle =
      if r.mSets.any (fun c => (s.completed setHandle pool).eq c) then (.error .assertion, r)
      else (.ok (s.completed setHandle pool),
        { r with mSets := r.mSets ++ [s.completed setHandle pool] }) := by
  unfold root.complete_and_insert
  simp only [link_update_data_pointers]
  have hw : (s.completed setHandle pool).write_descriptors = .ok (s.completed setHandle pool) := by
    unfold descriptor_set.write_descriptors
    rw [completed_update_data_pointers]
    rfl
  simp only [hw]

/-- The completion loop succeeds when no completed set equals a set of the
cache or an earlier completed set; it then appends the completed sets, in
order, to the result and to the set cache. -/
theorem complete_all_of_fresh (pool : Nat) :
    ∀ (pairs : List (descriptor_set × Nat)) (r : root) (result : List descriptor_set),
      (∀ sp ∈ pairs, ∀ c ∈ r.mSets, (sp.1.completed sp.2 pool).eq c = false) →
      pairs.Pairwise (fun a b => (b.1.completed b.2 pool).eq (a.1.completed a.2 pool) = false) →
      root.complete_all pool pairs r result =
        (.ok (result ++ pairs.map (fun sp => sp.1.completed sp.2 pool)),
          { r with mSets := r.mSets ++ pairs.map (fun sp => sp.1.completed sp.2 pool) }) := by
  intro pairs
  induction pairs with
  | nil => intro r result _ _; simp [root.complete_all]
  | cons sp rest ih =>
    intro r result hfresh hdistinct
    obtain ⟨s, setHandle⟩ := sp
    unfold root.complete_all
    rw [complete_and_insert_eq]
    have hany : r.mSets.any (fun c => (s.completed setHandle pool).eq c) = false := by
      rw [List.any_eq_false]
      intro c hc
      simp [hfresh (s, setHandle) (List.mem_cons_self _ _) c hc]
    simp only [hany, Bool.false_eq_true, if_false]
    rw [List.pairwise_cons] at hdistinct
    rw [ih]
    · simp
    · intro sp hsp c hc
      simp only [List.mem_append, List.mem_singleton] at hc
      rcases hc with hc | hc
      · exact hfresh sp (List.mem_cons_of_mem _ hsp) c hc
      · rw [hc]; exact hdistinct.1 sp hsp
    · exact hdistinct.2

/-- When the completion loop succeeds, every insertion took place. -/
theorem fresh_of_complete_all (pool : Nat) :
    ∀ (pairs : List (descriptor_set × Nat)) (r r1 : root)
      (result result1 : List descriptor_set),
      root.complete_all pool pairs r result = (.ok result1, r1) →
      (∀ sp ∈ pairs, ∀ c ∈ r.mSets, (sp.1.completed sp.2 pool).eq c = false) ∧
      pairs.Pairwise (fun a b => (b.1.completed b.2 pool).eq (a.1.completed a.2 pool) = false) := by
  intro pairs
  induction pairs with
  | nil => intro r r1 result result1 _; simp
  | cons sp rest ih =>
    intro r r1 result result1 h
    obtain ⟨s, setHandle⟩ := sp
    unfold root.complete_all at h
    rw [complete_and_insert_eq] at h
    cases hany : r.mSets.any (fun c => (s.completed setHandle pool).eq c) with
    | true => simp [hany] at h
    | false =>
      simp only [hany, Bool.false_eq_true, if_false] at h
      obtain ⟨ih1, ih2⟩ := ih _ _ _ _ h
      rw [List.any_eq_false] at hany
      refine ⟨?_, ?_⟩
      · intro sp hsp c hc
        rcases List.mem_cons.mp hsp with hsp | hsp
        · rw [hsp]
          simpa using hany c hc
        · exact ih1 sp hsp c (by simp [hc])
      · rw [List.pairwise_cons]
        refine ⟨?_, ih2⟩
        intro sp hsp
        exact ih1 sp hsp _ (by simp)

/-! ## Equality does not see the native handle or the pool -/

theorem eq_congr_left (a b c : descriptor_set) (f : WriteDescriptorSet → WriteDescriptorSet)
    (hf : ∀ w w1, writes_agree (f w) w1 = writes_agree w w1)
    (hab : a.mOrderedDescriptorDataWrites = b.mOrderedDescriptorDataWrites.map f) :
    a.eq c = b.eq c := by
  unfold descriptor_set.eq
  rw [hab, List.length_map, List.zip_map_left, List.all_map]
  congr 2
  funext lr
  exact hf lr.1 lr.2

theorem eq_congr_right (a b c : descriptor_set) (f : WriteDescriptorSet → WriteDescriptorSet)
    (hf : ∀ w w1, writes_agree w1 (f w) = writes_agree w1 w)
    (hab : a.mOrderedDescriptorDataWrites = b.mOrderedDescriptorDataWrites.map f) :
    c.eq a = c.eq b := by
  unfold descriptor_set.eq
  rw [hab, List.length_map, List.zip_map_right, List.all_map]
  congr 2
  funext lr
  exact hf lr.2 lr.1

theorem completed_writes (s : descriptor_set) (setHandle pool : Nat) :
    (s.completed setHandle pool).mOrderedDescriptorDataWrites =
      s.with_data_pointers.mOrderedDescriptorDataWrites.map
        (fun w => { w with dstSet := some setHandle }) := by
  unfold descriptor_set.completed descriptor_set.with_data_pointers
    descriptor_set.link_to_handle_and_pool
  simp only [List.map_map]
  congr 1

theorem completed_eq_left (s c : descriptor_set) (setHandle pool : Nat) :
    (s.completed setHandle pool).eq c = s.with_data_pointers.eq c :=
  eq_congr_left _ _ c (fun w => { w with dstSet := some setHandle }) (fun _ _ => rfl)
    (completed_writes s setHandle pool)

theorem completed_eq_right (s c : descriptor_set) (setHandle pool : Nat) :
    c.eq (s.completed setHandle pool) = c.eq s.with_data_pointers :=
  eq_congr_right _ _ c (fun w => { w with dstSet := some setHandle }) (fun _ _ => rfl)
    (completed_writes s setHandle pool)

/-- C8: when the native allocator rejects the first two carve attempts of
`alloc_new_descriptor_sets` with out-of-pool-memory and accepts the third, the
call succeeds and returns one completed set per prepared set, in order, each
linked to the pool of the third attempt; that pool is a pool object created
after the second failure with `aRequestNewPool = true`, the last of the heap,
and sized for the request with doubled per-kind requirements. The hypotheses
are the assertions the method itself makes. -/
theorem recovery_on_third_attempt (r : root) (native : native_allocator) (tid : Nat)
    (aLayouts : List descriptor_set_layout) (aPreparedSets : List descriptor_set)
    (setHandles : List Nat)
    (hlen : aLayouts.length = aPreparedSets.length)
    (hsane : (aLayouts.zip aPreparedSets).all (fun lp => sanity_check lp.1 lp.2) = true)
    (hpools : r.pools_created)
    (hfits : scaling_fits r.sDescriptorPoolPreallocFactor
      (descriptor_alloc_request.ofLayouts aLayouts))
    (hfits2 : scaling_fits r.sDescriptorPoolPreallocFactor
      ((descriptor_alloc_request.ofLayouts aLayouts).multiply_size_requirements 2))
    (h1 : native r.mCarveCalls.length = .error .outOfPoolMemory)
    (h2 : native (r.mCarveCalls.length + 1) = .error .outOfPoolMemory)
    (h3 : native (r.mCarveCalls.length + 2) = .ok setHandles)
    (hhandles : setHandles.length = aPreparedSets.length)
    (hne : aPreparedSets ≠ [])
    (hfresh : ∀ s ∈ aPreparedSets, ∀ c ∈ r.mSets, s.with_data_pointers.eq c = false)
    (hdistinct : aPreparedSets.Pairwise
      (fun a b => b.with_data_pointers.eq a.with_data_pointers = false)) :
    ∃ (pool first second : Nat) (r3 : root) (p : descriptor_pool),
      r.alloc_new_descriptor_sets native tid aLayouts aPreparedSets =
        (.ok ((aPreparedSets.zip setHandles).map (fun sp => sp.1.completed sp.2 pool)), r3) ∧
      ((aPreparedSets.zip setHandles).map (fun sp => sp.1.completed sp.2 pool)).length =
        aPreparedSets.length ∧
      (∀ s ∈ (aPreparedSets.zip setHandles).map (fun sp => sp.1.completed sp.2 pool),
        s.mPool = some pool) ∧
      r3.mCarveCalls = r.mCarveCalls ++
        [⟨first, aLayouts.map (fun l => l.handle)⟩, ⟨second, aLayouts.map (fun l => l.handle)⟩,
          ⟨pool, aLayouts.map (fun l => l.handle)⟩] ∧
      first < pool ∧ second < pool ∧ r.mHeap.length ≤ pool ∧ pool + 1 = r3.mHeap.length ∧
      r3.mHeap[pool]? = some p ∧
      p.mInitialCapacities = initial_capacities_for r.vendorID r.sDescriptorPoolPreallocFactor
        ((descriptor_alloc_request.ofLayouts aLayouts).multiply_size_requirements 2) ∧
      r3.mSets = r.mSets ++
        (aPreparedSets.zip setHandles).map (fun sp => sp.1.completed sp.2 pool) := by
  unfold root.alloc_new_descriptor_sets
  simp only [hlen, hsane, ne_eq, not_true_eq_false, if_false, Bool.not_true, Bool.false_eq_true]
  obtain ⟨k1, _, k3, k4, k5⟩ := get_descriptor_pool_for_layouts_keeps r tid []
    (descriptor_alloc_request.ofLayouts aLayouts) stch false
  obtain ⟨c1, c2, p0, c3, c4, c5⟩ := get_descriptor_pool_for_layouts_returns r tid []
    (descriptor_alloc_request.ofLayouts aLayouts) stch false hpools hfits
  generalize r.get_descriptor_pool_for_layouts tid []
    (descriptor_alloc_request.ofLayouts aLayouts) stch false = sel at k1 k3 k4 k5 c1 c2 c3 ⊢
  obtain ⟨poolToTry, r0⟩ := sel
  simp only at k1 k3 k4 k5 c1 c2 c3 ⊢
  obtain ⟨ra, a1, pa, ea, ca, sa, _, la, va, fa, ga, na, ha, capa, cra, _⟩ :=
    retry_loop_failed_attempt native tid aLayouts aPreparedSets.length 2 r0 _ poolToTry p0 c1 c3
      c4 c5 (by rw [k3]; exact h1) (by rw [k5]; exact hfits)
  obtain ⟨rb, a2, pb, eb, _, sb, _, lb, vb, fb, gb, nb, hb, capb, crb, ib⟩ :=
    retry_loop_failed_attempt native tid aLayouts aPreparedSets.length 1 ra _ a1 pa ca ha
      capa cra (by rw [la, k3]; simpa using h2) (by rw [fa, k5]; exact hfits2)
  have hthird := retry_loop_success native tid aLayouts aPreparedSets.length 0 rb
    (request_after_failure 1 (request_after_failure 2
      (descriptor_alloc_request.ofLayouts aLayouts))) a2 pb setHandles hb capb crb
    (by rw [lb, la, k3]; simpa using h3) hhandles
  have hp0 : poolToTry < r0.mHeap.length := by
    rcases Nat.lt_or_ge poolToTry r0.mHeap.length with h | h
    · exact h
    · rw [List.getElem?_eq_none h] at c3; cases c3
  have hnonempty : setHandles.length ≠ 0 := by
    rw [hhandles]
    intro h0
    exact hne (List.length_eq_zero.mp h0)
  refine ⟨a2, poolToTry, a1,
    { rb with
      mCarveCalls := rb.mCarveCalls ++ [⟨a2, aLayouts.map (fun l => l.handle)⟩]
      mHeap := rb.mHeap.set a2
        { pb with
          mRemainingCapacities := update_pool_stats pb.mRemainingCapacities aLayouts
          mNumRemainingSets := pb.mNumRemainingSets - (aLayouts.length : Int) }
      mSets := rb.mSets ++
        (aPreparedSets.zip setHandles).map (fun sp => sp.1.completed sp.2 a2) },
    { pb with
      mRemainingCapacities := update_pool_stats pb.mRemainingCapacities aLayouts
      mNumRemainingSets := pb.mNumRemainingSets - (aLayouts.length : Int) },
    ?_, ?_, ?_, ?_, ?_, ?_, ?_, ?_, ?_, ?_, ?_⟩
  · rw [ea, eb, hthird]
    unfold root.finish_alloc
    simp only [hnonempty, if_false]
    rw [complete_all_of_fresh]
    · rfl
    · intro sp hsp c hc
      rw [completed_eq_left]
      have hc1 : c ∈ r.mSets := by
        have : c ∈ rb.mSets := hc
        rw [sb, sa, k1] at this
        exact this
      exact hfresh sp.1 (List.of_mem_zip hsp).1 c hc1
    · have hpair : (aPreparedSets.zip setHandles).Pairwise
          (fun a b => b.1.with_data_pointers.eq a.1.with_data_pointers = false) := by
        have hmap : ((aPreparedSets.zip setHandles).map Prod.fst).Pairwise
            (fun a b => b.with_data_pointers.eq a.with_data_pointers = false) := by
          rw [List.map_fst_zip _ _ (by omega)]
          exact hdistinct
        rw [List.pairwise_map] at hmap
        exact hmap
      refine hpair.imp ?_
      intro a b hab
      rw [completed_eq_left, completed_eq_right]
      exact hab
  · simp [hhandles]
  · intro s hs
    obtain ⟨sp, _, rfl⟩ := List.mem_map.mp hs
    rfl
  · show (rb.mCarveCalls ++ _) = _
    rw [lb, la, k3]
    simp
  · omega
  · omega
  · omega
  · show a2 + 1 = (rb.mHeap.set a2 _).length
    rw [List.length_set]
    exact nb
  · show (rb.mHeap.set a2 _)[a2]? = _
    rw [List.getElem?_set_self (by omega)]
  · show pb.mInitialCapacities = _
    rw [ib, va, fa, k4, k5]
    rfl
  · show rb.mSets ++ _ = _
    rw [sb, sa, k1]

/-- Witness for C8: an empty directory with preallocation factor 5; the first
two carve attempts are rejected, the third is answered with handle 100. -/
theorem recovery_on_third_attempt_witness :
    ∃ (pool first second : Nat) (r3 : root) (p : descriptor_pool),
      (root.fresh 0).alloc_new_descriptor_sets (out_of_pool_memory_first 2 [100]) 0
          [uniform_buffer_layout (some 1)] [uniform_buffer_set 7] =
        (.ok (([uniform_buffer_set 7].zip [100]).map (fun sp => sp.1.completed sp.2 pool)), r3) ∧
      (([uniform_buffer_set 7].zip [100]).map (fun sp => sp.1.completed sp.2 pool)).length =
        [uniform_buffer_set 7].length ∧
      (∀ s ∈ ([uniform_buffer_set 7].zip [100]).map (fun sp => sp.1.completed sp.2 pool),
        s.mPool = some pool) ∧
      r3.mCarveCalls = (root.fresh 0).mCarveCalls ++
        [⟨first, [uniform_buffer_layout (some 1)].map (fun l => l.handle)⟩,
          ⟨second, [uniform_buffer_layout (some 1)].map (fun l => l.handle)⟩,
          ⟨pool, [uniform_buffer_layout (some 1)].map (fun l => l.handle)⟩] ∧
      first < pool ∧ second < pool ∧ (root.fresh 0).mHeap.length ≤ pool ∧
      pool + 1 = r3.mHeap.length ∧
      r3.mHeap[pool]? = some p ∧
      p.mInitialCapacities = initial_capacities_for (root.fresh 0).vendorID
        (root.fresh 0).sDescriptorPoolPreallocFactor
        ((descriptor_alloc_request.ofLayouts
          [uniform_buffer_layout (some 1)]).multiply_size_requirements 2) ∧
      r3.mSets = (root.fresh 0).mSets ++
        ([uniform_buffer_set 7].zip [100]).map (fun sp => sp.1.completed sp.2 pool) :=
  recovery_on_third_attempt (root.fresh 0) (out_of_pool_memory_first 2 [100]) 0
    [uniform_buffer_layout (some 1)] [uniform_buffer_set 7] [100] (by decide) (by decide)
    (fun p hp => by cases hp) (by decide) (by decide) rfl rfl rfl (by decide) (by decide)
    (fun s _ c hc => by cases hc) (by decide)

/-! ## The layout cache -/

theorem allocate_descriptor_set_layout_spec (r : root) (aLayout : descriptor_set_layout) :
    (r.allocate_descriptor_set_layout aLayout).1.handle.isNone = false ∧
    (r.allocate_descriptor_set_layout aLayout).1.mOrderedBindings = aLayout.mOrderedBindings ∧
    (r.allocate_descriptor_set_layout aLayout).2.mLayouts = r.mLayouts ∧
    (r.allocate_descriptor_set_layout aLayout).2.mSets = r.mSets := by
  unfold root.allocate_descriptor_set_layout descriptor_set_layout.handle
  cases h : aLayout.mLayout with
  | none => simp
  | some x => simp [h]

/-- A successful `get_or_alloc_layout` keeps the set cache, extends the layout
cache at its end at most, and leaves a layout cache in which the lookup of the
schema finds an allocated layout. -/
theorem get_or_alloc_layout_ok (r r1 : root) (aPreparedLayout layout : descriptor_set_layout)
    (h : r.get_or_alloc_layout aPreparedLayout = (.ok layout, r1)) :
    r1.mSets = r.mSets ∧ (∃ ext, r1.mLayouts = r.mLayouts ++ ext) ∧
    ∃ it, r1.mLayouts.find? (fun l => aPreparedLayout.eq l) = some it ∧
      it.handle.isNone = false := by
  unfold root.get_or_alloc_layout at h
  cases hfind : r.mLayouts.find? (fun l => aPreparedLayout.eq l) with
  | some it =>
    simp only [hfind] at h
    cases hh : it.handle.isNone with
    | true => simp [hh] at h
    | false =>
      simp only [hh, Bool.false_eq_true, if_false, Prod.mk.injEq, Except.ok.injEq] at h
      obtain ⟨_, h2⟩ := h
      subst h2
      exact ⟨rfl, ⟨[], by simp⟩, it, hfind, hh⟩
  | none =>
    simp only [hfind] at h
    obtain ⟨a1, a2, a3, a4⟩ := allocate_descriptor_set_layout_spec r aPreparedLayout
    generalize r.allocate_descriptor_set_layout aPreparedLayout = al at h a1 a2 a3 a4
    obtain ⟨allocated, ra⟩ := al
    simp only at h a1 a2 a3 a4
    cases hany : ra.mLayouts.any (fun l => allocated.eq l) with
    | true => simp [hany] at h
    | false =>
      simp only [hany, Bool.false_eq_true, if_false, Prod.mk.injEq, Except.ok.injEq] at h
      obtain ⟨_, h2⟩ := h
      subst h2
      refine ⟨a4, ⟨[allocated], by simp [a3]⟩, allocated, ?_, a1⟩
      simp only [List.find?_append, a3, hfind, Option.none_or]
      have heq : aPreparedLayout.eq allocated = true := by
        unfold descriptor_set_layout.eq
        simp [a2]
      simp [List.find?_cons, heq]

theorem get_or_alloc_layout_hit (r : root) (aPreparedLayout it : descriptor_set_layout)
    (ext : List descriptor_set_layout) (prefix_ : List descriptor_set_layout)
    (hr : r.mLayouts = prefix_ ++ ext)
    (hfind : prefix_.find? (fun l => aPreparedLayout.eq l) = some it)
    (hhandle : it.handle.isNone = false) :
    r.get_or_alloc_layout aPreparedLayout = (.ok it, r) := by
  unfold root.get_or_alloc_layout
  have : r.mLayouts.find? (fun l => aPreparedLayout.eq l) = some it := by
    rw [hr, List.find?_append, hfind]; rfl
  simp only [this, hhandle, Bool.false_eq_true, if_false]

theorem prepare_fixed (first : binding_data) (rest : List binding_data) (p : descriptor_set)
    (h : descriptor_set.prepare first rest = .ok p) : p.with_data_pointers = p := by
  unfold descriptor_set.prepare at h
  cases hloop : descriptor_set.prepare_loop first.mSetId (first :: rest)
      { descriptor_set.empty with mSetId := first.mSetId } with
  | error e => simp [hloop] at h
  | ok x =>
    simp only [hloop] at h
    unfold descriptor_set.update_data_pointers at h
    split at h
    · simp only [Except.ok.injEq] at h
      rw [← h, with_data_pointers_idempotent]
    · cases h

/-! ## The loop over the set ids -/

/-- The lookup of a prepared set in a set cache. -/
theorem get_descriptor_set_from_cache_eq (r : root) (p : descriptor_set) :
    r.get_descriptor_set_from_cache p = r.mSets.find? (fun s => p.eq s) := rfl

theorem resolve_state_extended_nil (st : resolve_state) (cache : List descriptor_set) :
    st.extended cache [] [] = st := by
  unfold resolve_state.extended
  simp

theorem resolve_state_extended_append (st : resolve_state) (cache : List descriptor_set)
    (ls1 ls2 : List descriptor_set_layout) (ps1 ps2 : List descriptor_set) :
    (st.extended cache ls1 ps1).extended cache ls2 ps2 =
      st.extended cache (ls1 ++ ls2) (ps1 ++ ps2) := by
  unfold resolve_state.extended
  simp

/-- One pass of the loop body that succeeds: the set cache is kept, the layout
cache is extended at its end at most, the vectors grow by the prepared set of
this set id (if it has bindings), and on every state whose layout cache extends
the one left behind, the same pass succeeds without changing that state. -/
theorem resolve_set_ok (orderedBindings : List binding_data) (setId : Nat) (r r1 : root)
    (st st1 : resolve_state)
    (h : r.resolve_set orderedBindings setId st = (.ok st1, r1)) :
    r1.mSets = r.mSets ∧ (∃ ext, r1.mLayouts = r.mLayouts ++ ext) ∧
    ∃ (ls : List descriptor_set_layout) (ps : List descriptor_set),
      ls.length = ps.length ∧
      st1 = st.extended r.mSets ls ps ∧ (∀ p ∈ ps, p.with_data_pointers = p) ∧
      ∀ (r2 : root) (st2 : resolve_state) (ext : List descriptor_set_layout),
        r2.mLayouts = r1.mLayouts ++ ext →
        ∃ ls2 : List descriptor_set_layout, ls2.length = ps.length ∧
          r2.resolve_set orderedBindings setId st2 = (.ok (st2.extended r2.mSets ls2 ps), r2) := by
  unfold root.resolve_set at h
  cases hrange : orderedBindings.filter (fun b => b.mSetId == setId) with
  | nil =>
    simp only [hrange, Prod.mk.injEq, Except.ok.injEq] at h
    obtain ⟨h1, h2⟩ := h
    subst h1 h2
    refine ⟨rfl, ⟨[], by simp⟩, [], [], rfl, (resolve_state_extended_nil _ _).symm, ?_, ?_⟩
    · intro p hp; cases hp
    · intro r2 st2 ext _
      refine ⟨[], rfl, ?_⟩
      unfold root.resolve_set
      simp only [hrange, resolve_state_extended_nil]
  | cons first rest =>
    simp only [hrange] at h
    cases hlp : descriptor_set_layout.prepare (first :: rest) with
    | error e => simp [hlp] at h
    | ok preparedLayout =>
      simp only [hlp] at h
      cases hgl : r.get_or_alloc_layout preparedLayout with
      | mk res ra =>
        cases res with
        | error e => simp [hgl] at h
        | ok layout =>
          simp only [hgl] at h
          obtain ⟨g1, ⟨ext0, g2⟩, it, g3, g4⟩ := get_or_alloc_layout_ok r ra preparedLayout layout hgl
          cases hsp : descriptor_set.prepare first rest with
          | error e => simp [hsp] at h
          | ok preparedSet =>
            simp only [hsp] at h
            have hfixed := prepare_fixed first rest preparedSet hsp
            have hrerun : ∀ (r2 : root) (st2 : resolve_state) (ext : List descriptor_set_layout),
                r2.mLayouts = ra.mLayouts ++ ext →
                ∃ ls2 : List descriptor_set_layout, ls2.length = [preparedSet].length ∧
                  r2.resolve_set orderedBindings setId st2 =
                    (.ok (st2.extended r2.mSets ls2 [preparedSet]), r2) := by
              intro r2 st2 ext hext
              refine ⟨[it], rfl, ?_⟩
              unfold root.resolve_set
              simp only [hrange, hlp, get_or_alloc_layout_hit r2 preparedLayout it ext ra.mLayouts
                hext g3 g4, hsp, get_descriptor_set_from_cache_eq]
              cases hc2 : r2.mSets.find? (fun s => preparedSet.eq s) with
              | some c => simp [resolve_state.extended, hc2]
              | none => simp [resolve_state.extended, hc2]
            rw [get_descriptor_set_from_cache_eq, g1] at h
            cases hc : r.mSets.find? (fun s => preparedSet.eq s) with
            | some c =>
              simp only [hc, Prod.mk.injEq, Except.ok.injEq] at h
              obtain ⟨h1, h2⟩ := h
              subst h1 h2
              refine ⟨g1, ⟨ext0, g2⟩, [layout], [preparedSet], rfl, ?_, ?_, hrerun⟩
              · simp [resolve_state.extended, hc]
              · intro p hp
                simp only [List.mem_singleton] at hp
                rw [hp]; exact hfixed
            | none =>
              simp only [hc, Prod.mk.injEq, Except.ok.injEq] at h
              obtain ⟨h1, h2⟩ := h
              subst h1 h2
              refine ⟨g1, ⟨ext0, g2⟩, [layout], [preparedSet], rfl, ?_, ?_, hrerun⟩
              · simp [resolve_state.extended, hc]
              · intro p hp
                simp only [List.mem_singleton] at hp
                rw [hp]; exact hfixed

/-- The loop over the set ids, when it succeeds: as `resolve_set_ok`, for all
the set ids in order. -/
theorem resolve_sets_ok (orderedBindings : List binding_data) :
    ∀ (setIds : List Nat) (r r1 : root) (st st1 : resolve_state),
      root.resolve_sets orderedBindings setIds r st = (.ok st1, r1) →
      r1.mSets = r.mSets ∧ (∃ ext, r1.mLayouts = r.mLayouts ++ ext) ∧
      ∃ (ls : List descriptor_set_layout) (ps : List descriptor_set),
        ls.length = ps.length ∧
        st1 = st.extended r.mSets ls ps ∧ (∀ p ∈ ps, p.with_data_pointers = p) ∧
        ∀ (r2 : root) (st2 : resolve_state) (ext : List descriptor_set_layout),
          r2.mLayouts = r1.mLayouts ++ ext →
          ∃ ls2 : List descriptor_set_layout, ls2.length = ps.length ∧
            root.resolve_sets orderedBindings setIds r2 st2 =
              (.ok (st2.extended r2.mSets ls2 ps), r2) := by
  intro setIds
  induction setIds with
  | nil =>
    intro r r1 st st1 h
    unfold root.resolve_sets at h
    simp only [Prod.mk.injEq, Except.ok.injEq] at h
    obtain ⟨h1, h2⟩ := h
    subst h1 h2
    refine ⟨rfl, ⟨[], by simp⟩, [], [], rfl, (resolve_state_extended_nil _ _).symm, ?_, ?_⟩
    · intro p hp; cases hp
    · intro r2 st2 ext _
      refine ⟨[], rfl, ?_⟩
      unfold root.resolve_sets
      rw [resolve_state_extended_nil]
  | cons setId setIds ih =>
    intro r r1 st st1 h
    unfold root.resolve_sets at h
    cases hhead : r.resolve_set orderedBindings setId st with
    | mk res ra =>
      cases res with
      | error e => simp [hhead] at h
      | ok sta =>
        simp only [hhead] at h
        obtain ⟨a1, ⟨exta, a2⟩, lsa, psa, a3, a4, a5, a6⟩ :=
          resolve_set_ok orderedBindings setId r ra st sta hhead
        obtain ⟨b1, ⟨extb, b2⟩, lsb, psb, b3, b4, b5, b6⟩ := ih ra r1 sta st1 h
        refine ⟨by rw [b1, a1], ⟨exta ++ extb, by rw [b2, a2, List.append_assoc]⟩,
          lsa ++ lsb, psa ++ psb, by simp [a3, b3], ?_, ?_, ?_⟩
        · rw [b4, a4, a1, resolve_state_extended_append]
        · intro p hp
          rcases List.mem_append.mp hp with hp | hp
          · exact a5 p hp
          · exact b5 p hp
        · intro r2 st2 ext hext
          obtain ⟨ls2a, la, ea⟩ := a6 r2 st2 (extb ++ ext) (by rw [hext, b2, List.append_assoc])
          obtain ⟨ls2b, lb, eb⟩ := b6 r2 (st2.extended r2.mSets ls2a psa) ext hext
          refine ⟨ls2a ++ ls2b, by simp [la, lb], ?_⟩
          unfold root.resolve_sets
          simp only [ea]
          rw [eb, resolve_state_extended_append]

/-! ## What a successful `alloc_new_descriptor_sets` leaves behind -/

theorem allocate_from_keeps (r : root) (native : native_allocator) (address : Nat)
    (aLayouts : List descriptor_set_layout) :
    (r.allocate_from native address aLayouts).2.mSets = r.mSets ∧
    (r.allocate_from native address aLayouts).2.mLayouts = r.mLayouts := by
  unfold root.allocate_from
  cases r.mHeap[address]? with
  | none => exact ⟨rfl, rfl⟩
  | some p =>
    simp only
    cases p.allocate aLayouts (native r.mCarveCalls.length) with
    | error e =>
      simp only
      cases p.mDescriptorPool.isNone <;> exact ⟨rfl, rfl⟩
    | ok res =>
      simp only
      cases p.mDescriptorPool.isNone <;> exact ⟨rfl, rfl⟩

theorem on_out_of_pool_memory_keeps (r : root) (tid maxTries : Nat)
    (allocRequest : descriptor_alloc_request) (poolToTry : Nat) :
    (r.on_out_of_pool_memory tid maxTries allocRequest poolToTry).2.2.mSets = r.mSets ∧
    (r.on_out_of_pool_memory tid maxTries allocRequest poolToTry).2.2.mLayouts = r.mLayouts := by
  unfold root.on_out_of_pool_memory
  by_cases hm : maxTries = 1
  · simp only [hm, if_true]
    obtain ⟨k1, k2, _⟩ := get_descriptor_pool_for_layouts_keeps r tid [poolToTry]
      (allocRequest.multiply_size_requirements 2) stch false
    obtain ⟨j1, j2, _⟩ := get_descriptor_pool_for_layouts_keeps
      (r.get_descriptor_pool_for_layouts tid [poolToTry]
        (allocRequest.multiply_size_requirements 2) stch false).2 tid
      [(r.get_descriptor_pool_for_layouts tid [poolToTry]
        (allocRequest.multiply_size_requirements 2) stch false).1]
      (allocRequest.multiply_size_requirements 2) stch true
    exact ⟨j1.trans k1, j2.trans k2⟩
  · simp only [hm, if_false]
    obtain ⟨k1, k2, _⟩ := get_descriptor_pool_for_layouts_keeps r tid [poolToTry]
      allocRequest stch true
    exact ⟨k1, k2⟩

theorem retry_loop_keeps (native : native_allocator) (tid : Nat)
    (aLayouts : List descriptor_set_layout) (numPreparedSets : Nat) :
    ∀ (maxTries : Nat) (r : root) (allocRequest : descriptor_alloc_request) (poolToTry : Nat),
      (root.retry_loop native tid aLayouts numPreparedSets maxTries r allocRequest poolToTry).2.mSets
        = r.mSets ∧
      (root.retry_loop native tid aLayouts numPreparedSets maxTries r allocRequest
        poolToTry).2.mLayouts = r.mLayouts ∧
      ∀ pool setHandles,
        (root.retry_loop native tid aLayouts numPreparedSets maxTries r allocRequest poolToTry).1
          = .ok (some (pool, setHandles)) → setHandles.length = numPreparedSets := by
  intro maxTries
  induction maxTries with
  | zero =>
    intro r allocRequest poolToTry
    unfold root.retry_loop
    refine ⟨rfl, rfl, ?_⟩
    intro pool setHandles h
    cases h
  | succ maxTries ih =>
    intro r allocRequest poolToTry
    unfold root.retry_loop
    cases r.mHeap[poolToTry]? with
    | none =>
      refine ⟨rfl, rfl, ?_⟩
      intro pool setHandles h
      cases h
    | some p =>
      simp only
      cases p.has_capacity_for allocRequest with
      | false =>
        refine ⟨rfl, rfl, ?_⟩
        intro pool setHandles h
        cases h
      | true =>
        simp only [Bool.not_true, Bool.false_eq_true, if_false]
        obtain ⟨f1, f2⟩ := allocate_from_keeps r native poolToTry aLayouts
        generalize r.allocate_from native poolToTry aLayouts = af at f1 f2
        obtain ⟨res, r1⟩ := af
        simp only at f1 f2
        cases res with
        | ok setHandles =>
          simp only
          by_cases hl : setHandles.length = numPreparedSets
          · simp only [hl, ne_eq, not_true_eq_false, if_false]
            refine ⟨f1, f2, ?_⟩
            intro pool sh h
            simp only [Except.ok.injEq, Option.some.injEq, Prod.mk.injEq] at h
            rw [← h.2]; exact hl
          · simp only [hl, ne_eq, not_false_eq_true, if_true]
            refine ⟨f1, f2, ?_⟩
            intro pool sh h
            cases h
        | error e =>
          cases e with
          | assertion =>
            refine ⟨f1, f2, ?_⟩
            intro pool sh h
            cases h
          | diverges =>
            refine ⟨f1, f2, ?_⟩
            intro pool sh h
            cases h
          | vulkan v =>
            cases v with
            | other code =>
              refine ⟨f1, f2, ?_⟩
              intro pool sh h
              cases h
            | outOfPoolMemory =>
              simp only
              obtain ⟨o1, o2⟩ := on_out_of_pool_memory_keeps r1 tid maxTries allocRequest poolToTry
              obtain ⟨i1, i2, i3⟩ := ih
                (r1.on_out_of_pool_memory tid maxTries allocRequest poolToTry).2.2
                (r1.on_out_of_pool_memory tid maxTries allocRequest poolToTry).1
                (r1.on_out_of_pool_memory tid maxTries allocRequest poolToTry).2.1
              exact ⟨i1.trans (o1.trans f1), i2.trans (o2.trans f2), i3⟩

/-- A successful `alloc_new_descriptor_sets` returns the completed forms of
the prepared sets, in order, appends exactly them to the set cache, keeps the
layout cache, and every insertion into the set cache took place. -/
theorem alloc_new_descriptor_sets_ok (r r1 : root) (native : native_allocator) (tid : Nat)
    (aLayouts : List descriptor_set_layout) (aPreparedSets result : List descriptor_set)
    (h : r.alloc_new_descriptor_sets native tid aLayouts aPreparedSets = (.ok result, r1)) :
    ∃ (pool : Nat) (setHandles : List Nat),
      setHandles.length = aPreparedSets.length ∧
      result = (aPreparedSets.zip setHandles).map (fun sp => sp.1.completed sp.2 pool) ∧
      r1.mSets = r.mSets ++ result ∧ r1.mLayouts = r.mLayouts ∧
      (∀ sp ∈ aPreparedSets.zip setHandles, ∀ c ∈ r.mSets,
        (sp.1.completed sp.2 pool).eq c = false) ∧
      (aPreparedSets.zip setHandles).Pairwise
        (fun a b => (b.1.completed b.2 pool).eq (a.1.completed a.2 pool) = false) := by
  unfold root.alloc_new_descriptor_sets at h
  by_cases hlen : aLayouts.length = aPreparedSets.length
  · simp only [hlen, ne_eq, not_true_eq_false, if_false] at h
    cases hsane : (aLayouts.zip aPreparedSets).all (fun lp => sanity_check lp.1 lp.2) with
    | false => simp [hsane] at h
    | true =>
      simp only [hsane, Bool.not_true, Bool.false_eq_true, if_false] at h
      obtain ⟨k1, k2, _⟩ := get_descriptor_pool_for_layouts_keeps r tid []
        (descriptor_alloc_request.ofLayouts aLayouts) stch false
      generalize r.get_descriptor_pool_for_layouts tid []
        (descriptor_alloc_request.ofLayouts aLayouts) stch false = sel at h k1 k2
      obtain ⟨poolToTry, r0⟩ := sel
      simp only at h k1 k2
      obtain ⟨l1, l2, l3⟩ := retry_loop_keeps native tid aLayouts aPreparedSets.length 3 r0
        (descriptor_alloc_request.ofLayouts aLayouts) poolToTry
      generalize root.retry_loop native tid aLayouts aPreparedSets.length 3 r0
        (descriptor_alloc_request.ofLayouts aLayouts) poolToTry = out at h l1 l2 l3
      obtain ⟨res, r2⟩ := out
      simp only at h l1 l2 l3
      unfold root.finish_alloc at h
      cases res with
      | error e => simp at h
      | ok found =>
        cases found with
        | none => simp at h
        | some ps =>
          obtain ⟨pool, setHandles⟩ := ps
          simp only at h
          by_cases h0 : setHandles.length = 0
          · simp [h0] at h
          · simp only [h0, if_false] at h
            obtain ⟨q1, q2⟩ := fresh_of_complete_all pool _ _ _ _ _ h
            rw [complete_all_of_fresh pool _ _ _ q1 q2] at h
            simp only [List.nil_append, Prod.mk.injEq, Except.ok.injEq] at h
            obtain ⟨h1, h2⟩ := h
            refine ⟨pool, setHandles, l3 pool setHandles rfl, h1.symm, ?_, ?_, ?_, q2⟩
            · rw [← h2, ← h1]
              show r2.mSets ++ _ = _
              rw [l1, k1]
            · rw [← h2]
              show r2.mLayouts = _
              rw [l2, k2]
            · intro sp hsp c hc
              exact q1 sp hsp c (by rw [l1, k1]; exact hc)
  · simp [hlen] at h

/-! ## Splicing the newly allocated sets into the result -/

theorem index_mapping_cons (b : Bool) (vs : List Bool) :
    index_mapping (vs.length + 1) (b :: vs) =
      (if b then [] else [0]) ++ (index_mapping vs.length vs).map (fun i => i + 1) := by
  unfold index_mapping
  rw [List.range_succ_eq_map, List.filter_cons, List.filter_map]
  cases b <;> simp [Function.comp_def]

theorem foldl_set_shift {α : Type} (x : α) :
    ∀ (idx : List Nat) (news cs : List α),
      ((idx.map (fun i => i + 1)).zip news).foldl
          (fun cachedSets inew => cachedSets.set inew.1 inew.2) (x :: cs) =
        x :: (idx.zip news).foldl (fun cachedSets inew => cachedSets.set inew.1 inew.2) cs := by
  intro idx
  induction idx with
  | nil => intro news cs; rfl
  | cons i idx ih =>
    intro news cs
    cases news with
    | nil => rfl
    | cons n ns =>
      simp only [List.map_cons, List.zip_cons_cons, List.foldl_cons, List.set_cons_succ]
      exact ih ns _

theorem resolve_against_cons (cache : List descriptor_set) (p : descriptor_set)
    (ps news : List descriptor_set) :
    resolve_against cache (p :: ps) news =
      match cache.find? (fun s => p.eq s) with
      | some found => found :: resolve_against cache ps news
      | none => news.headD descriptor_set.empty :: resolve_against cache ps news.tail := by
  rfl

theorem splice_eq_resolve_against (cache : List descriptor_set) :
    ∀ (ps news : List descriptor_set),
      ((index_mapping ps.length
          (ps.map (fun p => (cache.find? (fun s => p.eq s)).isSome))).zip news).foldl
          (fun cachedSets inew => cachedSets.set inew.1 inew.2)
          (ps.map (fun p => (cache.find? (fun s => p.eq s)).getD descriptor_set.empty)) =
        resolve_against cache ps news := by
  intro ps
  induction ps with
  | nil => intro news; simp [index_mapping, resolve_against]
  | cons p ps ih =>
    intro news
    have hlen : (ps.map (fun p => (cache.find? (fun s => p.eq s)).isSome)).length = ps.length := by
      simp
    simp only [List.map_cons, List.length_cons]
    rw [← hlen, index_mapping_cons, hlen, resolve_against_cons]
    cases hfind : cache.find? (fun s => p.eq s) with
    | some found =>
      simp only [Option.isSome_some, if_true, List.nil_append, Option.getD_some]
      rw [foldl_set_shift, ih]
    | none =>
      simp only [Option.isSome_none, Bool.false_eq_true, if_false, Option.getD_none,
        List.singleton_append]
      cases news with
      | nil =>
        simp only [List.zip_nil_right, List.foldl_nil, List.headD_nil, List.tail_nil]
        have := ih []
        simp only [List.zip_nil_right, List.foldl_nil] at this
        rw [this]
      | cons n ns =>
        simp only [List.zip_cons_cons, List.foldl_cons, List.set_cons_zero, List.headD_cons,
          List.tail_cons]
        rw [foldl_set_shift, ih]

theorem to_be_alloced_eq_misses (cache : List descriptor_set) :
    ∀ (ps : List descriptor_set),
      (index_mapping ps.length
          (ps.map (fun p => (cache.find? (fun s => p.eq s)).isSome))).map
          (fun i => ps.getD i default) = misses_of cache ps := by
  intro ps
  induction ps with
  | nil => simp [index_mapping, misses_of]
  | cons p ps ih =>
    have hlen : (ps.map (fun p => (cache.find? (fun s => p.eq s)).isSome)).length = ps.length := by
      simp
    simp only [List.map_cons, List.length_cons]
    rw [← hlen, index_mapping_cons, hlen]
    unfold misses_of at ih ⊢
    cases hfind : cache.find? (fun s => p.eq s) with
    | some found =>
      simp only [Option.isSome_some, if_true, List.nil_append, List.map_map, List.filter_cons,
        hfind, Option.isNone_some, Bool.false_eq_true, if_false]
      rw [← ih]
      simp [Function.comp_def]
    | none =>
      simp only [Option.isSome_none, Bool.false_eq_true, if_false, List.singleton_append,
        List.map_cons, List.map_map, List.filter_cons, hfind, Option.isNone_none, if_true]
      rw [← ih]
      simp [Function.comp_def]

/-! ## Equality is reflexive -/

theorem first_elements_agree_refl {α : Type} [DecidableEq α] (count : Nat) (l : List α) :
    first_elements_agree count l l = true := by
  unfold first_elements_agree
  simp

theorem writes_agree_refl (w : WriteDescriptorSet) : writes_agree w w = true := by
  unfold writes_agree
  simp only [ne_eq, not_true_eq_false, if_false, Bool.and_eq_true]
  refine ⟨⟨⟨?_, ?_⟩, ?_⟩, ?_⟩
  · cases w.pImageInfo <;> simp [first_elements_agree_refl]
  · cases w.pBufferInfo <;> simp [first_elements_agree_refl]
  · cases w.pTexelBufferView <;> simp [first_elements_agree_refl]
  · cases w.pNext <;> simp [first_elements_agree_refl]

theorem eq_refl (s : descriptor_set) : s.eq s = true := by
  unfold descriptor_set.eq
  simp only [ne_eq, not_true_eq_false, if_false, List.all_eq_true]
  intro lr hlr
  have : lr.1 = lr.2 := by
    generalize s.mOrderedDescriptorDataWrites = l at hlr
    induction l with
    | nil => cases hlr
    | cons a l ih =>
      simp only [List.zip_cons_cons, List.mem_cons] at hlr
      rcases hlr with h | h
      · rw [h]
      · exact ih h
  rw [this]
  exact writes_agree_refl _

/-! ## Looking up a batch after it has been resolved -/

/-- After the completed forms of the misses have been appended to the cache,
the lookup of every prepared set of the batch finds the set that the batch
returned for it. -/
theorem lookup_after_insertion (cache : List descriptor_set) (pool : Nat) :
    ∀ (ps earlier : List descriptor_set) (hs : List Nat),
      (∀ p ∈ ps, p.with_data_pointers = p) →
      hs.length = (misses_of cache ps).length →
      (∀ sp ∈ (misses_of cache ps).zip hs, ∀ c ∈ earlier,
        (sp.1.completed sp.2 pool).eq c = false) →
      ((misses_of cache ps).zip hs).Pairwise
        (fun a b => (b.1.completed b.2 pool).eq (a.1.completed a.2 pool) = false) →
      ps.map (fun p => (cache ++ (earlier ++
          ((misses_of cache ps).zip hs).map (fun sp => sp.1.completed sp.2 pool))).find?
            (fun s => p.eq s)) =
        (resolve_against cache ps
          (((misses_of cache ps).zip hs).map (fun sp => sp.1.completed sp.2 pool))).map some := by
  intro ps
  induction ps with
  | nil => intro earlier hs _ _ _ _; rfl
  | cons p ps ih =>
    intro earlier hs hfixed hlen hearlier hpair
    rw [resolve_against_cons]
    have hmiss : misses_of cache (p :: ps) =
        if (cache.find? (fun s => p.eq s)).isNone then p :: misses_of cache ps
        else misses_of cache ps := by
      unfold misses_of
      rw [List.filter_cons]
    have hfixed2 : ∀ q ∈ ps, q.with_data_pointers = q :=
      fun q hq => hfixed q (List.mem_cons_of_mem _ hq)
    cases hfind : cache.find? (fun s => p.eq s) with
    | some found =>
      simp only [hfind, Option.isNone_some, Bool.false_eq_true, if_false] at hmiss
      rw [hmiss] at hlen hearlier hpair ⊢
      simp only [List.map_cons, List.find?_append, hfind, Option.or_some]
      congr 1
      have := ih earlier hs hfixed2 hlen hearlier hpair
      simp only [List.find?_append] at this
      exact this
    | none =>
      simp only [hfind, Option.isNone_none, if_true] at hmiss
      rw [hmiss] at hlen hearlier hpair ⊢
      cases hs with
      | nil => simp at hlen
      | cons h hs =>
        simp only [List.length_cons, Nat.add_right_cancel_iff] at hlen
        simp only [List.zip_cons_cons, List.map_cons, List.headD_cons, List.tail_cons] at *
        rw [List.pairwise_cons] at hpair
        have hp : p.with_data_pointers = p := hfixed p (List.mem_cons_self _ _)
        have hnot : earlier.find? (fun s => p.eq s) = none := by
          rw [List.find?_eq_none]
          intro c hc
          have := hearlier (p, h) (by simp) c hc
          rw [completed_eq_left, hp] at this
          simp [this]
        have hself : p.eq (p.completed h pool) = true := by
          rw [completed_eq_right, hp]
          exact eq_refl p
        congr 1
        · simp [List.find?_append, hfind, hnot, List.find?_cons, hself]
        · have := ih (earlier ++ [p.completed h pool]) hs hfixed2 hlen ?_ hpair.2
          · simpa [List.append_assoc] using this
          · intro sp hsp c hc
            rcases List.mem_append.mp hc with hc | hc
            · exact hearlier sp (by simp [hsp]) c hc
            · simp only [List.mem_singleton] at hc
              rw [hc]
              exact hpair.1 sp hsp

theorem count_true_eq_length_iff (vs : List Bool) :
    vs.length = vs.count true ↔ ∀ v ∈ vs, v = true := by
  rw [eq_comm, List.count_eq_length]
  constructor
  · intro h v hv; exact (h v hv).symm
  · intro h v hv; exact (h v hv).symm

/-- C1: if a first call of `root::get_or_create_descriptor_sets` succeeds, a
second call with the same bindings, on the state the first call left, returns
the same descriptor sets (hence the same native handles, set by set) and
leaves the state as it is: no carve call is recorded, and the set cache, the
layout cache and the pools are unchanged. -/
theorem resolve_twice_returns_cached_sets (r0 r1 : root) (native native2 : native_allocator)
    (tid tid2 : Nat) (aBindings : List binding_data) (result : List descriptor_set)
    (hfirst : r0.get_or_create_descriptor_sets native tid aBindings = (.ok result, r1)) :
    r1.get_or_create_descriptor_sets native2 tid2 aBindings = (.ok result, r1) := by
  unfold root.get_or_create_descriptor_sets at hfirst ⊢
  simp only at hfirst ⊢
  generalize aBindings.foldl insert_ordered [] = ob at hfirst ⊢
  generalize List.range' (aBindings.foldl (fun m b => min m b.mSetId) (2 ^ 32 - 1))
    (aBindings.foldl (fun m b => max m b.mSetId) 0 + 1 -
      aBindings.foldl (fun m b => min m b.mSetId) (2 ^ 32 - 1)) = setIds at hfirst ⊢
  generalize aBindings.foldl (fun m b => max m b.mSetId) 0 = maxSetId at hfirst ⊢
  cases hloop : root.resolve_sets ob setIds r0
      resolve_state.initial with
  | mk res ra =>
    cases res with
    | error e => simp [hloop] at hfirst
    | ok st =>
      simp only [hloop] at hfirst
      by_cases hmax : maxSetId = 2 ^ 32 - 1
      · simp [hmax] at hfirst
      · simp only [hmax, if_false] at hfirst ⊢
        obtain ⟨a1, ⟨exta, a2⟩, ls, ps, a3, a4, a5, a6⟩ := resolve_sets_ok ob setIds r0 ra _ st hloop
        have hst : st.cachedSets =
            ps.map (fun p => (r0.mSets.find? (fun s => p.eq s)).getD descriptor_set.empty) ∧
            st.validSets = ps.map (fun p => (r0.mSets.find? (fun s => p.eq s)).isSome) ∧
            st.preparedSets = ps := by
          rw [a4]; simp [resolve_state.extended, resolve_state.initial]
        obtain ⟨hc, hv, hp⟩ := hst
        by_cases hall : st.cachedSets.length = st.validSets.count true
        · simp only [hall, if_true, Prod.mk.injEq, Except.ok.injEq] at hfirst
          obtain ⟨h1, h2⟩ := hfirst
          subst h2
          obtain ⟨ls2, _, e2⟩ := a6 ra resolve_state.initial [] (by simp)
          rw [e2]
          have hlen2 : (resolve_state.initial.extended ra.mSets ls2 ps).cachedSets.length =
              (resolve_state.initial.extended ra.mSets ls2 ps).validSets.count true := by
            rw [hc, hv, ← a1] at hall
            simpa [resolve_state.extended, resolve_state.initial] using hall
          simp only [hlen2, if_true, Prod.mk.injEq, Except.ok.injEq, and_true]
          rw [← h1, hc, a1]
          simp [resolve_state.extended, resolve_state.initial]
        · simp only [hall, if_false] at hfirst
          cases halloc : ra.alloc_new_descriptor_sets native tid
              ((List.filter (fun i => !(st.validSets.getD i true))
                (List.range st.cachedSets.length)).map (fun i => st.layouts.getD i default))
              ((List.filter (fun i => !(st.validSets.getD i true))
                (List.range st.cachedSets.length)).map
                  (fun i => st.preparedSets.getD i default)) with
          | mk res2 rb =>
            cases res2 with
            | error e => rw [halloc] at hfirst; simp at hfirst
            | ok nowAlsoInCache =>
              simp only [halloc, Prod.mk.injEq, Except.ok.injEq] at hfirst
              obtain ⟨h1, h2⟩ := hfirst
              subst h2
              have hidx : List.filter (fun i => !(st.validSets.getD i true))
                  (List.range st.cachedSets.length) =
                  index_mapping ps.length
                    (ps.map (fun p => (r0.mSets.find? (fun s => p.eq s)).isSome)) := by
                unfold index_mapping
                rw [hc, hv]; simp
              rw [hidx] at halloc h1
              rw [hp, to_be_alloced_eq_misses] at halloc
              obtain ⟨pool, hs, d1, d2, d3, d4, d5, d6⟩ :=
                alloc_new_descriptor_sets_ok ra rb native tid _ _ _ halloc
              rw [hc, splice_eq_resolve_against] at h1
              have hlook := lookup_after_insertion r0.mSets pool ps [] hs a5 d1
                (fun _ _ c hc => by cases hc) d6
              simp only [List.nil_append] at hlook
              rw [← d2, ← a1, ← d3] at hlook
              obtain ⟨ls2, _, e2⟩ := a6 rb resolve_state.initial [] (by simp [d4])
              rw [e2]
              have hfound : ∀ p ∈ ps, (rb.mSets.find? (fun s => p.eq s)).isSome = true := by
                intro p hp
                have hmem : rb.mSets.find? (fun s => p.eq s) ∈
                    ps.map (fun p => rb.mSets.find? (fun s => p.eq s)) :=
                  List.mem_map.mpr ⟨p, hp, rfl⟩
                rw [hlook] at hmem
                obtain ⟨x, _, hx⟩ := List.mem_map.mp hmem
                rw [← hx]; rfl
              have hcached : ps.map
                  (fun p => (rb.mSets.find? (fun s => p.eq s)).getD descriptor_set.empty) =
                  result := by
                have := congrArg (List.map (fun o => o.getD descriptor_set.empty)) hlook
                simp only [List.map_map, Function.comp_def, Option.getD_some, List.map_id'] at this
                rw [this, a1, h1]
              have hlen2 : (resolve_state.initial.extended rb.mSets ls2 ps).cachedSets.length =
                  (resolve_state.initial.extended rb.mSets ls2 ps).validSets.count true := by
                have hl : (resolve_state.initial.extended rb.mSets ls2 ps).cachedSets.length =
                    (resolve_state.initial.extended rb.mSets ls2 ps).validSets.length := by
                  simp [resolve_state.extended, resolve_state.initial]
                rw [hl, count_true_eq_length_iff]
                intro v hv2
                simp only [resolve_state.extended, resolve_state.initial, List.nil_append,
                  List.mem_map] at hv2
                obtain ⟨p, hp2, rfl⟩ := hv2
                exact hfound p hp2
              simp only [hlen2, if_true, Prod.mk.injEq, Except.ok.injEq, and_true]
              simp only [resolve_state.extended, resolve_state.initial, List.nil_append]
              exact hcached

/-- Witness for C1: two sets resolved against empty caches, then resolved
again with a native allocator that would reject every carve. -/
theorem resolve_twice_returns_cached_sets_witness :
    (((root.fresh 0).get_or_create_descriptor_sets (out_of_pool_memory_first 0 [100, 101]) 0
        two_uniform_buffer_sets).1.toOption.map (fun result => result.map (fun s => s.handle))
      = some [some 100, some 101]) ∧
    ((root.fresh 0).get_or_create_descriptor_sets (out_of_pool_memory_first 0 [100, 101]) 0
        two_uniform_buffer_sets).2.get_or_create_descriptor_sets (always_failing 4) 0
        two_uniform_buffer_sets =
      (root.fresh 0).get_or_create_descriptor_sets (out_of_pool_memory_first 0 [100, 101]) 0
        two_uniform_buffer_sets :=
  ⟨by decide,
    (resolve_twice_returns_cached_sets (root.fresh 0)
      ((root.fresh 0).get_or_create_descriptor_sets (out_of_pool_memory_first 0 [100, 101]) 0
        two_uniform_buffer_sets).2
      (out_of_pool_memory_first 0 [100, 101]) (always_failing 4) 0 0 two_uniform_buffer_sets
      ((((root.fresh 0).get_or_create_descriptor_sets (out_of_pool_memory_first 0 [100, 101]) 0
        two_uniform_buffer_sets).1.toOption).getD [])
      (by rfl)).trans (by rfl)⟩

/-! ## First-fit pool selection -/

theorem bucket_of_set_bucket (directory : List (pool_id × List Nat)) (pId : pool_id)
    (pools : List Nat) : bucket_of (set_bucket directory pId pools) pId = pools := by
  induction directory with
  | nil => simp [set_bucket, bucket_of]
  | cons entry rest ih =>
    unfold set_bucket
    by_cases h : entry.1 = pId
    · simp [h, bucket_of]
    · have hb : (entry.1 == pId) = false := by simpa using h
      simp only [h, if_false]
      unfold bucket_of at ih ⊢
      rw [List.find?_cons, hb]
      exact ih

/-- C11: first-fit pool selection. With `aRequestNewPool` false and some
surviving pool of the (thread, name) bucket having capacity, the call returns
the first such pool in bucket order (every surviving pool before it lacks
capacity), the heap of pool objects is unchanged (no pool is created) and the
bucket afterwards is the list of surviving pools (no entry is added). A new
pool is created exactly when `aRequestNewPool` is true or no surviving pool has
capacity; the heap then grows by that one pool, its index is appended to the
surviving pools of the bucket, and it is the pool returned. -/
theorem first_fit_pool_selection (r : root) (tid : Nat) (locals : List Nat)
    (aAllocRequest : descriptor_alloc_request) (aPoolName : Int) (aRequestNewPool : Bool) :
    (∀ sptr, aRequestNewPool = false →
      r.find_pool_with_capacity (r.surviving_pools locals ⟨tid, aPoolName⟩) aAllocRequest =
        some sptr →
      (r.get_descriptor_pool_for_layouts tid locals aAllocRequest aPoolName aRequestNewPool).1 =
          sptr ∧
        (∃ before after p,
          (bucket_of r.mDescriptorPools ⟨tid, aPoolName⟩).filter
              (fun ptr => !r.expired locals ptr) = before ++ sptr :: after ∧
          r.mHeap[sptr]? = some p ∧ p.has_capacity_for aAllocRequest = true ∧
          ∀ q ∈ before, ∀ pq, r.mHeap[q]? = some pq →
            pq.has_capacity_for aAllocRequest = false) ∧
        (r.get_descriptor_pool_for_layouts tid locals aAllocRequest aPoolName
          aRequestNewPool).2.mHeap = r.mHeap ∧
        bucket_of (r.get_descriptor_pool_for_layouts tid locals aAllocRequest aPoolName
          aRequestNewPool).2.mDescriptorPools ⟨tid, aPoolName⟩ =
            r.surviving_pools locals ⟨tid, aPoolName⟩) ∧
    ((aRequestNewPool = true ∨
        r.find_pool_with_capacity (r.surviving_pools locals ⟨tid, aPoolName⟩) aAllocRequest =
          none) →
      (r.get_descriptor_pool_for_layouts tid locals aAllocRequest aPoolName aRequestNewPool).1 =
          r.mHeap.length ∧
        (r.get_descriptor_pool_for_layouts tid locals aAllocRequest aPoolName
          aRequestNewPool).2.mHeap = r.mHeap ++ [(r.new_pool_for aAllocRequest).1] ∧
        bucket_of (r.get_descriptor_pool_for_layouts tid locals aAllocRequest aPoolName
          aRequestNewPool).2.mDescriptorPools ⟨tid, aPoolName⟩ =
            r.surviving_pools locals ⟨tid, aPoolName⟩ ++ [r.mHeap.length]) ∧
    ((r.get_descriptor_pool_for_layouts tid locals aAllocRequest aPoolName
        aRequestNewPool).2.mHeap.length = r.mHeap.length + 1 ↔
      (aRequestNewPool = true ∨
        r.find_pool_with_capacity (r.surviving_pools locals ⟨tid, aPoolName⟩) aAllocRequest =
          none)) := by
  rcases get_descriptor_pool_for_layouts_cases r tid locals aAllocRequest aPoolName
    aRequestNewPool with ⟨hf, sptr, p, _, hheap, hcap, hfind, heq⟩ | ⟨hcase, heq⟩
  · refine ⟨?_, ?_, ?_⟩
    · intro sptr' _ hfind'
      rw [hfind] at hfind'
      cases hfind'
      rw [heq]
      refine ⟨rfl, ?_, rfl, bucket_of_set_bucket _ _ _⟩
      unfold root.find_pool_with_capacity root.surviving_pools at hfind
      obtain ⟨_, as, bs, hsplit, hbefore⟩ := List.find?_eq_some.mp hfind
      refine ⟨as, bs, p, hsplit, hheap, hcap, ?_⟩
      intro q hq pq hpq
      have := hbefore q hq
      simp only [hpq] at this
      simpa using this
    · intro h
      rcases h with h | h
      · rw [hf] at h; cases h
      · rw [hfind] at h; cases h
    · rw [heq]
      constructor
      · intro h; simp at h
      · intro h
        rcases h with h | h
        · rw [hf] at h; cases h
        · rw [hfind] at h; cases h
  · refine ⟨?_, ?_, ?_⟩
    · intro sptr hf hfind
      rcases hcase with h | h
      · rw [hf] at h; cases h
      · rw [hfind] at h; cases h
    · intro _
      rw [heq]
      exact ⟨rfl, rfl, bucket_of_set_bucket _ _ _⟩
    · rw [heq]
      constructor
      · intro _; exact hcase
      · intro _; simp

/-- Witness for C11: the roomy pool of thread 0 is selected for a request of one
uniform buffer and nothing is created, while on an empty directory the same
request creates the pool at heap index 0. -/
theorem first_fit_pool_selection_witness :
    (root.with_roomy_pool.find_pool_with_capacity
        (root.with_roomy_pool.surviving_pools [] ⟨0, stch⟩) ⟨[⟨6, 1⟩], 1⟩ = some 0 ∧
      (root.with_roomy_pool.get_descriptor_pool_for_layouts 0 [] ⟨[⟨6, 1⟩], 1⟩ stch false).1 = 0 ∧
      (root.with_roomy_pool.get_descriptor_pool_for_layouts 0 [] ⟨[⟨6, 1⟩], 1⟩ stch
        false).2.mHeap = root.with_roomy_pool.mHeap) ∧
    ((root.fresh 0).find_pool_with_capacity
        ((root.fresh 0).surviving_pools [] ⟨0, stch⟩) ⟨[⟨6, 1⟩], 1⟩ = none ∧
      ((root.fresh 0).get_descriptor_pool_for_layouts 0 [] ⟨[⟨6, 1⟩], 1⟩ stch false).1 = 0 ∧
      bucket_of ((root.fresh 0).get_descriptor_pool_for_layouts 0 [] ⟨[⟨6, 1⟩], 1⟩ stch
        false).2.mDescriptorPools ⟨0, stch⟩ = [0]) :=
  ⟨⟨by decide,
      ((first_fit_pool_selection root.with_roomy_pool 0 [] ⟨[⟨6, 1⟩], 1⟩ stch false).1 0 rfl
        (by decide)).1,
      ((first_fit_pool_selection root.with_roomy_pool 0 [] ⟨[⟨6, 1⟩], 1⟩ stch false).1 0 rfl
        (by decide)).2.2.1⟩,
    ⟨by decide,
      ((first_fit_pool_selection (root.fresh 0) 0 [] ⟨[⟨6, 1⟩], 1⟩ stch false).2.1
        (Or.inr (by decide))).1,
      ((first_fit_pool_selection (root.fresh 0) 0 [] ⟨[⟨6, 1⟩], 1⟩ stch false).2.1
        (Or.inr (by decide))).2.2⟩⟩

/-! ## Sizing of a new pool -/

/-- C12, counterexample: on a device whose vendor id is not `0x12d2`, with
preallocation factor 5, the pool created for a request of one set with one
uniform buffer has the capacities scaled by 5 and an initial set count of 10,
which is not `num_sets × f = 5`. -/
theorem new_pool_set_count_doubled_off_vendor_branch :
    (root.fresh 0).sDescriptorPoolPreallocFactor = 5 ∧
    ((root.fresh 0).get_descriptor_pool_for_layouts 0 [] ⟨[⟨6, 1⟩], 1⟩ stch false).1 = 0 ∧
    ((root.fresh 0).get_descriptor_pool_for_layouts 0 [] ⟨[⟨6, 1⟩], 1⟩ stch false).2.mHeap =
      [{ mInitialCapacities := [⟨6, 5⟩], mRemainingCapacities := [⟨6, 5⟩],
         mNumInitialSets := 10, mNumRemainingSets := 10, mDescriptorPool := some 1 }] ∧
    (10 : Int) ≠ toInt32 ((⟨[⟨6, 1⟩], 1⟩ : descriptor_alloc_request).num_sets *
      (root.fresh 0).sDescriptorPoolPreallocFactor) := by
  refine ⟨rfl, by decide, by decide, by decide⟩

/-- C12 as amended: when `get_descriptor_pool_for_layouts` creates a pool for a
request with preallocation factor `f`, then on a device of vendor id `0x12d2`
the initial set count is `num_sets × f` and the initial per-kind capacities are
the counts of the request unscaled, and on every other device the initial set
count is `num_sets × f × 2` and the initial per-kind capacities are the counts
of the request times `f`, kind by kind in the order of the request; products
are 32-bit and the set count is read as a signed 32-bit value. -/
theorem new_pool_sizing_by_vendor (r : root) (tid : Nat) (locals : List Nat)
    (aAllocRequest : descriptor_alloc_request) (aPoolName : Int) (aRequestNewPool : Bool)
    (hnew : aRequestNewPool = true ∨
      r.find_pool_with_capacity (r.surviving_pools locals ⟨tid, aPoolName⟩) aAllocRequest =
        none) :
    ∃ p, (r.get_descriptor_pool_for_layouts tid locals aAllocRequest aPoolName
        aRequestNewPool).2.mHeap[(r.get_descriptor_pool_for_layouts tid locals aAllocRequest
          aPoolName aRequestNewPool).1]? = some p ∧
      (0x12d2 = r.vendorID →
        p.mNumInitialSets =
            toInt32 (aAllocRequest.num_sets * r.sDescriptorPoolPreallocFactor) ∧
          p.mInitialCapacities = aAllocRequest.accumulated_pool_sizes) ∧
      (0x12d2 ≠ r.vendorID →
        p.mNumInitialSets =
            toInt32 (aAllocRequest.num_sets * r.sDescriptorPoolPreallocFactor * 2) ∧
          p.mInitialCapacities = aAllocRequest.accumulated_pool_sizes.map (fun s =>
            { type := s.type
              descriptorCount := u32 (s.descriptorCount * r.sDescriptorPoolPreallocFactor) })) := by
  rcases get_descriptor_pool_for_layouts_cases r tid locals aAllocRequest aPoolName
    aRequestNewPool with ⟨hf, sptr, p, _, _, _, hfind, _⟩ | ⟨_, heq⟩
  · rcases hnew with h | h
    · rw [hf] at h; cases h
    · rw [hfind] at h; cases h
  · rw [heq]
    refine ⟨(r.new_pool_for aAllocRequest).1, by simp, ?_, ?_⟩
    · intro hv
      unfold root.new_pool_for root.create_descriptor_pool
      simp [hv]
    · intro hv
      unfold root.new_pool_for root.create_descriptor_pool
        descriptor_alloc_request.multiply_size_requirements
        descriptor_alloc_request.accumulated_pool_sizes
      simp [hv]

/-- Witness for C12 as amended: the first pool created on a device of vendor 0
for a request of one set with one uniform buffer. -/
theorem new_pool_sizing_by_vendor_witness :
    ∃ p, ((root.fresh 0).get_descriptor_pool_for_layouts 0 [] ⟨[⟨6, 1⟩], 1⟩ stch
        false).2.mHeap[((root.fresh 0).get_descriptor_pool_for_layouts 0 [] ⟨[⟨6, 1⟩], 1⟩ stch
          false).1]? = some p ∧
      (0x12d2 = (root.fresh 0).vendorID →
        p.mNumInitialSets =
            toInt32 ((⟨[⟨6, 1⟩], 1⟩ : descriptor_alloc_request).num_sets *
              (root.fresh 0).sDescriptorPoolPreallocFactor) ∧
          p.mInitialCapacities =
            (⟨[⟨6, 1⟩], 1⟩ : descriptor_alloc_request).accumulated_pool_sizes) ∧
      (0x12d2 ≠ (root.fresh 0).vendorID →
        p.mNumInitialSets =
            toInt32 ((⟨[⟨6, 1⟩], 1⟩ : descriptor_alloc_request).num_sets *
              (root.fresh 0).sDescriptorPoolPreallocFactor * 2) ∧
          p.mInitialCapacities =
            (⟨[⟨6, 1⟩], 1⟩ : descriptor_alloc_request).accumulated_pool_sizes.map (fun s =>
              { type := s.type
                descriptorCount :=
                  u32 (s.descriptorCount * (root.fresh 0).sDescriptorPoolPreallocFactor) })) :=
  new_pool_sizing_by_vendor (root.fresh 0) 0 [] ⟨[⟨6, 1⟩], 1⟩ stch false (Or.inr (by decide))

/-! ## Content equality of templates -/

/-- C13, evaluated on the failing input: the template prepared from a
uniform-buffer binding without a resource handle and the template prepared from
the same binding with buffer 7 have one write each, which agree on slot id,
array offset, count and kind; the buffer-info array is absent on the left and
present on the right, so the templates are not content-equal, and
`operator==` returns `false` with the buffer template on the left but `true`
with the empty template on the left. -/
theorem eq_skips_resources_absent_on_the_left :
    descriptor_set.prepare (resource_less_binding 0 0) [] = .ok resource_less_set ∧
    descriptor_set.prepare (uniform_buffer_binding 0 0 7) [] = .ok (uniform_buffer_set 7) ∧
    descriptor_set.content_equal resource_less_set (uniform_buffer_set 7) = false ∧
    (uniform_buffer_set 7).eq resource_less_set = false ∧
    resource_less_set.eq (uniform_buffer_set 7) = true := by
  refine ⟨rfl, rfl, by decide, by decide, by decide⟩

/-! ## Result order -/

/-- C14, evaluated on the failing input: on empty caches the batch with one
uniform buffer (buffer 7) at set 0, slot 0 succeeds with one newly allocated
set of `set_id()` 0 and native handle 100. On the state this leaves, the batch
with the same buffer at set 1, slot 0 succeeds as well, and the one set it
returns is the cached one: its `set_id()` is 0, although the only set id of
the batch is 1. -/
theorem cached_set_keeps_first_set_id :
    ((root.fresh 0).get_or_create_descriptor_sets (out_of_pool_memory_first 0 [100]) 0
        [uniform_buffer_binding 0 0 7]).1.toOption.map
          (fun result => result.map (fun s => (s.set_id, s.handle))) =
      some [(0, some 100)] ∧
    (((root.fresh 0).get_or_create_descriptor_sets (out_of_pool_memory_first 0 [100]) 0
        [uniform_buffer_binding 0 0 7]).2.get_or_create_descriptor_sets (always_failing 4) 0
        [uniform_buffer_binding 1 0 7]).1.toOption.map
          (fun result => result.map (fun s => (s.set_id, s.handle))) =
      some [(0, some 100)] ∧
    [uniform_buffer_binding 1 0 7].map (fun b => b.mSetId) = [1] := by
  refine ⟨by decide, by decide, rfl⟩

/-! ## The slot-ordering invariant -/

theorem insert_ordered_perm (xs : List binding_data) (b : binding_data) :
    (insert_ordered xs b).Perm (b :: xs) := by
  induction xs with
  | nil => exact List.Perm.refl _
  | cons x xs ih =>
    unfold insert_ordered
    by_cases h : x.lt b = true
    · simp only [h, if_true]
      exact (List.Perm.cons x ih).trans (List.Perm.swap b x xs)
    · simp only [h, if_false, Bool.false_eq_true]
      exact List.Perm.refl _

theorem foldl_insert_ordered_perm (aBindings : List binding_data) :
    ∀ acc : List binding_data, (aBindings.foldl insert_ordered acc).Perm (acc ++ aBindings) := by
  induction aBindings with
  | nil => intro acc; simp
  | cons b bs ih =>
    intro acc
    simp only [List.foldl_cons]
    refine (ih _).trans ?_
    have h1 : (insert_ordered acc b ++ bs).Perm ((b :: acc) ++ bs) :=
      List.Perm.append_right bs (insert_ordered_perm acc b)
    refine h1.trans ?_
    simp only [List.cons_append]
    exact (List.perm_middle).symm

theorem ordered_bindings_perm (aBindings : List binding_data) :
    (aBindings.foldl insert_ordered []).Perm aBindings := by
  simpa using foldl_insert_ordered_perm aBindings []

theorem strictly_increasing_slots_pairwise :
    ∀ range : List binding_data, strictly_increasing_slots range = true →
      (range.map (fun b => b.mLayoutBinding.binding)).Pairwise (fun x y => x < y)
  | [], _ => List.Pairwise.nil
  | [_], _ => by simp
  | b :: next :: rest, h => by
    unfold strictly_increasing_slots at h
    simp only [Bool.and_eq_true, decide_eq_true_eq] at h
    have ih := strictly_increasing_slots_pairwise (next :: rest) h.2
    simp only [List.map_cons, List.pairwise_cons] at ih ⊢
    refine ⟨?_, ih⟩
    intro y hy
    rcases List.mem_cons.mp hy with hy | hy
    · rw [hy]; exact h.1
    · exact lt_trans h.1 (ih.1 y hy)

theorem strictly_increasing_slots_nodup (range : List binding_data)
    (h : strictly_increasing_slots range = true) :
    (range.map (fun b => b.mLayoutBinding.binding)).Nodup :=
  (strictly_increasing_slots_pairwise range h).imp (fun hlt => Nat.ne_of_lt hlt)

theorem prepare_loop_ok_increasing (beginSetId : Nat) :
    ∀ (range : List binding_data) (result p : descriptor_set),
      descriptor_set.prepare_loop beginSetId range result = .ok p →
      strictly_increasing_slots range = true
  | [], _, _, _ => rfl
  | [b], _, _, _ => rfl
  | b :: next :: rest, result, p, h => by
    unfold descriptor_set.prepare_loop at h
    by_cases h1 : beginSetId ≠ b.mSetId
    · simp [h1] at h
    · simp only [h1, if_false] at h
      by_cases h2 : b.mLayoutBinding.binding = next.mLayoutBinding.binding
      · simp [h2] at h
      · by_cases h3 : b.mLayoutBinding.binding < next.mLayoutBinding.binding
        · simp only [h2, h3, decide_False, decide_True, not_true_eq_false,
            Bool.false_eq_true, if_false] at h
          unfold strictly_increasing_slots
          simp only [h3, decide_True, Bool.true_and]
          exact prepare_loop_ok_increasing beginSetId (next :: rest) _ p h
        · simp [h2, h3] at h

theorem prepare_loop_error (beginSetId : Nat) :
    ∀ (range : List binding_data) (result : descriptor_set) (e : Err),
      descriptor_set.prepare_loop beginSetId range result = .error e → e = .assertion
  | [], _, _, h => by cases h
  | b :: rest, result, e, h => by
    unfold descriptor_set.prepare_loop at h
    split at h
    · cases h; rfl
    · split at h
      · cases h; rfl
      · split at h
        · cases h; rfl
        · exact prepare_loop_error beginSetId rest _ e h

theorem prepare_ok_increasing (first : binding_data) (rest : List binding_data)
    (p : descriptor_set) (h : descriptor_set.prepare first rest = .ok p) :
    strictly_increasing_slots (first :: rest) = true := by
  unfold descriptor_set.prepare at h
  cases hloop : descriptor_set.prepare_loop first.mSetId (first :: rest)
      { descriptor_set.empty with mSetId := first.mSetId } with
  | error e => simp [hloop] at h
  | ok x => exact prepare_loop_ok_increasing _ _ _ x hloop

theorem prepare_error (first : binding_data) (rest : List binding_data) (e : Err)
    (h : descriptor_set.prepare first rest = .error e) : e = .assertion := by
  unfold descriptor_set.prepare at h
  cases hloop : descriptor_set.prepare_loop first.mSetId (first :: rest)
      { descriptor_set.empty with mSetId := first.mSetId } with
  | error e2 =>
    simp only [hloop, Except.error.injEq] at h
    rw [← h]; exact prepare_loop_error _ _ _ e2 hloop
  | ok x =>
    simp only [hloop] at h
    unfold descriptor_set.update_data_pointers at h
    split at h
    · cases h
    · cases h; rfl

theorem keys_nodup_of_slots_nodup :
    ∀ l : List binding_data,
      (∀ b ∈ l, ((l.filter (fun x => x.mSetId == b.mSetId)).map
        (fun x => x.mLayoutBinding.binding)).Nodup) →
      (l.map (fun b => (b.mSetId, b.mLayoutBinding.binding))).Nodup
  | [], _ => List.nodup_nil
  | b :: t, h => by
    simp only [List.map_cons, List.nodup_cons]
    constructor
    · intro hmem
      obtain ⟨c, hc, hkey⟩ := List.mem_map.mp hmem
      simp only [Prod.mk.injEq] at hkey
      have hb := h b (List.mem_cons_self _ _)
      simp only [List.filter_cons, beq_self_eq_true, if_true, List.map_cons,
        List.nodup_cons] at hb
      apply hb.1
      refine List.mem_map.mpr ⟨c, ?_, hkey.2⟩
      exact List.mem_filter.mpr ⟨hc, by simp [hkey.1]⟩
    · apply keys_nodup_of_slots_nodup t
      intro c hc
      have hcn := h c (List.mem_cons_of_mem _ hc)
      have hsub : List.Sublist
          ((t.filter (fun x => x.mSetId == c.mSetId)).map (fun x => x.mLayoutBinding.binding))
          (((b :: t).filter (fun x => x.mSetId == c.mSetId)).map
            (fun x => x.mLayoutBinding.binding)) :=
        List.Sublist.map _ (List.Sublist.filter _ (List.sublist_cons_self b t))
      exact hcn.sublist hsub

theorem foldl_min_le (l : List binding_data) :
    ∀ init : Nat, l.foldl (fun m b => min m b.mSetId) init ≤ init ∧
      ∀ b ∈ l, l.foldl (fun m b => min m b.mSetId) init ≤ b.mSetId := by
  induction l with
  | nil => intro init; simp
  | cons x xs ih =>
    intro init
    simp only [List.foldl_cons]
    have h := ih (min init x.mSetId)
    refine ⟨le_trans h.1 (min_le_left _ _), ?_⟩
    intro b hb
    rcases List.mem_cons.mp hb with hb | hb
    · rw [hb]; exact le_trans h.1 (min_le_right _ _)
    · exact h.2 b hb

theorem le_foldl_max (l : List binding_data) :
    ∀ init : Nat, init ≤ l.foldl (fun m b => max m b.mSetId) init ∧
      ∀ b ∈ l, b.mSetId ≤ l.foldl (fun m b => max m b.mSetId) init := by
  induction l with
  | nil => intro init; simp
  | cons x xs ih =>
    intro init
    simp only [List.foldl_cons]
    have h := ih (max init x.mSetId)
    refine ⟨le_trans (le_max_left _ _) h.1, ?_⟩
    intro b hb
    rcases List.mem_cons.mp hb with hb | hb
    · rw [hb]; exact le_trans (le_max_right _ _) h.1
    · exact h.2 b hb

/-- Every set id of a batch lies in the range of set ids that the loop of
`get_or_create_descriptor_sets` goes through. -/
theorem set_id_in_range (aBindings : List binding_data) (b : binding_data)
    (hb : b ∈ aBindings) :
    b.mSetId ∈ List.range' (aBindings.foldl (fun m b => min m b.mSetId) (2 ^ 32 - 1))
      (aBindings.foldl (fun m b => max m b.mSetId) 0 + 1 -
        aBindings.foldl (fun m b => min m b.mSetId) (2 ^ 32 - 1)) := by
  have h1 := (foldl_min_le aBindings (2 ^ 32 - 1)).2 b hb
  have h2 := (le_foldl_max aBindings 0).2 b hb
  rw [List.mem_range'_1]
  omega

theorem get_or_alloc_layout_keeps (r : root) (aPreparedLayout : descriptor_set_layout) :
    (r.get_or_alloc_layout aPreparedLayout).2.mSets = r.mSets ∧
    (r.get_or_alloc_layout aPreparedLayout).2.mHeap = r.mHeap ∧
    (r.get_or_alloc_layout aPreparedLayout).2.mDescriptorPools = r.mDescriptorPools ∧
    (r.get_or_alloc_layout aPreparedLayout).2.mCarveCalls = r.mCarveCalls ∧
    ∀ e, (r.get_or_alloc_layout aPreparedLayout).1 = .error e → e = .assertion := by
  unfold root.get_or_alloc_layout root.allocate_descriptor_set_layout
  cases r.mLayouts.find? (fun l => aPreparedLayout.eq l) with
  | some it =>
    simp only
    split
    · refine ⟨rfl, rfl, rfl, rfl, ?_⟩
      intro e he; cases he; rfl
    · refine ⟨rfl, rfl, rfl, rfl, ?_⟩
      intro e he; cases he
  | none =>
    simp only
    split <;> split <;>
      first
        | exact ⟨rfl, rfl, rfl, rfl, fun e he => by cases he; rfl⟩
        | exact ⟨rfl, rfl, rfl, rfl, fun e he => by cases he⟩

theorem descriptor_set_layout_prepare_error (range : List binding_data) (e : Err)
    (h : descriptor_set_layout.prepare range = .error e) : e = .assertion := by
  unfold descriptor_set_layout.prepare at h
  split at h
  · cases h
  · cases h; rfl

/-- One pass of the loop over the set ids, whatever its outcome: the set cache,
the pools, the pool directory and the carve log are kept, a failure is a
failed assertion, and a success on a non-empty range means that
`descriptor_set::prepare` has succeeded on it. -/
theorem resolve_set_keeps (r : root) (orderedBindings : List binding_data) (setId : Nat)
    (st : resolve_state) :
    (r.resolve_set orderedBindings setId st).2.mSets = r.mSets ∧
    (r.resolve_set orderedBindings setId st).2.mHeap = r.mHeap ∧
    (r.resolve_set orderedBindings setId st).2.mDescriptorPools = r.mDescriptorPools ∧
    (r.resolve_set orderedBindings setId st).2.mCarveCalls = r.mCarveCalls ∧
    (∀ e, (r.resolve_set orderedBindings setId st).1 = .error e → e = .assertion) ∧
    (∀ st1, (r.resolve_set orderedBindings setId st).1 = .ok st1 →
      ∀ first rest, orderedBindings.filter (fun b => b.mSetId == setId) = first :: rest →
        ∃ p, descriptor_set.prepare first rest = .ok p) := by
  unfold root.resolve_set
  cases hrange : orderedBindings.filter (fun b => b.mSetId == setId) with
  | nil =>
    refine ⟨rfl, rfl, rfl, rfl, ?_, ?_⟩
    · intro e he; cases he
    · intro st1 _ first rest hfr; cases hfr
  | cons first rest =>
    simp only
    cases hlp : descriptor_set_layout.prepare (first :: rest) with
    | error e =>
      refine ⟨rfl, rfl, rfl, rfl, ?_, ?_⟩
      · intro e2 he
        simp only [Except.error.injEq] at he
        rw [← he]; exact descriptor_set_layout_prepare_error _ e hlp
      · intro st1 he; cases he
    | ok preparedLayout =>
      simp only
      obtain ⟨k1, k2, k3, k4, k5⟩ := get_or_alloc_layout_keeps r preparedLayout
      cases hgl : r.get_or_alloc_layout preparedLayout with
      | mk res ra =>
        rw [hgl] at k1 k2 k3 k4 k5
        simp only at k1 k2 k3 k4 k5
        cases res with
        | error e =>
          refine ⟨k1, k2, k3, k4, ?_, ?_⟩
          · intro e2 he
            simp only [Except.error.injEq] at he
            rw [← he]; exact k5 e rfl
          · intro st1 he; cases he
        | ok layout =>
          simp only
          cases hsp : descriptor_set.prepare first rest with
          | error e =>
            refine ⟨k1, k2, k3, k4, ?_, ?_⟩
            · intro e2 he
              simp only [Except.error.injEq] at he
              rw [← he]; exact prepare_error _ _ e hsp
            · intro st1 he; cases he
          | ok preparedSet =>
            simp only
            cases ra.get_descriptor_set_from_cache preparedSet with
            | some cachedSet =>
              refine ⟨k1, k2, k3, k4, ?_, ?_⟩
              · intro e he; cases he
              · intro st1 _ f r2 hfr
                cases hfr
                exact ⟨preparedSet, hsp⟩
            | none =>
              refine ⟨k1, k2, k3, k4, ?_, ?_⟩
              · intro e he; cases he
              · intro st1 _ f r2 hfr
                cases hfr
                exact ⟨preparedSet, hsp⟩

/-- The loop over the set ids, whatever its outcome: as `resolve_set_keeps`,
for all the set ids gone through. -/
theorem resolve_sets_keeps (orderedBindings : List binding_data) :
    ∀ (setIds : List Nat) (r : root) (st : resolve_state),
      (root.resolve_sets orderedBindings setIds r st).2.mSets = r.mSets ∧
      (root.resolve_sets orderedBindings setIds r st).2.mHeap = r.mHeap ∧
      (root.resolve_sets orderedBindings setIds r st).2.mDescriptorPools =
        r.mDescriptorPools ∧
      (root.resolve_sets orderedBindings setIds r st).2.mCarveCalls = r.mCarveCalls ∧
      (∀ e, (root.resolve_sets orderedBindings setIds r st).1 = .error e → e = .assertion) ∧
      (∀ st1, (root.resolve_sets orderedBindings setIds r st).1 = .ok st1 →
        ∀ setId ∈ setIds, ∀ first rest,
          orderedBindings.filter (fun b => b.mSetId == setId) = first :: rest →
          ∃ p, descriptor_set.prepare first rest = .ok p) := by
  intro setIds
  induction setIds with
  | nil =>
    intro r st
    unfold root.resolve_sets
    refine ⟨rfl, rfl, rfl, rfl, ?_, ?_⟩
    · intro e he; cases he
    · intro st1 _ setId hs; cases hs
  | cons setId setIds ih =>
    intro r st
    unfold root.resolve_sets
    obtain ⟨k1, k2, k3, k4, k5, k6⟩ := resolve_set_keeps r orderedBindings setId st
    cases hhead : r.resolve_set orderedBindings setId st with
    | mk res ra =>
      rw [hhead] at k1 k2 k3 k4 k5 k6
      simp only at k1 k2 k3 k4 k5 k6
      cases res with
      | error e =>
        refine ⟨k1, k2, k3, k4, ?_, ?_⟩
        · intro e2 he
          simp only [Except.error.injEq] at he
          rw [← he]; exact k5 e rfl
        · intro st1 he; cases he
      | ok st1 =>
        simp only
        obtain ⟨j1, j2, j3, j4, j5, j6⟩ := ih ra st1
        refine ⟨j1.trans k1, j2.trans k2, j3.trans k3, j4.trans k4, j5, ?_⟩
        intro st2 hok s hs first rest hfr
        rcases List.mem_cons.mp hs with hs | hs
        · subst hs
          exact k6 st1 rfl first rest hfr
        · exact j6 st2 hok s hs first rest hfr

/-- A batch with two bindings of the same (set id, slot id) has a set id on
whose run of ordered bindings `descriptor_set::prepare` fails its assertion. -/
theorem duplicate_slot_fails_prepare (aBindings : List binding_data)
    (hdup : ¬ (aBindings.map (fun b => (b.mSetId, b.mLayoutBinding.binding))).Nodup) :
    ∃ first rest, first ∈ aBindings ∧
      (aBindings.foldl insert_ordered []).filter (fun b => b.mSetId == first.mSetId) =
        first :: rest ∧
      descriptor_set.prepare first rest = .error .assertion := by
  by_contra hall
  apply hdup
  have hperm := ordered_bindings_perm aBindings
  rw [← (hperm.map (fun b => (b.mSetId, b.mLayoutBinding.binding))).nodup_iff]
  apply keys_nodup_of_slots_nodup
  intro b hb
  cases hrange : (aBindings.foldl insert_ordered []).filter
      (fun x => x.mSetId == b.mSetId) with
  | nil =>
    have : b ∈ (aBindings.foldl insert_ordered []).filter (fun x => x.mSetId == b.mSetId) :=
      List.mem_filter.mpr ⟨hb, by simp⟩
    rw [hrange] at this
    cases this
  | cons first rest =>
    have hfirst : first ∈ (aBindings.foldl insert_ordered []).filter
        (fun x => x.mSetId == b.mSetId) := by
      rw [hrange]; exact List.mem_cons_self _ _
    obtain ⟨hmem, hid⟩ := List.mem_filter.mp hfirst
    have hid2 : first.mSetId = b.mSetId := by simpa using hid
    cases hsp : descriptor_set.prepare first rest with
    | error e =>
      exfalso
      apply hall
      refine ⟨first, rest, hperm.mem_iff.mp hmem, ?_, ?_⟩
      · rw [hid2]; exact hrange
      · rw [hsp, prepare_error first rest e hsp]
    | ok p =>
      exact strictly_increasing_slots_nodup _ (prepare_ok_increasing first rest p hsp)

/-- C15: a batch that contains two bindings with the same (set id, slot id)
makes `root::get_or_create_descriptor_sets` fail with a failed assertion, so no
descriptor sets are returned; the set cache, the pools and the carve log are
left as they were, so neither binding has been written anywhere; and among the
set ids of the batch there is one on whose run of ordered bindings
`descriptor_set::prepare` fails its assertion. -/
theorem duplicate_slot_fails_fatally (r : root) (native : native_allocator) (tid : Nat)
    (aBindings : List binding_data)
    (hdup : ¬ (aBindings.map (fun b => (b.mSetId, b.mLayoutBinding.binding))).Nodup) :
    (r.get_or_create_descriptor_sets native tid aBindings).1 = .error .assertion ∧
    (r.get_or_create_descriptor_sets native tid aBindings).2.mSets = r.mSets ∧
    (r.get_or_create_descriptor_sets native tid aBindings).2.mHeap = r.mHeap ∧
    (r.get_or_create_descriptor_sets native tid aBindings).2.mCarveCalls = r.mCarveCalls ∧
    ∃ first rest, first ∈ aBindings ∧
      (aBindings.foldl insert_ordered []).filter (fun b => b.mSetId == first.mSetId) =
        first :: rest ∧
      descriptor_set.prepare first rest = .error .assertion := by
  obtain ⟨first, rest, hmem, hrange, hfail⟩ := duplicate_slot_fails_prepare aBindings hdup
  refine ⟨?_, ?_, ?_, ?_, first, rest, hmem, hrange, hfail⟩
  all_goals
    unfold root.get_or_create_descriptor_sets
    simp only
    obtain ⟨k1, k2, k3, k4, k5, k6⟩ := resolve_sets_keeps (aBindings.foldl insert_ordered [])
      (List.range' (aBindings.foldl (fun m b => min m b.mSetId) (2 ^ 32 - 1))
        (aBindings.foldl (fun m b => max m b.mSetId) 0 + 1 -
          aBindings.foldl (fun m b => min m b.mSetId) (2 ^ 32 - 1))) r resolve_state.initial
    cases hloop : root.resolve_sets (aBindings.foldl insert_ordered [])
      (List.range' (aBindings.foldl (fun m b => min m b.mSetId) (2 ^ 32 - 1))
        (aBindings.foldl (fun m b => max m b.mSetId) 0 + 1 -
          aBindings.foldl (fun m b => min m b.mSetId) (2 ^ 32 - 1))) r
      resolve_state.initial with
    | mk res ra =>
      rw [hloop] at k1 k2 k3 k4 k5 k6
      simp only at k1 k2 k3 k4 k5 k6
      cases res with
      | error e =>
        simp only
        first
          | exact congrArg _ (k5 e rfl)
          | assumption
      | ok st =>
        exfalso
        obtain ⟨p, hp⟩ := k6 st rfl first.mSetId (set_id_in_range aBindings first hmem)
          first rest hrange
        rw [hp] at hfail
        cases hfail

/-- Witness for C15: two uniform buffers bound to set 0, slot 0. -/
theorem duplicate_slot_fails_fatally_witness :
    ¬ ([uniform_buffer_binding 0 0 7, uniform_buffer_binding 0 0 8].map
        (fun b => (b.mSetId, b.mLayoutBinding.binding))).Nodup ∧
    ((root.fresh 0).get_or_create_descriptor_sets (out_of_pool_memory_first 0 [100]) 0
        [uniform_buffer_binding 0 0 7, uniform_buffer_binding 0 0 8]).1 = .error .assertion ∧
    ((root.fresh 0).get_or_create_descriptor_sets (out_of_pool_memory_first 0 [100]) 0
        [uniform_buffer_binding 0 0 7, uniform_buffer_binding 0 0 8]).2.mSets = [] :=
  ⟨by decide,
    (duplicate_slot_fails_fatally (root.fresh 0) (out_of_pool_memory_first 0 [100]) 0
      [uniform_buffer_binding 0 0 7, uniform_buffer_binding 0 0 8] (by decide)).1,
    (duplicate_slot_fails_fatally (root.fresh 0) (out_of_pool_memory_first 0 [100]) 0
      [uniform_buffer_binding 0 0 7, uniform_buffer_binding 0 0 8] (by decide)).2.1⟩

/-! ## The layout cache -/

/-- C18: on a layout cache whose entries all have their native handle, and for
a prepared schema that has none yet: when an equal schema is in the cache,
`get_or_alloc_layout` returns a cached entry equal to it and leaves the whole
state as it is (no native layout is allocated, the cache is unchanged);
otherwise it allocates one native layout (one fresh handle is taken), appends
the schema with that handle to the cache, which grows by exactly this entry,
and returns the appended entry. In both cases all entries of the cache have
their native handle afterwards. -/
theorem get_or_alloc_layout_hit_and_miss (r : root) (aPreparedLayout : descriptor_set_layout)
    (hinv : ∀ l ∈ r.mLayouts, l.handle.isNone = false)
    (hfresh : aPreparedLayout.mLayout = none) :
    ((∃ l ∈ r.mLayouts, aPreparedLayout.eq l = true) →
      ∃ it ∈ r.mLayouts, aPreparedLayout.eq it = true ∧
        r.get_or_alloc_layout aPreparedLayout = (.ok it, r)) ∧
    ((∀ l ∈ r.mLayouts, aPreparedLayout.eq l = false) →
      r.get_or_alloc_layout aPreparedLayout =
        (.ok { aPreparedLayout with mLayout := some r.mNextHandle },
          { r with
            mNextHandle := r.mNextHandle + 1
            mLayouts := r.mLayouts ++ [{ aPreparedLayout with mLayout := some r.mNextHandle }] })) ∧
    (∀ l ∈ (r.get_or_alloc_layout aPreparedLayout).2.mLayouts, l.handle.isNone = false) := by
  have hmiss : (∀ l ∈ r.mLayouts, aPreparedLayout.eq l = false) →
      r.get_or_alloc_layout aPreparedLayout =
        (.ok { aPreparedLayout with mLayout := some r.mNextHandle },
          { r with
            mNextHandle := r.mNextHandle + 1
            mLayouts :=
              r.mLayouts ++ [{ aPreparedLayout with mLayout := some r.mNextHandle }] }) := by
    intro hnone
    unfold root.get_or_alloc_layout root.allocate_descriptor_set_layout
    have hfind : r.mLayouts.find? (fun l => aPreparedLayout.eq l) = none := by
      rw [List.find?_eq_none]
      intro l hl
      simp [hnone l hl]
    have hany : r.mLayouts.any (fun l =>
        descriptor_set_layout.eq { aPreparedLayout with mLayout := some r.mNextHandle } l) =
          false := by
      rw [List.any_eq_false]
      intro l hl
      have := hnone l hl
      unfold descriptor_set_layout.eq at this ⊢
      simpa using this
    simp only [hfind, hfresh, Option.isNone_none, if_true, hany, Bool.false_eq_true, if_false]
  have hhit : (∃ l ∈ r.mLayouts, aPreparedLayout.eq l = true) →
      ∃ it ∈ r.mLayouts, aPreparedLayout.eq it = true ∧
        r.get_or_alloc_layout aPreparedLayout = (.ok it, r) := by
    intro hsome
    cases hfind : r.mLayouts.find? (fun l => aPreparedLayout.eq l) with
    | none =>
      exfalso
      obtain ⟨l, hl, heq⟩ := hsome
      rw [List.find?_eq_none] at hfind
      exact hfind l hl heq
    | some it =>
      have hmem := List.mem_of_find?_eq_some hfind
      refine ⟨it, hmem, List.find?_some hfind, ?_⟩
      unfold root.get_or_alloc_layout
      simp only [hfind, hinv it hmem, Bool.false_eq_true, if_false]
  refine ⟨hhit, hmiss, ?_⟩
  by_cases hex : ∃ l ∈ r.mLayouts, aPreparedLayout.eq l = true
  · obtain ⟨it, _, _, hrun⟩ := hhit hex
    rw [hrun]
    exact hinv
  · have hnone : ∀ l ∈ r.mLayouts, aPreparedLayout.eq l = false := by
      intro l hl
      cases h : aPreparedLayout.eq l with
      | false => rfl
      | true => exact absurd ⟨l, hl, h⟩ hex
    rw [hmiss hnone]
    intro l hl
    simp only [List.mem_append, List.mem_singleton] at hl
    rcases hl with hl | hl
    · exact hinv l hl
    · rw [hl]; rfl

/-- Witness for C18: the uniform-buffer schema against the empty cache (miss)
and against the cache that holds it with handle 3 (hit). -/
theorem get_or_alloc_layout_hit_and_miss_witness :
    (root.fresh 0).get_or_alloc_layout (uniform_buffer_layout none) =
      (.ok (uniform_buffer_layout (some 1)),
        { root.fresh 0 with mNextHandle := 2, mLayouts := [uniform_buffer_layout (some 1)] }) ∧
    ({ root.fresh 0 with mLayouts := [uniform_buffer_layout (some 3)] } : root).get_or_alloc_layout
        (uniform_buffer_layout none) =
      (.ok (uniform_buffer_layout (some 3)),
        { root.fresh 0 with mLayouts := [uniform_buffer_layout (some 3)] }) :=
  ⟨(get_or_alloc_layout_hit_and_miss (root.fresh 0) (uniform_buffer_layout none)
      (fun l hl => by cases hl) rfl).2.1 (fun l hl => by cases hl),
    by
      obtain ⟨it, hmem, _, hrun⟩ :=
        (get_or_alloc_layout_hit_and_miss
          ({ root.fresh 0 with mLayouts := [uniform_buffer_layout (some 3)] } : root)
          (uniform_buffer_layout none)
          (by intro l hl; simp only [List.mem_singleton] at hl; rw [hl]; rfl) rfl).1
          ⟨uniform_buffer_layout (some 3), List.mem_singleton.mpr rfl, rfl⟩
      simp only [List.mem_singleton] at hmem
      rw [hrun, hmem]⟩

/-! ## Scaling a request -/

/-- C20: `multiply_size_requirements(f)` returns a request with the same
`num_sets`, with the same kinds in the same order, and with every count
replaced by the count times `f` in 32-bit unsigned arithmetic; the request it
is applied to is a value that the function does not change. -/
theorem multiply_size_requirements_scales_counts (r : descriptor_alloc_request) (mFactor : Nat) :
    (r.multiply_size_requirements mFactor).num_sets = r.num_sets ∧
    (r.multiply_size_requirements mFactor).accumulated_pool_sizes.length =
      r.accumulated_pool_sizes.length ∧
    (r.multiply_size_requirements mFactor).accumulated_pool_sizes.map (fun s => s.type) =
      r.accumulated_pool_sizes.map (fun s => s.type) ∧
    (r.multiply_size_requirements mFactor).accumulated_pool_sizes.map
        (fun s => s.descriptorCount) =
      r.accumulated_pool_sizes.map (fun s => (s.descriptorCount * mFactor) % 2 ^ 32) ∧
    ∀ i : Nat, (r.multiply_size_requirements mFactor).accumulated_pool_sizes[i]? =
      (r.accumulated_pool_sizes[i]?).map (fun s =>
        DescriptorPoolSize.mk s.type ((s.descriptorCount * mFactor) % 2 ^ 32)) := by
  unfold descriptor_alloc_request.multiply_size_requirements
    descriptor_alloc_request.accumulated_pool_sizes descriptor_alloc_request.num_sets u32
  refine ⟨rfl, by simp, ?_, ?_, ?_⟩
  · simp [List.map_map, Function.comp_def]
  · simp [List.map_map, Function.comp_def]
  · intro i
    simp [List.getElem?_map]

/-! ## The allocation request of a list of layouts -/

theorem capacity_of_cons (el : DescriptorPoolSize) (rest : List DescriptorPoolSize) (kind : Int) :
    capacity_of (el :: rest) kind =
      if el.type = kind then some el.descriptorCount else capacity_of rest kind := by
  unfold capacity_of
  by_cases h : el.type = kind
  · simp [List.find?_cons, h]
  · simp [List.find?_cons, h]

theorem capacity_of_eq_none_of_lt (sizes : List DescriptorPoolSize) (kind : Int)
    (h : ∀ el ∈ sizes, kind < el.type) : capacity_of sizes kind = none := by
  unfold capacity_of
  rw [Option.map_eq_none', List.find?_eq_none]
  intro el hel
  have := h el hel
  simp only [decide_eq_true_eq]
  omega

theorem add_size_requirements_to_lt (it aToAdd : DescriptorPoolSize)
    (rest : List DescriptorPoolSize) (h : it.type < aToAdd.type) :
    add_size_requirements_to (it :: rest) aToAdd = it :: add_size_requirements_to rest aToAdd := by
  rw [add_size_requirements_to, if_pos h]

theorem add_size_requirements_to_eq (it aToAdd : DescriptorPoolSize)
    (rest : List DescriptorPoolSize) (h : it.type = aToAdd.type) :
    add_size_requirements_to (it :: rest) aToAdd =
      { it with descriptorCount := u32 (it.descriptorCount + aToAdd.descriptorCount) } :: rest := by
  have hlt : ¬ it.type < aToAdd.type := by omega
  rw [add_size_requirements_to, if_neg hlt, if_pos h]

theorem add_size_requirements_to_gt (it aToAdd : DescriptorPoolSize)
    (rest : List DescriptorPoolSize) (h : aToAdd.type < it.type) :
    add_size_requirements_to (it :: rest) aToAdd = aToAdd :: it :: rest := by
  have hlt : ¬ it.type < aToAdd.type := by omega
  have hne : ¬ it.type = aToAdd.type := by omega
  rw [add_size_requirements_to, if_neg hlt, if_neg hne]

theorem add_size_requirements_to_mem (acc : List DescriptorPoolSize) (aToAdd : DescriptorPoolSize) :
    ∀ el ∈ add_size_requirements_to acc aToAdd,
      el.type = aToAdd.type ∨ ∃ old ∈ acc, old.type = el.type := by
  induction acc with
  | nil =>
    intro el hel
    simp only [add_size_requirements_to, List.mem_singleton] at hel
    left; rw [hel]
  | cons it rest ih =>
    intro el hel
    by_cases h1 : it.type < aToAdd.type
    · rw [add_size_requirements_to_lt it aToAdd rest h1, List.mem_cons] at hel
      rcases hel with hel | hel
      · right; exact ⟨it, List.mem_cons_self _ _, by rw [hel]⟩
      · rcases ih el hel with h | ⟨old, hold, ht⟩
        · left; exact h
        · right; exact ⟨old, List.mem_cons_of_mem _ hold, ht⟩
    · by_cases h2 : it.type = aToAdd.type
      · rw [add_size_requirements_to_eq it aToAdd rest h2, List.mem_cons] at hel
        rcases hel with hel | hel
        · left; rw [hel]; exact h2
        · right; exact ⟨el, List.mem_cons_of_mem _ hel, rfl⟩
      · have hgt : aToAdd.type < it.type := by omega
        rw [add_size_requirements_to_gt it aToAdd rest hgt] at hel
        simp only [List.mem_cons] at hel
        rcases hel with hel | hel | hel
        · left; rw [hel]
        · right; exact ⟨it, List.mem_cons_self _ _, by rw [hel]⟩
        · right; exact ⟨el, List.mem_cons_of_mem _ hel, rfl⟩

/-- Adding an entry keeps the accumulated list strictly increasing by kind. -/
theorem add_size_requirements_to_sorted (acc : List DescriptorPoolSize)
    (aToAdd : DescriptorPoolSize) (hs : strictly_increasing_kinds acc) :
    strictly_increasing_kinds (add_size_requirements_to acc aToAdd) := by
  unfold strictly_increasing_kinds at hs ⊢
  induction acc with
  | nil => simp [add_size_requirements_to]
  | cons it rest ih =>
    rw [List.pairwise_cons] at hs
    by_cases h1 : it.type < aToAdd.type
    · rw [add_size_requirements_to_lt it aToAdd rest h1, List.pairwise_cons]
      refine ⟨?_, ih hs.2⟩
      intro el hel
      rcases add_size_requirements_to_mem rest aToAdd el hel with h | ⟨old, hold, ht⟩
      · rw [h]; exact h1
      · rw [← ht]; exact hs.1 old hold
    · by_cases h2 : it.type = aToAdd.type
      · rw [add_size_requirements_to_eq it aToAdd rest h2, List.pairwise_cons]
        refine ⟨?_, hs.2⟩
        intro el hel
        exact hs.1 el hel
      · have hlt : aToAdd.type < it.type := by omega
        rw [add_size_requirements_to_gt it aToAdd rest hlt]
        simp only [List.pairwise_cons]
        refine ⟨?_, hs.1, hs.2⟩
        intro el hel
        rcases List.mem_cons.mp hel with hel | hel
        · rw [hel]; exact hlt
        · exact lt_trans hlt (hs.1 el hel)

/-- The capacities after adding an entry to a list that is strictly increasing
by kind: the kind added gets the 32-bit sum with its old count, or the count
added when it was absent, and every other kind keeps what it had. -/
theorem capacity_of_add_size_requirements_to (acc : List DescriptorPoolSize)
    (aToAdd : DescriptorPoolSize) (kind : Int) (hs : strictly_increasing_kinds acc) :
    capacity_of (add_size_requirements_to acc aToAdd) kind =
      if aToAdd.type = kind then
        some (match capacity_of acc kind with
          | some c => u32 (c + aToAdd.descriptorCount)
          | none => aToAdd.descriptorCount)
      else capacity_of acc kind := by
  unfold strictly_increasing_kinds at hs
  induction acc with
  | nil =>
    simp only [add_size_requirements_to, capacity_of_cons]
    by_cases h : aToAdd.type = kind
    · simp [h, capacity_of]
    · simp [h]
  | cons it rest ih =>
    rw [List.pairwise_cons] at hs
    by_cases h1 : it.type < aToAdd.type
    · rw [add_size_requirements_to_lt it aToAdd rest h1]
      simp only [capacity_of_cons, ih hs.2]
      by_cases hk : aToAdd.type = kind
      · have : ¬ it.type = kind := by omega
        simp [hk, this]
      · simp [hk]
    · by_cases h2 : it.type = aToAdd.type
      · rw [add_size_requirements_to_eq it aToAdd rest h2]
        simp only [capacity_of_cons]
        by_cases hk : aToAdd.type = kind
        · have hik : it.type = kind := by omega
          simp [hk, hik]
        · have hik : ¬ it.type = kind := by omega
          simp [hk, hik]
      · have hgt : aToAdd.type < it.type := by omega
        rw [add_size_requirements_to_gt it aToAdd rest hgt]
        simp only [capacity_of_cons]
        by_cases hk : aToAdd.type = kind
        · have hne : ¬ it.type = kind := by omega
          have hnone : capacity_of rest kind = none := by
            apply capacity_of_eq_none_of_lt
            intro el hel
            have := hs.1 el hel
            omega
          simp [hk, hne, hnone]
        · simp [hk]

theorem foldl_add_size_requirements_sorted (entries : List DescriptorPoolSize) :
    ∀ acc : List DescriptorPoolSize, strictly_increasing_kinds acc →
      strictly_increasing_kinds (entries.foldl add_size_requirements_to acc) := by
  induction entries with
  | nil => intro acc h; exact h
  | cons e es ih =>
    intro acc h
    exact ih _ (add_size_requirements_to_sorted acc e h)

theorem count_of_kind_append (a b : List DescriptorPoolSize) (kind : Int) :
    count_of_kind (a ++ b) kind = count_of_kind a kind + count_of_kind b kind := by
  unfold count_of_kind
  simp [List.filter_append]

theorem count_of_kind_eq_zero (entries : List DescriptorPoolSize) (kind : Int)
    (h : entries.any (fun e => decide (e.type = kind)) = false) :
    count_of_kind entries kind = 0 := by
  unfold count_of_kind
  have : entries.filter (fun dps => decide (dps.type = kind)) = [] := by
    rw [List.filter_eq_nil_iff]
    intro e he
    rw [List.any_eq_false] at h
    exact h e he
  rw [this]; rfl

/-- The capacities accumulated from a list of entries whose counts are 32-bit
values: a kind that occurs gets the 32-bit sum of its counts, a kind that does
not occur gets no entry. -/
theorem capacity_of_foldl_add_size_requirements (entries : List DescriptorPoolSize)
    (kind : Int) (hcounts : ∀ e ∈ entries, e.descriptorCount < 2 ^ 32) :
    capacity_of (entries.foldl add_size_requirements_to []) kind =
      if entries.any (fun e => decide (e.type = kind)) then
        some (u32 (count_of_kind entries kind))
      else none := by
  induction entries using List.reverseRecOn with
  | nil => simp [capacity_of]
  | append_singleton es e ih =>
    have hes : ∀ x ∈ es, x.descriptorCount < 2 ^ 32 :=
      fun x hx => hcounts x (List.mem_append_left _ hx)
    have he : e.descriptorCount < 2 ^ 32 :=
      hcounts e (List.mem_append_right _ (List.mem_singleton.mpr rfl))
    have hsorted := foldl_add_size_requirements_sorted es [] List.Pairwise.nil
    rw [List.foldl_append, List.foldl_cons, List.foldl_nil,
      capacity_of_add_size_requirements_to _ e kind hsorted, ih hes, count_of_kind_append]
    have hone : count_of_kind [e] kind = if e.type = kind then e.descriptorCount else 0 := by
      unfold count_of_kind
      by_cases h : e.type = kind <;> simp [h]
    rw [hone, List.any_append]
    by_cases hk : e.type = kind
    · simp only [hk, if_true, List.any_cons, decide_True, Bool.true_or, Bool.or_true]
      cases hany : es.any (fun e => decide (e.type = kind)) with
      | true =>
        simp only [if_true]
        unfold u32
        rw [Nat.mod_add_mod]
      | false =>
        simp only [Bool.false_eq_true, if_false, count_of_kind_eq_zero es kind hany, zero_add]
        unfold u32
        rw [Nat.mod_eq_of_lt he]
    · simp [hk]

theorem mem_kinds_iff_capacity (sizes : List DescriptorPoolSize) (kind : Int) :
    kind ∈ sizes.map (fun s => s.type) ↔ (capacity_of sizes kind).isSome = true := by
  unfold capacity_of
  rw [Option.isSome_map', List.find?_isSome]
  simp only [List.mem_map, decide_eq_true_eq]

theorem foldl_layouts_eq_foldl_join (aLayouts : List descriptor_set_layout) :
    ∀ acc : List DescriptorPoolSize,
      aLayouts.foldl
          (fun acc layout => layout.required_pool_sizes.foldl add_size_requirements_to acc) acc =
        (aLayouts.map (fun l => l.required_pool_sizes)).flatten.foldl add_size_requirements_to acc := by
  induction aLayouts with
  | nil => intro acc; rfl
  | cons l ls ih =>
    intro acc
    simp only [List.foldl_cons, List.map_cons, List.flatten_cons, List.foldl_append]
    exact ih _

theorem count_of_kind_join (aLayouts : List descriptor_set_layout) (kind : Int) :
    count_of_kind (aLayouts.map (fun l => l.required_pool_sizes)).flatten kind =
      required_of_kind aLayouts kind := by
  unfold required_of_kind
  induction aLayouts with
  | nil => rfl
  | cons l ls ih =>
    simp only [List.map_cons, List.flatten_cons, count_of_kind_append, List.sum_cons, ih]

/-- Two lists that are strictly increasing by kind and hold the same capacity
for every kind are the same list. -/
theorem eq_of_capacity_of_eq :
    ∀ l1 l2 : List DescriptorPoolSize,
      strictly_increasing_kinds l1 → strictly_increasing_kinds l2 →
      (∀ kind, capacity_of l1 kind = capacity_of l2 kind) → l1 = l2
  | [], [], _, _, _ => rfl
  | [], b :: t2, _, _, h => by
    have := h b.type
    simp [capacity_of_cons, capacity_of] at this
  | a :: t1, [], _, _, h => by
    have := h a.type
    simp [capacity_of_cons, capacity_of] at this
  | a :: t1, b :: t2, h1, h2, h => by
    unfold strictly_increasing_kinds at h1 h2
    rw [List.pairwise_cons] at h1 h2
    have hnone1 : ∀ kind, kind ≤ a.type → capacity_of t1 kind = none := fun kind hk =>
      capacity_of_eq_none_of_lt t1 kind (fun el hel => lt_of_le_of_lt hk (h1.1 el hel))
    have hnone2 : ∀ kind, kind ≤ b.type → capacity_of t2 kind = none := fun kind hk =>
      capacity_of_eq_none_of_lt t2 kind (fun el hel => lt_of_le_of_lt hk (h2.1 el hel))
    have hab : a.type = b.type := by
      rcases lt_trichotomy a.type b.type with hlt | heq | hgt
      · have := h a.type
        rw [capacity_of_cons, capacity_of_cons, if_pos rfl, if_neg (by omega),
          hnone2 a.type (le_of_lt hlt)] at this
        cases this
      · exact heq
      · have := h b.type
        rw [capacity_of_cons, capacity_of_cons, if_pos rfl, if_neg (by omega),
          hnone1 b.type (le_of_lt hgt)] at this
        cases this
    have hcount : a.descriptorCount = b.descriptorCount := by
      have := h a.type
      rw [capacity_of_cons, capacity_of_cons, if_pos rfl, if_pos hab.symm] at this
      exact Option.some.inj this
    have hhead : a = b := by
      cases a; cases b
      simp only at hab hcount
      rw [hab, hcount]
    have htail : t1 = t2 := by
      apply eq_of_capacity_of_eq t1 t2 h1.2 h2.2
      intro kind
      by_cases hk : a.type = kind
      · rw [hnone1 kind (le_of_eq hk.symm), hnone2 kind (by omega)]
      · have := h kind
        rw [capacity_of_cons, capacity_of_cons, if_neg hk, if_neg (by omega)] at this
        exact this
    rw [hhead, htail]

theorem any_kind_flatten (aLayouts : List descriptor_set_layout) (kind : Int) :
    (aLayouts.map (fun l => l.required_pool_sizes)).flatten.any
        (fun e => decide (e.type = kind)) =
      aLayouts.any (fun l => l.required_pool_sizes.any (fun e => decide (e.type = kind))) := by
  induction aLayouts with
  | nil => rfl
  | cons l ls ih =>
    simp only [List.map_cons, List.flatten_cons, List.any_append, List.any_cons, ih]

theorem capacity_of_ofLayouts (aLayouts : List descriptor_set_layout) (kind : Int)
    (hcounts : ∀ l ∈ aLayouts, ∀ e ∈ l.required_pool_sizes, e.descriptorCount < 2 ^ 32) :
    capacity_of (descriptor_alloc_request.ofLayouts aLayouts).accumulated_pool_sizes kind =
      if aLayouts.any (fun l => l.required_pool_sizes.any (fun e => decide (e.type = kind))) then
        some (u32 (required_of_kind aLayouts kind))
      else none := by
  unfold descriptor_alloc_request.ofLayouts descriptor_alloc_request.accumulated_pool_sizes
  simp only
  rw [foldl_layouts_eq_foldl_join, capacity_of_foldl_add_size_requirements, count_of_kind_join,
    any_kind_flatten]
  intro e he
  simp only [List.mem_flatten, List.mem_map] at he
  obtain ⟨es, ⟨l, hl, rfl⟩, hmem⟩ := he
  exact hcounts l hl e hmem

theorem ofLayouts_sorted (aLayouts : List descriptor_set_layout) :
    strictly_increasing_kinds
      (descriptor_alloc_request.ofLayouts aLayouts).accumulated_pool_sizes := by
  unfold descriptor_alloc_request.ofLayouts descriptor_alloc_request.accumulated_pool_sizes
  simp only
  rw [foldl_layouts_eq_foldl_join]
  exact foldl_add_size_requirements_sorted _ [] List.Pairwise.nil

theorem required_of_kind_perm (l1 l2 : List descriptor_set_layout) (kind : Int)
    (h : l1.Perm l2) : required_of_kind l1 kind = required_of_kind l2 kind := by
  unfold required_of_kind
  exact (h.map _).sum_eq

/-- C19: for layouts whose required pool sizes hold 32-bit counts, the request
built from them has `num_sets` equal to the number of layouts; its accumulated
list is strictly increasing by kind; a kind is in it exactly when it occurs in
the required pool sizes of some layout; every kind in it has the sum of that
kind's counts over all entries of all layouts, modulo 2^32; and the request
built from any reordering of the layouts is the same request. -/
theorem alloc_request_sorted_aggregation (aLayouts : List descriptor_set_layout)
    (hcounts : ∀ l ∈ aLayouts, ∀ e ∈ l.required_pool_sizes, e.descriptorCount < 2 ^ 32) :
    (descriptor_alloc_request.ofLayouts aLayouts).num_sets = aLayouts.length ∧
    strictly_increasing_kinds
      (descriptor_alloc_request.ofLayouts aLayouts).accumulated_pool_sizes ∧
    (∀ kind : Int,
      kind ∈ (descriptor_alloc_request.ofLayouts aLayouts).accumulated_pool_sizes.map
          (fun s => s.type) ↔
        ∃ l ∈ aLayouts, ∃ e ∈ l.required_pool_sizes, e.type = kind) ∧
    (∀ kind : Int,
      kind ∈ (descriptor_alloc_request.ofLayouts aLayouts).accumulated_pool_sizes.map
          (fun s => s.type) →
        capacity_of (descriptor_alloc_request.ofLayouts aLayouts).accumulated_pool_sizes kind =
          some (required_of_kind aLayouts kind % 2 ^ 32)) ∧
    (∀ reordered : List descriptor_set_layout, aLayouts.Perm reordered →
      descriptor_alloc_request.ofLayouts reordered =
        descriptor_alloc_request.ofLayouts aLayouts) := by
  have hany : ∀ (ls : List descriptor_set_layout) (kind : Int),
      ls.any (fun l => l.required_pool_sizes.any (fun e => decide (e.type = kind))) = true ↔
        ∃ l ∈ ls, ∃ e ∈ l.required_pool_sizes, e.type = kind := by
    intro ls kind
    simp only [List.any_eq_true, decide_eq_true_eq]
  have hkinds : ∀ kind : Int,
      kind ∈ (descriptor_alloc_request.ofLayouts aLayouts).accumulated_pool_sizes.map
          (fun s => s.type) ↔
        ∃ l ∈ aLayouts, ∃ e ∈ l.required_pool_sizes, e.type = kind := by
    intro kind
    rw [mem_kinds_iff_capacity, capacity_of_ofLayouts aLayouts kind hcounts, ← hany]
    cases aLayouts.any
      (fun l => l.required_pool_sizes.any (fun e => decide (e.type = kind))) <;> simp
  refine ⟨rfl, ofLayouts_sorted aLayouts, hkinds, ?_, ?_⟩
  · intro kind hk
    rw [capacity_of_ofLayouts aLayouts kind hcounts]
    rw [if_pos ((hany aLayouts kind).mpr ((hkinds kind).mp hk))]
    rfl
  · intro reordered hperm
    have hcounts2 : ∀ l ∈ reordered, ∀ e ∈ l.required_pool_sizes,
        e.descriptorCount < 2 ^ 32 := fun l hl => hcounts l (hperm.mem_iff.mpr hl)
    have hlists : (descriptor_alloc_request.ofLayouts reordered).accumulated_pool_sizes =
        (descriptor_alloc_request.ofLayouts aLayouts).accumulated_pool_sizes := by
      apply eq_of_capacity_of_eq _ _ (ofLayouts_sorted reordered) (ofLayouts_sorted aLayouts)
      intro kind
      rw [capacity_of_ofLayouts aLayouts kind hcounts,
        capacity_of_ofLayouts reordered kind hcounts2,
        required_of_kind_perm aLayouts reordered kind hperm]
      have : reordered.any
          (fun l => l.required_pool_sizes.any (fun e => decide (e.type = kind))) =
          aLayouts.any
            (fun l => l.required_pool_sizes.any (fun e => decide (e.type = kind))) := by
        rw [Bool.eq_iff_iff, hany, hany]
        constructor
        · rintro ⟨l, hl, h⟩; exact ⟨l, hperm.mem_iff.mpr hl, h⟩
        · rintro ⟨l, hl, h⟩; exact ⟨l, hperm.mem_iff.mp hl, h⟩
      rw [this]
    have hnum : (descriptor_alloc_request.ofLayouts reordered).mNumSets =
        (descriptor_alloc_request.ofLayouts aLayouts).mNumSets := hperm.length_eq.symm
    unfold descriptor_alloc_request.accumulated_pool_sizes at hlists
    cases h1 : descriptor_alloc_request.ofLayouts reordered
    cases h2 : descriptor_alloc_request.ofLayouts aLayouts
    rw [h1, h2] at hlists hnum
    simp only at hlists hnum
    rw [hlists, hnum]

/-- Witness for C19: two layouts that both need uniform buffers (kind 6), one
of them also a storage buffer (kind 7). -/
theorem alloc_request_sorted_aggregation_witness :
    (descriptor_alloc_request.ofLayouts
        [⟨[], [⟨7, 2⟩, ⟨6, 1⟩], none⟩, ⟨[], [⟨6, 3⟩], none⟩]).accumulated_pool_sizes =
      [⟨6, 4⟩, ⟨7, 2⟩] ∧
    descriptor_alloc_request.ofLayouts [⟨[], [⟨6, 3⟩], none⟩, ⟨[], [⟨7, 2⟩, ⟨6, 1⟩], none⟩] =
      descriptor_alloc_request.ofLayouts [⟨[], [⟨7, 2⟩, ⟨6, 1⟩], none⟩, ⟨[], [⟨6, 3⟩], none⟩] :=
  ⟨by decide,
    (alloc_request_sorted_aggregation [⟨[], [⟨7, 2⟩, ⟨6, 1⟩], none⟩, ⟨[], [⟨6, 3⟩], none⟩]
      (by decide)).2.2.2.2 _ (List.Perm.swap _ _ _)⟩

/-! ## Mixed batches -/

theorem miss_pairs_cons (cache : List descriptor_set) (l : descriptor_set_layout)
    (ls : List descriptor_set_layout) (p : descriptor_set) (ps : List descriptor_set) :
    miss_pairs cache (l :: ls) (p :: ps) =
      if (cache.find? (fun s => p.eq s)).isNone then (l, p) :: miss_pairs cache ls ps
      else miss_pairs cache ls ps := by
  unfold miss_pairs
  simp only [List.zip_cons_cons, List.filter_cons]

theorem misses_of_cons (cache : List descriptor_set) (p : descriptor_set)
    (ps : List descriptor_set) :
    misses_of cache (p :: ps) =
      if (cache.find? (fun s => p.eq s)).isNone then p :: misses_of cache ps
      else misses_of cache ps := by
  unfold misses_of
  simp only [List.filter_cons]

theorem misses_eq_miss_pairs (cache : List descriptor_set) :
    ∀ (ps : List descriptor_set) (ls : List descriptor_set_layout), ls.length = ps.length →
      misses_of cache ps = (miss_pairs cache ls ps).map Prod.snd := by
  intro ps
  induction ps with
  | nil => intro ls _; simp [misses_of, miss_pairs]
  | cons p ps ih =>
    intro ls hlen
    cases ls with
    | nil => cases hlen
    | cons l ls =>
      rw [misses_of_cons, miss_pairs_cons]
      have := ih ls (by simpa using hlen)
      split
      · rw [List.map_cons, this]
      · exact this

theorem layouts_for_alloc_eq_miss_pairs (cache : List descriptor_set) :
    ∀ (ps : List descriptor_set) (ls : List descriptor_set_layout), ls.length = ps.length →
      (index_mapping ps.length
          (ps.map (fun p => (cache.find? (fun s => p.eq s)).isSome))).map
          (fun i => ls.getD i default) = (miss_pairs cache ls ps).map Prod.fst := by
  intro ps
  induction ps with
  | nil => intro ls _; simp [index_mapping, miss_pairs]
  | cons p ps ih =>
    intro ls hlen
    cases ls with
    | nil => cases hlen
    | cons l ls =>
      have hl : (ps.map (fun p => (cache.find? (fun s => p.eq s)).isSome)).length =
          ps.length := by simp
      have hi := ih ls (by simpa using hlen)
      simp only [List.map_cons, List.length_cons]
      rw [← hl, index_mapping_cons, hl, miss_pairs_cons]
      cases hfind : cache.find? (fun s => p.eq s) with
      | some found =>
        simp only [Option.isSome_some, if_true, List.nil_append, List.map_map,
          Option.isNone_some, Bool.false_eq_true, if_false]
        rw [← hi]
        simp [Function.comp_def]
      | none =>
        simp only [Option.isSome_none, Bool.false_eq_true, if_false, List.singleton_append,
          List.map_cons, List.map_map, Option.isNone_none, if_true]
        rw [← hi]
        simp [Function.comp_def]

/-- The result list position by position: the set found in the cache for the
template at this position, or else the newly allocated set whose index is the
number of uncached templates before this position. -/
theorem resolve_against_getElem (cache : List descriptor_set) :
    ∀ (ps news : List descriptor_set) (i : Nat), i < ps.length →
      news.length = (misses_of cache ps).length →
      (resolve_against cache ps news)[i]? =
        match cache.find? (fun s => (ps.getD i default).eq s) with
        | some cached => some cached
        | none => news[(misses_of cache (ps.take i)).length]? := by
  intro ps
  induction ps with
  | nil => intro news i hi; cases hi
  | cons p ps ih =>
    intro news i hi hlen
    rw [resolve_against_cons]
    rw [misses_of_cons] at hlen
    cases i with
    | zero =>
      cases hfind : cache.find? (fun s => p.eq s) with
      | some found => simp [hfind]
      | none =>
        simp only [hfind, Option.isNone_none, if_true, List.length_cons] at hlen
        cases news with
        | nil => cases hlen
        | cons n ns => simp [hfind, misses_of]
    | succ j =>
      have hj : j < ps.length := by simpa using hi
      cases hfind : cache.find? (fun s => p.eq s) with
      | some found =>
        simp only [hfind, Option.isNone_some, Bool.false_eq_true, if_false] at hlen
        simp only [List.getElem?_cons_succ, List.getD_cons_succ, List.take_succ_cons]
        rw [ih news j hj hlen, misses_of_cons]
        simp [hfind]
      | none =>
        simp only [hfind, Option.isNone_none, if_true, List.length_cons] at hlen
        cases news with
        | nil => cases hlen
        | cons n ns =>
          simp only [List.getElem?_cons_succ, List.getD_cons_succ, List.take_succ_cons,
            List.tail_cons]
          rw [ih ns j hj (by simpa using hlen), misses_of_cons]
          simp [hfind]

theorem templates_of_cons (orderedBindings : List binding_data) (setId : Nat)
    (setIds : List Nat) :
    templates_of orderedBindings (setId :: setIds) =
      templates_of orderedBindings [setId] ++ templates_of orderedBindings setIds := by
  unfold templates_of
  rw [← List.filterMap_append]
  rfl

theorem resolve_set_prepared (r r1 : root) (orderedBindings : List binding_data) (setId : Nat)
    (st st1 : resolve_state)
    (h : r.resolve_set orderedBindings setId st = (.ok st1, r1)) :
    st1.preparedSets = st.preparedSets ++ templates_of orderedBindings [setId] := by
  unfold root.resolve_set at h
  unfold templates_of
  simp only [List.filterMap_cons, List.filterMap_nil]
  cases hrange : orderedBindings.filter (fun b => b.mSetId == setId) with
  | nil =>
    simp only [hrange, Prod.mk.injEq, Except.ok.injEq] at h
    rw [← h.1]; simp
  | cons first rest =>
    simp only [hrange] at h
    cases hlp : descriptor_set_layout.prepare (first :: rest) with
    | error e => simp [hlp] at h
    | ok preparedLayout =>
      simp only [hlp] at h
      cases hgl : r.get_or_alloc_layout preparedLayout with
      | mk res ra =>
        cases res with
        | error e => simp [hgl] at h
        | ok layout =>
          simp only [hgl] at h
          cases hsp : descriptor_set.prepare first rest with
          | error e => simp [hsp] at h
          | ok preparedSet =>
            simp only [hsp] at h
            cases hc : ra.get_descriptor_set_from_cache preparedSet with
            | some c =>
              simp only [hc, Prod.mk.injEq, Except.ok.injEq] at h
              rw [← h.1]; simp [hsp, Except.toOption]
            | none =>
              simp only [hc, Prod.mk.injEq, Except.ok.injEq] at h
              rw [← h.1]; simp [hsp, Except.toOption]

/-- The templates that a successful loop over the set ids has prepared are the
templates of the set ids that have bindings, in the order of the set ids. -/
theorem resolve_sets_prepared (orderedBindings : List binding_data) :
    ∀ (setIds : List Nat) (r r1 : root) (st st1 : resolve_state),
      root.resolve_sets orderedBindings setIds r st = (.ok st1, r1) →
      st1.preparedSets = st.preparedSets ++ templates_of orderedBindings setIds := by
  intro setIds
  induction setIds with
  | nil =>
    intro r r1 st st1 h
    unfold root.resolve_sets at h
    simp only [Prod.mk.injEq, Except.ok.injEq] at h
    rw [← h.1]; simp [templates_of]
  | cons setId setIds ih =>
    intro r r1 st st1 h
    unfold root.resolve_sets at h
    cases hhead : r.resolve_set orderedBindings setId st with
    | mk res ra =>
      cases res with
      | error e => simp [hhead] at h
      | ok sta =>
        simp only [hhead] at h
        rw [ih ra r1 sta st1 h, resolve_set_prepared r ra orderedBindings setId st sta hhead,
          templates_of_cons orderedBindings setId setIds, List.append_assoc]

/-- C16: when the loop over the set ids has succeeded and the set cache does
not hold the template of at least one set, `get_or_create_descriptor_sets`
calls `alloc_new_descriptor_sets` with exactly the (layout, template) pairs of
the uncached sets, in the order of the set ids, and fails as that call fails;
when that call succeeds, the result holds at every position the set that the
cache held for the template of this position, or else the newly allocated set
whose index among the new sets is the number of uncached templates before this
position. The templates are those of the set ids that have bindings, in
ascending order of the set ids. -/
theorem mixed_batch_allocates_only_misses (r r1 : root) (native : native_allocator) (tid : Nat)
    (aBindings : List binding_data) (st : resolve_state)
    (hloop : root.resolve_sets (aBindings.foldl insert_ordered [])
      (List.range' (aBindings.foldl (fun m b => min m b.mSetId) (2 ^ 32 - 1))
        (aBindings.foldl (fun m b => max m b.mSetId) 0 + 1 -
          aBindings.foldl (fun m b => min m b.mSetId) (2 ^ 32 - 1))) r
      resolve_state.initial = (.ok st, r1))
    (hmax : aBindings.foldl (fun m b => max m b.mSetId) 0 ≠ 2 ^ 32 - 1)
    (hmiss : ∃ p ∈ st.preparedSets, r.mSets.find? (fun s => p.eq s) = none) :
    st.preparedSets = templates_of (aBindings.foldl insert_ordered [])
      (List.range' (aBindings.foldl (fun m b => min m b.mSetId) (2 ^ 32 - 1))
        (aBindings.foldl (fun m b => max m b.mSetId) 0 + 1 -
          aBindings.foldl (fun m b => min m b.mSetId) (2 ^ 32 - 1))) ∧
    st.layouts.length = st.preparedSets.length ∧
    r.get_or_create_descriptor_sets native tid aBindings =
      (match r1.alloc_new_descriptor_sets native tid
          ((miss_pairs r.mSets st.layouts st.preparedSets).map Prod.fst)
          ((miss_pairs r.mSets st.layouts st.preparedSets).map Prod.snd) with
        | (.error e, r2) => (.error e, r2)
        | (.ok nowAlsoInCache, r2) =>
          (.ok (resolve_against r.mSets st.preparedSets nowAlsoInCache), r2)) ∧
    ∀ (nowAlsoInCache : List descriptor_set) (r2 : root),
      r1.alloc_new_descriptor_sets native tid
          ((miss_pairs r.mSets st.layouts st.preparedSets).map Prod.fst)
          ((miss_pairs r.mSets st.layouts st.preparedSets).map Prod.snd) =
        (.ok nowAlsoInCache, r2) →
      nowAlsoInCache.length = (miss_pairs r.mSets st.layouts st.preparedSets).length ∧
      ∀ i, i < st.preparedSets.length →
        (resolve_against r.mSets st.preparedSets nowAlsoInCache)[i]? =
          match r.mSets.find? (fun s => (st.preparedSets.getD i default).eq s) with
          | some cached => some cached
          | none => nowAlsoInCache[(misses_of r.mSets (st.preparedSets.take i)).length]? := by
  obtain ⟨a1, _, ls, ps, a3, a4, _, _⟩ := resolve_sets_ok _ _ r r1 _ st hloop
  have hprep := resolve_sets_prepared _ _ r r1 _ st hloop
  have hl : st.layouts = ls := by rw [a4]; simp [resolve_state.extended, resolve_state.initial]
  have hp : st.preparedSets = ps := by
    rw [a4]; simp [resolve_state.extended, resolve_state.initial]
  have hc : st.cachedSets =
      ps.map (fun p => (r.mSets.find? (fun s => p.eq s)).getD descriptor_set.empty) := by
    rw [a4]; simp [resolve_state.extended, resolve_state.initial]
  have hv : st.validSets = ps.map (fun p => (r.mSets.find? (fun s => p.eq s)).isSome) := by
    rw [a4]; simp [resolve_state.extended, resolve_state.initial]
  have hnotall : ¬ st.cachedSets.length = st.validSets.count true := by
    intro hall
    have hlen : st.cachedSets.length = st.validSets.length := by rw [hc, hv]; simp
    rw [hlen, count_true_eq_length_iff] at hall
    obtain ⟨p, hpm, hnone⟩ := hmiss
    have := hall ((r.mSets.find? (fun s => p.eq s)).isSome)
      (by rw [hv]; exact List.mem_map.mpr ⟨p, hp ▸ hpm, rfl⟩)
    rw [hnone] at this
    cases this
  have hidx : List.filter (fun i => !(st.validSets.getD i true))
      (List.range st.cachedSets.length) =
      index_mapping ps.length
        (ps.map (fun p => (r.mSets.find? (fun s => p.eq s)).isSome)) := by
    unfold index_mapping
    rw [hc, hv]; simp
  have hmisses := misses_eq_miss_pairs r.mSets ps ls a3
  refine ⟨by simpa [resolve_state.initial] using hprep, by rw [hl, hp]; exact a3, ?_, ?_⟩
  · unfold root.get_or_create_descriptor_sets
    simp only [hloop, hmax, if_false, hnotall]
    rw [hidx, hl, hp, layouts_for_alloc_eq_miss_pairs r.mSets ps ls a3,
      to_be_alloced_eq_misses, hmisses, hc]
    cases r1.alloc_new_descriptor_sets native tid
        ((miss_pairs r.mSets ls ps).map Prod.fst) ((miss_pairs r.mSets ls ps).map Prod.snd) with
    | mk res r2 =>
      cases res with
      | error e => rfl
      | ok news =>
        simp only
        rw [splice_eq_resolve_against]
  · intro news r2 halloc
    obtain ⟨pool, hs, d1, d2, _⟩ := alloc_new_descriptor_sets_ok r1 r2 native tid _ _ _ halloc
    have hlen : news.length = (miss_pairs r.mSets st.layouts st.preparedSets).length := by
      rw [d2]
      simp only [List.length_map, List.length_zip, d1, min_self]
    refine ⟨hlen, ?_⟩
    intro i hi
    apply resolve_against_getElem r.mSets st.preparedSets news i hi
    rw [hlen, hl, hp, hmisses, List.length_map]

/-- Witness for C16: after buffer 7 at set 0 has been resolved, the batch with
buffer 7 at set 0 and buffer 8 at set 1 finds the first set in the cache and
allocates the second: the call returns the handles 100 (cached) and 101 (new),
and it is the call of `alloc_new_descriptor_sets` with the one uncached pair. -/
theorem mixed_batch_allocates_only_misses_witness :
    (root.after_first_buffer.get_or_create_descriptor_sets (out_of_pool_memory_first 0 [101]) 0
        two_uniform_buffer_sets).1.toOption.map (fun result => result.map (fun s => s.handle)) =
      some [some 100, some 101] ∧
    (miss_pairs root.after_first_buffer.mSets (mixed_batch_loop.1.toOption.getD default).layouts
        (mixed_batch_loop.1.toOption.getD default).preparedSets).map Prod.snd =
      [{ uniform_buffer_set 8 with mSetId := 1 }] ∧
    root.after_first_buffer.get_or_create_descriptor_sets (out_of_pool_memory_first 0 [101]) 0
        two_uniform_buffer_sets =
      (match mixed_batch_loop.2.alloc_new_descriptor_sets (out_of_pool_memory_first 0 [101]) 0
          ((miss_pairs root.after_first_buffer.mSets
            (mixed_batch_loop.1.toOption.getD default).layouts
            (mixed_batch_loop.1.toOption.getD default).preparedSets).map Prod.fst)
          ((miss_pairs root.after_first_buffer.mSets
            (mixed_batch_loop.1.toOption.getD default).layouts
            (mixed_batch_loop.1.toOption.getD default).preparedSets).map Prod.snd) with
        | (.error e, r2) => (.error e, r2)
        | (.ok nowAlsoInCache, r2) =>
          (.ok (resolve_against root.after_first_buffer.mSets
            (mixed_batch_loop.1.toOption.getD default).preparedSets nowAlsoInCache), r2)) :=
  ⟨by decide, by decide,
    (mixed_batch_allocates_only_misses root.after_first_buffer mixed_batch_loop.2
      (out_of_pool_memory_first 0 [101]) 0 two_uniform_buffer_sets
      (mixed_batch_loop.1.toOption.getD default) (by rfl) (by decide)
      ⟨{ uniform_buffer_set 8 with mSetId := 1 }, by decide, by decide⟩).2.2.1⟩

/-! ## Batches that differ in their resource handles only -/

theorem schema_key_eq {a b : binding_data} (h : a.schema_key = b.schema_key) :
    a.mSetId = b.mSetId ∧ a.mLayoutBinding = b.mLayoutBinding := by
  unfold binding_data.schema_key at h
  exact Prod.mk.inj h

theorem insert_ordered_schema_keys :
    ∀ (xs ys : List binding_data) (a b : binding_data),
      xs.map binding_data.schema_key = ys.map binding_data.schema_key →
      a.schema_key = b.schema_key →
      (insert_ordered xs a).map binding_data.schema_key =
        (insert_ordered ys b).map binding_data.schema_key
  | [], [], a, b, _, hab => by simp [insert_ordered, hab]
  | [], _ :: _, _, _, h, _ => by simp at h
  | _ :: _, [], _, _, h, _ => by simp at h
  | x :: xs, y :: ys, a, b, h, hab => by
    simp only [List.map_cons, List.cons.injEq] at h
    obtain ⟨hxy, hrest⟩ := h
    have h1 := schema_key_eq hxy
    have h2 := schema_key_eq hab
    have hlt : x.lt a = y.lt b := by
      unfold binding_data.lt
      rw [h1.1, h1.2, h2.1, h2.2]
    unfold insert_ordered
    rw [hlt]
    cases y.lt b with
    | true =>
      simp only [if_true, List.map_cons, hxy,
        insert_ordered_schema_keys xs ys a b hrest hab]
    | false =>
      simp only [Bool.false_eq_true, if_false, List.map_cons, hxy, hab, hrest]

theorem foldl_insert_ordered_schema_keys :
    ∀ (aBindings bBindings accA accB : List binding_data),
      aBindings.map binding_data.schema_key = bBindings.map binding_data.schema_key →
      accA.map binding_data.schema_key = accB.map binding_data.schema_key →
      (aBindings.foldl insert_ordered accA).map binding_data.schema_key =
        (bBindings.foldl insert_ordered accB).map binding_data.schema_key
  | [], [], _, _, _, hacc => hacc
  | [], _ :: _, _, _, h, _ => by simp at h
  | _ :: _, [], _, _, h, _ => by simp at h
  | a :: as, b :: bs, accA, accB, h, hacc => by
    simp only [List.map_cons, List.cons.injEq] at h
    simp only [List.foldl_cons]
    exact foldl_insert_ordered_schema_keys as bs _ _ h.2
      (insert_ordered_schema_keys accA accB a b hacc h.1)

theorem filter_schema_keys (setId : Nat) :
    ∀ (xs ys : List binding_data),
      xs.map binding_data.schema_key = ys.map binding_data.schema_key →
      (xs.filter (fun b => b.mSetId == setId)).map binding_data.schema_key =
        (ys.filter (fun b => b.mSetId == setId)).map binding_data.schema_key
  | [], [], _ => rfl
  | [], _ :: _, h => by simp at h
  | _ :: _, [], h => by simp at h
  | x :: xs, y :: ys, h => by
    simp only [List.map_cons, List.cons.injEq] at h
    have h1 := schema_key_eq h.1
    have ih := filter_schema_keys setId xs ys h.2
    simp only [List.filter_cons, h1.1]
    cases y.mSetId == setId with
    | true => simp only [if_true, List.map_cons, h.1, ih]
    | false => simpa using ih

theorem foldl_min_schema_keys :
    ∀ (xs ys : List binding_data) (init : Nat),
      xs.map binding_data.schema_key = ys.map binding_data.schema_key →
      xs.foldl (fun m b => min m b.mSetId) init = ys.foldl (fun m b => min m b.mSetId) init
  | [], [], _, _ => rfl
  | [], _ :: _, _, h => by simp at h
  | _ :: _, [], _, h => by simp at h
  | x :: xs, y :: ys, init, h => by
    simp only [List.map_cons, List.cons.injEq] at h
    simp only [List.foldl_cons, (schema_key_eq h.1).1]
    exact foldl_min_schema_keys xs ys _ h.2

theorem foldl_max_schema_keys :
    ∀ (xs ys : List binding_data) (init : Nat),
      xs.map binding_data.schema_key = ys.map binding_data.schema_key →
      xs.foldl (fun m b => max m b.mSetId) init = ys.foldl (fun m b => max m b.mSetId) init
  | [], [], _, _ => rfl
  | [], _ :: _, _, h => by simp at h
  | _ :: _, [], _, h => by simp at h
  | x :: xs, y :: ys, init, h => by
    simp only [List.map_cons, List.cons.injEq] at h
    simp only [List.foldl_cons, (schema_key_eq h.1).1]
    exact foldl_max_schema_keys xs ys _ h.2

theorem map_layout_binding_of_schema_keys (xs ys : List binding_data)
    (h : xs.map binding_data.schema_key = ys.map binding_data.schema_key) :
    xs.map (fun b => b.mLayoutBinding) = ys.map (fun b => b.mLayoutBinding) := by
  have := congrArg (List.map Prod.snd) h
  simpa [List.map_map, Function.comp_def, binding_data.schema_key] using this

theorem map_set_id_of_schema_keys (xs ys : List binding_data)
    (h : xs.map binding_data.schema_key = ys.map binding_data.schema_key) :
    xs.map (fun b => b.mSetId) = ys.map (fun b => b.mSetId) := by
  have := congrArg (List.map Prod.fst) h
  simpa [List.map_map, Function.comp_def, binding_data.schema_key] using this

theorem strictly_increasing_slots_schema_keys :
    ∀ (xs ys : List binding_data),
      xs.map binding_data.schema_key = ys.map binding_data.schema_key →
      strictly_increasing_slots xs = strictly_increasing_slots ys
  | [], [], _ => rfl
  | [], _ :: _, h => by simp at h
  | _ :: _, [], h => by simp at h
  | [_], [_], _ => rfl
  | [_], _ :: _ :: _, h => by simp at h
  | _ :: _ :: _, [_], h => by simp at h
  | x :: x2 :: xs, y :: y2 :: ys, h => by
    simp only [List.map_cons, List.cons.injEq] at h
    have ih := strictly_increasing_slots_schema_keys (x2 :: xs) (y2 :: ys)
      (by simp only [List.map_cons, h.2.1, h.2.2])
    unfold strictly_increasing_slots
    rw [ih, (schema_key_eq h.1).2, (schema_key_eq h.2.1).2]

theorem descriptor_set_layout_prepare_schema_keys (xs ys : List binding_data)
    (h : xs.map binding_data.schema_key = ys.map binding_data.schema_key) :
    descriptor_set_layout.prepare xs = descriptor_set_layout.prepare ys := by
  have hb := map_layout_binding_of_schema_keys xs ys h
  have hfold : ∀ (f : List DescriptorPoolSize → DescriptorSetLayoutBinding →
      List DescriptorPoolSize) (zs : List binding_data) (init : List DescriptorPoolSize),
      zs.foldl (fun acc b => f acc b.mLayoutBinding) init =
        (zs.map (fun b => b.mLayoutBinding)).foldl f init := by
    intro f zs
    induction zs with
    | nil => intro init; rfl
    | cons z zs ih => intro init; simp only [List.foldl_cons, List.map_cons, ih]
  unfold descriptor_set_layout.prepare
  rw [strictly_increasing_slots_schema_keys xs ys h, hb]
  rw [hfold (fun acc lb => add_size_requirements_to acc
      { type := lb.descriptorType, descriptorCount := lb.descriptorCount }) xs,
    hfold (fun acc lb => add_size_requirements_to acc
      { type := lb.descriptorType, descriptorCount := lb.descriptorCount }) ys, hb]

theorem binding_data_writes_kept (b : binding_data) (s : descriptor_set) :
    (b.descriptor_image_info s).2.mOrderedDescriptorDataWrites = s.mOrderedDescriptorDataWrites ∧
    (b.descriptor_buffer_info s).2.mOrderedDescriptorDataWrites =
      s.mOrderedDescriptorDataWrites ∧
    (b.texel_buffer_view_info s).2.mOrderedDescriptorDataWrites =
      s.mOrderedDescriptorDataWrites ∧
    (b.next_pointer s).2.mOrderedDescriptorDataWrites = s.mOrderedDescriptorDataWrites := by
  unfold binding_data.descriptor_image_info binding_data.descriptor_buffer_info
    binding_data.texel_buffer_view_info binding_data.next_pointer
  cases b.mResourcePtr <;> exact ⟨rfl, rfl, rfl, rfl⟩

/-- The writes that `descriptor_set::prepare` builds name no destination set. -/
theorem prepare_loop_dst_set (beginSetId : Nat) :
    ∀ (range : List binding_data) (result p : descriptor_set),
      descriptor_set.prepare_loop beginSetId range result = .ok p →
      (∀ w ∈ result.mOrderedDescriptorDataWrites, w.dstSet = none) →
      ∀ w ∈ p.mOrderedDescriptorDataWrites, w.dstSet = none
  | [], result, p, h, hres => by
    unfold descriptor_set.prepare_loop at h
    cases h
    exact hres
  | b :: rest, result, p, h, hres => by
    unfold descriptor_set.prepare_loop at h
    split at h
    · cases h
    · split at h
      · cases h
      · split at h
        · cases h
        · refine prepare_loop_dst_set beginSetId rest _ p h ?_
          intro w hw
          simp only [List.mem_append, List.mem_singleton] at hw
          rcases hw with hw | hw
          · apply hres
            have k1 := (binding_data_writes_kept b result).1
            have k2 := (binding_data_writes_kept b (b.descriptor_image_info result).2).2.1
            have k3 := (binding_data_writes_kept b
              (b.descriptor_buffer_info (b.descriptor_image_info result).2).2).2.2.1
            have k4 := (binding_data_writes_kept b
              (b.texel_buffer_view_info
                (b.descriptor_buffer_info (b.descriptor_image_info result).2).2).2).2.2.2
            rw [← k1, ← k2, ← k3, ← k4]
            exact hw
          · rw [hw]

/-- Whether the loop of `descriptor_set::prepare` passes its assertions depends
on the set ids and slot ids of the bindings only. -/
theorem prepare_loop_ok_schema_keys (beginSetId : Nat) :
    ∀ (xs ys : List binding_data) (resultA resultB p : descriptor_set),
      xs.map binding_data.schema_key = ys.map binding_data.schema_key →
      descriptor_set.prepare_loop beginSetId xs resultA = .ok p →
      ∃ q, descriptor_set.prepare_loop beginSetId ys resultB = .ok q
  | [], [], _, resultB, _, _, _ => ⟨resultB, rfl⟩
  | [], _ :: _, _, _, _, h, _ => by simp at h
  | _ :: _, [], _, _, _, h, _ => by simp at h
  | [_], _ :: _ :: _, _, _, _, h, _ => by simp at h
  | _ :: _ :: _, [_], _, _, _, h, _ => by simp at h
  | [x], [y], resultA, resultB, p, h, hA => by
    simp only [List.map_cons, List.cons.injEq] at h
    have h1 := schema_key_eq h.1
    unfold descriptor_set.prepare_loop at hA ⊢
    rw [← h1.1]
    split at hA
    · cases hA
    · rename_i c1
      simp only [c1, if_false, Bool.false_eq_true]
      unfold descriptor_set.prepare_loop
      exact ⟨_, rfl⟩
  | x :: x2 :: xs, y :: y2 :: ys, resultA, resultB, p, h, hA => by
    simp only [List.map_cons, List.cons.injEq] at h
    have h1 := schema_key_eq h.1
    have h2 := schema_key_eq h.2.1
    unfold descriptor_set.prepare_loop at hA ⊢
    simp only at hA ⊢
    rw [← h1.1, ← h1.2, ← h2.2]
    split at hA
    · cases hA
    · split at hA
      · cases hA
      · split at hA
        · cases hA
        · rename_i c1 c2 c3
          simp only [c1, c2, c3, if_false, Bool.false_eq_true]
          exact prepare_loop_ok_schema_keys beginSetId (x2 :: xs) (y2 :: ys) _ _ p
            (by simp only [List.map_cons, h.2.1, h.2.2]) hA

/-- Whether `descriptor_set::prepare` succeeds depends on the set ids and slot
ids of the bindings only. -/
theorem prepare_ok_schema_keys (firstA firstB : binding_data) (restA restB : List binding_data)
    (p : descriptor_set)
    (h : (firstA :: restA).map binding_data.schema_key =
      (firstB :: restB).map binding_data.schema_key)
    (hA : descriptor_set.prepare firstA restA = .ok p) :
    ∃ q, descriptor_set.prepare firstB restB = .ok q := by
  unfold descriptor_set.prepare at hA ⊢
  have hid : firstA.mSetId = firstB.mSetId := by
    simp only [List.map_cons, List.cons.injEq] at h
    exact (schema_key_eq h.1).1
  cases hloop : descriptor_set.prepare_loop firstA.mSetId (firstA :: restA)
      { descriptor_set.empty with mSetId := firstA.mSetId } with
  | error e => simp [hloop] at hA
  | ok x =>
    obtain ⟨q, hq⟩ := prepare_loop_ok_schema_keys firstA.mSetId (firstA :: restA)
      (firstB :: restB) _ { descriptor_set.empty with mSetId := firstA.mSetId } x h hloop
    rw [← hid, hq]
    have hdst := prepare_loop_dst_set firstA.mSetId (firstB :: restB) _ q hq
      (by intro w hw; cases hw)
    simp only
    unfold descriptor_set.update_data_pointers
    have hall : q.mOrderedDescriptorDataWrites.all (fun w =>
        decide (some w.dstSet =
          q.mOrderedDescriptorDataWrites.head?.map (fun w0 => w0.dstSet))) = true := by
      rw [List.all_eq_true]
      intro w hw
      cases hq2 : q.mOrderedDescriptorDataWrites with
      | nil => rw [hq2] at hw; cases hw
      | cons w0 ws =>
        have h0 := hdst w0 (by rw [hq2]; exact List.mem_cons_self _ _)
        simp [hdst w hw, h0]
    rw [hall]
    exact ⟨_, rfl⟩

/-- A successful `get_or_alloc_layout` returns the entry that the lookup of the
schema finds in the layout cache it leaves, and that entry has its handle. -/
theorem get_or_alloc_layout_found (r r1 : root) (aPreparedLayout layout : descriptor_set_layout)
    (h : r.get_or_alloc_layout aPreparedLayout = (.ok layout, r1)) :
    r1.mLayouts.find? (fun l => aPreparedLayout.eq l) = some layout ∧
    layout.handle.isNone = false := by
  unfold root.get_or_alloc_layout at h
  cases hfind : r.mLayouts.find? (fun l => aPreparedLayout.eq l) with
  | some it =>
    simp only [hfind] at h
    cases hh : it.handle.isNone with
    | true => simp [hh] at h
    | false =>
      simp only [hh, Bool.false_eq_true, if_false, Prod.mk.injEq, Except.ok.injEq] at h
      obtain ⟨h1, h2⟩ := h
      subst h1 h2
      exact ⟨hfind, hh⟩
  | none =>
    simp only [hfind] at h
    obtain ⟨s1, s2, s3, _⟩ := allocate_descriptor_set_layout_spec r aPreparedLayout
    generalize r.allocate_descriptor_set_layout aPreparedLayout = alloc at h s1 s2 s3
    obtain ⟨allocated, ra⟩ := alloc
    simp only at h s1 s2 s3
    split at h
    · cases h
    · simp only [Prod.mk.injEq, Except.ok.injEq] at h
      obtain ⟨h1, h2⟩ := h
      subst h1 h2
      refine ⟨?_, s1⟩
      simp only
      rw [s3, List.find?_append, hfind]
      have : aPreparedLayout.eq allocated = true := by
        unfold descriptor_set_layout.eq
        simp [s2]
      simp [List.find?_cons, this]

theorem templates_of_singleton_nil (orderedBindings : List binding_data) (setId : Nat)
    (h : orderedBindings.filter (fun b => b.mSetId == setId) = []) :
    templates_of orderedBindings [setId] = [] := by
  unfold templates_of
  simp [h]

theorem templates_of_singleton_cons (orderedBindings : List binding_data) (setId : Nat)
    (first : binding_data) (rest : List binding_data) (p : descriptor_set)
    (h : orderedBindings.filter (fun b => b.mSetId == setId) = first :: rest)
    (hp : descriptor_set.prepare first rest = .ok p) :
    templates_of orderedBindings [setId] = [p] := by
  unfold templates_of
  simp [h, hp, Except.toOption]

/-- One pass of the loop body that succeeds for a batch, compared with the same
pass for a batch with the same set ids and (slot id, kind, count) triples: on
every state whose layout cache extends the one left behind, the pass for the
second batch succeeds, allocates nothing, and resolves to the same layout. -/
theorem resolve_set_layout_dedup (rA rA1 : root) (obA obB : List binding_data) (setId : Nat)
    (stA stA1 : resolve_state)
    (hkeys : (obA.filter (fun b => b.mSetId == setId)).map binding_data.schema_key =
      (obB.filter (fun b => b.mSetId == setId)).map binding_data.schema_key)
    (h : rA.resolve_set obA setId stA = (.ok stA1, rA1)) :
    ∃ ls : List descriptor_set_layout,
      stA1.layouts = stA.layouts ++ ls ∧ (∀ l ∈ ls, l.handle.isNone = false) ∧
      ∀ (rB : root) (stB : resolve_state) (ext : List descriptor_set_layout),
        rB.mLayouts = rA1.mLayouts ++ ext →
        rB.resolve_set obB setId stB =
          (.ok (stB.extended rB.mSets ls (templates_of obB [setId])), rB) := by
  unfold root.resolve_set at h
  cases hrange : obA.filter (fun b => b.mSetId == setId) with
  | nil =>
    rw [hrange] at hkeys
    have hrangeB : obB.filter (fun b => b.mSetId == setId) = [] := by
      simpa using hkeys.symm
    simp only [hrange, Prod.mk.injEq, Except.ok.injEq] at h
    obtain ⟨h1, h2⟩ := h
    subst h1 h2
    refine ⟨[], by simp, (fun l hl => by cases hl), ?_⟩
    intro rB stB ext _
    unfold root.resolve_set
    rw [templates_of_singleton_nil obB setId hrangeB]
    simp only [hrangeB, resolve_state_extended_nil]
  | cons first rest =>
    rw [hrange] at hkeys
    cases hrangeB : obB.filter (fun b => b.mSetId == setId) with
    | nil => rw [hrangeB] at hkeys; simp at hkeys
    | cons firstB restB =>
      rw [hrangeB] at hkeys
      simp only [hrange] at h
      cases hlp : descriptor_set_layout.prepare (first :: rest) with
      | error e => simp [hlp] at h
      | ok preparedLayout =>
        simp only [hlp] at h
        cases hgl : rA.get_or_alloc_layout preparedLayout with
        | mk res ra =>
          cases res with
          | error e => simp [hgl] at h
          | ok layout =>
            simp only [hgl] at h
            obtain ⟨g1, g2⟩ := get_or_alloc_layout_found rA ra preparedLayout layout hgl
            cases hsp : descriptor_set.prepare first rest with
            | error e => simp [hsp] at h
            | ok preparedSet =>
              simp only [hsp] at h
              obtain ⟨pB, hpB⟩ := prepare_ok_schema_keys first firstB rest restB preparedSet
                hkeys hsp
              have hlpB : descriptor_set_layout.prepare (firstB :: restB) = .ok preparedLayout := by
                rw [← descriptor_set_layout_prepare_schema_keys _ _ hkeys, hlp]
              have hstate : rA1 = ra ∧ stA1.layouts = stA.layouts ++ [layout] := by
                cases hc : ra.get_descriptor_set_from_cache preparedSet with
                | some c =>
                  simp only [hc, Prod.mk.injEq, Except.ok.injEq] at h
                  exact ⟨h.2.symm, by rw [← h.1]⟩
                | none =>
                  simp only [hc, Prod.mk.injEq, Except.ok.injEq] at h
                  exact ⟨h.2.symm, by rw [← h.1]⟩
              refine ⟨[layout], hstate.2, ?_, ?_⟩
              · intro l hl
                simp only [List.mem_singleton] at hl
                rw [hl]; exact g2
              · intro rB stB ext hext
                rw [hstate.1] at hext
                unfold root.resolve_set
                rw [templates_of_singleton_cons obB setId firstB restB pB hrangeB hpB]
                simp only [hrangeB, hlpB, get_or_alloc_layout_hit rB preparedLayout layout ext
                  ra.mLayouts hext g1 g2, hpB, get_descriptor_set_from_cache_eq]
                cases hc2 : rB.mSets.find? (fun s => pB.eq s) with
                | some c => simp [resolve_state.extended, hc2]
                | none => simp [resolve_state.extended, hc2]

/-- The loop over the set ids that succeeds for a batch, compared with the loop
for a batch with the same set ids and (slot id, kind, count) triples: on every
state whose layout cache extends the one left behind, the loop for the second
batch succeeds, leaves the state as it is, and resolves to the same layouts. -/
theorem resolve_sets_layout_dedup (obA obB : List binding_data)
    (hkeys : obA.map binding_data.schema_key = obB.map binding_data.schema_key) :
    ∀ (setIds : List Nat) (rA rA1 : root) (stA stA1 : resolve_state),
      root.resolve_sets obA setIds rA stA = (.ok stA1, rA1) →
      ∃ ls : List descriptor_set_layout,
        stA1.layouts = stA.layouts ++ ls ∧ (∀ l ∈ ls, l.handle.isNone = false) ∧
        ∀ (rB : root) (stB : resolve_state) (ext : List descriptor_set_layout),
          rB.mLayouts = rA1.mLayouts ++ ext →
          root.resolve_sets obB setIds rB stB =
            (.ok (stB.extended rB.mSets ls (templates_of obB setIds)), rB) := by
  intro setIds
  induction setIds with
  | nil =>
    intro rA rA1 stA stA1 h
    unfold root.resolve_sets at h
    simp only [Prod.mk.injEq, Except.ok.injEq] at h
    obtain ⟨h1, h2⟩ := h
    subst h1 h2
    refine ⟨[], by simp, (fun l hl => by cases hl), ?_⟩
    intro rB stB ext _
    unfold root.resolve_sets
    have : templates_of obB [] = [] := rfl
    rw [this, resolve_state_extended_nil]
  | cons setId setIds ih =>
    intro rA rA1 stA stA1 h
    unfold root.resolve_sets at h
    cases hhead : rA.resolve_set obA setId stA with
    | mk res ra =>
      cases res with
      | error e => simp [hhead] at h
      | ok sta =>
        simp only [hhead] at h
        obtain ⟨ls1, a1, a2, a3⟩ := resolve_set_layout_dedup rA ra obA obB setId stA sta
          (filter_schema_keys setId obA obB hkeys) hhead
        obtain ⟨ls2, b1, b2, b3⟩ := ih ra rA1 sta stA1 h
        obtain ⟨_, ⟨ext1, c1⟩, _⟩ := resolve_sets_ok obA setIds ra rA1 sta stA1 h
        refine ⟨ls1 ++ ls2, by rw [b1, a1, List.append_assoc], ?_, ?_⟩
        · intro l hl
          rcases List.mem_append.mp hl with hl | hl
          · exact a2 l hl
          · exact b2 l hl
        · intro rB stB ext hext
          unfold root.resolve_sets
          rw [a3 rB stB (ext1 ++ ext) (by rw [hext, c1, List.append_assoc])]
          simp only
          rw [b3 rB _ ext hext, resolve_state_extended_append,
            templates_of_cons obB setId setIds]

theorem allocate_from_carves (r : root) (native : native_allocator) (address : Nat)
    (aLayouts : List descriptor_set_layout) :
    r.mCarveCalls.length ≤ (r.allocate_from native address aLayouts).2.mCarveCalls.length ∧
    ∀ setHandles, (r.allocate_from native address aLayouts).1 = .ok setHandles →
      native r.mCarveCalls.length = .ok setHandles ∧
      (r.allocate_from native address aLayouts).2.mCarveCalls.length =
        r.mCarveCalls.length + 1 := by
  unfold root.allocate_from
  cases r.mHeap[address]? with
  | none =>
    refine ⟨le_refl _, ?_⟩
    intro hs h; cases h
  | some p =>
    simp only
    cases hal : p.allocate aLayouts (native r.mCarveCalls.length) with
    | error e =>
      simp only
      constructor
      · cases p.mDescriptorPool.isNone
        · simp [root.with_carve_call]
        · simp
      · intro hs h; cases h
    | ok res =>
      obtain ⟨result, p1⟩ := res
      obtain ⟨q1, q2, _⟩ := (allocate_ok_iff p p1 aLayouts _ result).mp hal
      simp only [q1, Bool.false_eq_true, if_false]
      constructor
      · simp [root.with_carve_call]
      · intro hs h
        simp only [Except.ok.injEq] at h
        subst h
        exact ⟨q2, by simp [root.with_carve_call]⟩

theorem on_out_of_pool_memory_carve_calls (r : root) (tid maxTries : Nat)
    (allocRequest : descriptor_alloc_request) (poolToTry : Nat) :
    (r.on_out_of_pool_memory tid maxTries allocRequest poolToTry).2.2.mCarveCalls =
      r.mCarveCalls := by
  unfold root.on_out_of_pool_memory
  by_cases hm : maxTries = 1
  · simp only [hm, if_true]
    obtain ⟨_, _, k3, _⟩ := get_descriptor_pool_for_layouts_keeps r tid [poolToTry]
      (allocRequest.multiply_size_requirements 2) stch false
    obtain ⟨_, _, j3, _⟩ := get_descriptor_pool_for_layouts_keeps
      (r.get_descriptor_pool_for_layouts tid [poolToTry]
        (allocRequest.multiply_size_requirements 2) stch false).2 tid
      [(r.get_descriptor_pool_for_layouts tid [poolToTry]
        (allocRequest.multiply_size_requirements 2) stch false).1]
      (allocRequest.multiply_size_requirements 2) stch true
    exact j3.trans k3
  · simp only [hm, if_false]
    obtain ⟨_, _, k3, _⟩ := get_descriptor_pool_for_layouts_keeps r tid [poolToTry]
      allocRequest stch true
    exact k3

/-- The handles that the retry loop leaves behind are the answer of the native
allocator to one of the carve calls made during the loop. -/
theorem retry_loop_carves (native : native_allocator) (tid : Nat)
    (aLayouts : List descriptor_set_layout) (numPreparedSets : Nat) :
    ∀ (maxTries : Nat) (r : root) (allocRequest : descriptor_alloc_request) (poolToTry : Nat)
      (pool : Nat) (setHandles : List Nat),
      (root.retry_loop native tid aLayouts numPreparedSets maxTries r allocRequest poolToTry).1
        = .ok (some (pool, setHandles)) →
      ∃ k, r.mCarveCalls.length ≤ k ∧
        k < (root.retry_loop native tid aLayouts numPreparedSets maxTries r allocRequest
          poolToTry).2.mCarveCalls.length ∧
        native k = .ok setHandles := by
  intro maxTries
  induction maxTries with
  | zero =>
    intro r allocRequest poolToTry pool setHandles h
    unfold root.retry_loop at h
    cases h
  | succ maxTries ih =>
    intro r allocRequest poolToTry pool setHandles h
    unfold root.retry_loop at h ⊢
    cases hp : r.mHeap[poolToTry]? with
    | none => simp [hp] at h
    | some p =>
      simp only [hp] at h ⊢
      cases hcap : p.has_capacity_for allocRequest with
      | false => simp [hcap] at h
      | true =>
        simp only [hcap, Bool.not_true, Bool.false_eq_true, if_false] at h ⊢
        obtain ⟨c1, c2⟩ := allocate_from_carves r native poolToTry aLayouts
        cases hal : r.allocate_from native poolToTry aLayouts with
        | mk res r1 =>
          rw [hal] at c1 c2
          simp only at c1 c2
          cases res with
          | ok hs =>
            simp only [hal] at h ⊢
            by_cases hlen : hs.length = numPreparedSets
            · simp only [hlen, ne_eq, not_true_eq_false, if_false, Except.ok.injEq,
                Option.some.injEq, Prod.mk.injEq] at h ⊢
              obtain ⟨d1, d2⟩ := c2 hs rfl
              refine ⟨r.mCarveCalls.length, le_refl _, by rw [d2]; omega, ?_⟩
              rw [d1, h.2]
            · simp [hlen] at h
          | error e =>
            cases e with
            | assertion => simp [hal] at h
            | diverges => simp [hal] at h
            | vulkan v =>
              cases v with
              | other code => simp [hal] at h
              | outOfPoolMemory =>
                simp only [hal] at h ⊢
                have o1 := on_out_of_pool_memory_carve_calls r1 tid maxTries allocRequest
                  poolToTry
                generalize r1.on_out_of_pool_memory tid maxTries allocRequest poolToTry = out
                  at h o1 ⊢
                obtain ⟨allocRequest1, poolToTry1, r2⟩ := out
                simp only at h o1 ⊢
                obtain ⟨k, k1, k2, k3⟩ := ih r2 allocRequest1 poolToTry1 pool setHandles h
                exact ⟨k, by rw [o1] at k1; omega, k2, k3⟩

/-- A successful `alloc_new_descriptor_sets`: the sets returned are the
completed forms of the prepared sets with the handles that the native
allocator has answered to a carve call made during the call, and they are
appended to the set cache. -/
theorem alloc_new_descriptor_sets_carves (r r1 : root) (native : native_allocator) (tid : Nat)
    (aLayouts : List descriptor_set_layout) (aPreparedSets result : List descriptor_set)
    (h : r.alloc_new_descriptor_sets native tid aLayouts aPreparedSets = (.ok result, r1)) :
    ∃ (k pool : Nat) (setHandles : List Nat),
      r.mCarveCalls.length ≤ k ∧ k < r1.mCarveCalls.length ∧ native k = .ok setHandles ∧
      setHandles.length = aPreparedSets.length ∧
      result = (aPreparedSets.zip setHandles).map (fun sp => sp.1.completed sp.2 pool) ∧
      r1.mSets = r.mSets ++ result ∧ r1.mLayouts = r.mLayouts := by
  unfold root.alloc_new_descriptor_sets at h
  by_cases hlen : aLayouts.length = aPreparedSets.length
  · simp only [hlen, ne_eq, not_true_eq_false, if_false] at h
    cases hsane : (aLayouts.zip aPreparedSets).all (fun lp => sanity_check lp.1 lp.2) with
    | false => simp [hsane] at h
    | true =>
      simp only [hsane, Bool.not_true, Bool.false_eq_true, if_false] at h
      obtain ⟨k1, k2, k3, _⟩ := get_descriptor_pool_for_layouts_keeps r tid []
        (descriptor_alloc_request.ofLayouts aLayouts) stch false
      generalize r.get_descriptor_pool_for_layouts tid []
        (descriptor_alloc_request.ofLayouts aLayouts) stch false = sel at h k1 k2 k3
      obtain ⟨poolToTry, r0⟩ := sel
      simp only at h k1 k2 k3
      obtain ⟨l1, l2, l3⟩ := retry_loop_keeps native tid aLayouts aPreparedSets.length 3 r0
        (descriptor_alloc_request.ofLayouts aLayouts) poolToTry
      have l4 := retry_loop_carves native tid aLayouts aPreparedSets.length 3 r0
        (descriptor_alloc_request.ofLayouts aLayouts) poolToTry
      generalize root.retry_loop native tid aLayouts aPreparedSets.length 3 r0
        (descriptor_alloc_request.ofLayouts aLayouts) poolToTry = out at h l1 l2 l3 l4
      obtain ⟨res, r2⟩ := out
      simp only at h l1 l2 l3 l4
      unfold root.finish_alloc at h
      cases res with
      | error e => simp at h
      | ok found =>
        cases found with
        | none => simp at h
        | some ps =>
          obtain ⟨pool, setHandles⟩ := ps
          simp only at h
          by_cases h0 : setHandles.length = 0
          · simp [h0] at h
          · simp only [h0, if_false] at h
            obtain ⟨q1, q2⟩ := fresh_of_complete_all pool _ _ _ _ _ h
            rw [complete_all_of_fresh pool _ _ _ q1 q2] at h
            simp only [List.nil_append, Prod.mk.injEq, Except.ok.injEq] at h
            obtain ⟨h1, h2⟩ := h
            obtain ⟨k, c1, c2, c3⟩ := l4 pool setHandles rfl
            refine ⟨k, pool, setHandles, by rw [k3] at c1; exact c1, ?_, c3,
              l3 pool setHandles rfl, h1.symm, ?_, ?_⟩
            · rw [← h2]; exact c2
            · rw [← h2, ← h1]
              show r2.mSets ++ _ = _
              rw [l1, k1]
            · rw [← h2]
              show r2.mLayouts = _
              rw [l2, k2]
  · simp [hlen] at h

theorem completed_handle (s : descriptor_set) (setHandle pool : Nat) :
    (s.completed setHandle pool).handle = some setHandle := by
  rfl

theorem misses_of_all (cache : List descriptor_set) (ps : List descriptor_set)
    (h : ∀ p ∈ ps, cache.find? (fun s => p.eq s) = none) : misses_of cache ps = ps := by
  unfold misses_of
  rw [List.filter_eq_self]
  intro p hp
  rw [h p hp]; rfl

theorem resolve_against_all_misses (cache : List descriptor_set) :
    ∀ (ps news : List descriptor_set),
      (∀ p ∈ ps, cache.find? (fun s => p.eq s) = none) → news.length = ps.length →
      resolve_against cache ps news = news := by
  intro ps
  induction ps with
  | nil =>
    intro news _ hlen
    cases news with
    | nil => rfl
    | cons n ns => cases hlen
  | cons p ps ih =>
    intro news hall hlen
    cases news with
    | nil => cases hlen
    | cons n ns =>
      rw [resolve_against_cons, hall p (List.mem_cons_self _ _)]
      simp only [List.headD_cons, List.tail_cons]
      rw [ih ns (fun q hq => hall q (List.mem_cons_of_mem _ hq)) (by simpa using hlen)]

theorem resolve_against_mem (cache : List descriptor_set) :
    ∀ (ps news : List descriptor_set), news.length = (misses_of cache ps).length →
      ∀ x ∈ resolve_against cache ps news, x ∈ cache ∨ x ∈ news := by
  intro ps
  induction ps with
  | nil => intro news _ x hx; cases hx
  | cons p ps ih =>
    intro news hlen x hx
    rw [resolve_against_cons] at hx
    rw [misses_of_cons] at hlen
    cases hfind : cache.find? (fun s => p.eq s) with
    | some found =>
      simp only [hfind, Option.isNone_some, Bool.false_eq_true, if_false] at hlen hx
      rcases List.mem_cons.mp hx with hx | hx
      · left; rw [hx]; exact List.mem_of_find?_eq_some hfind
      · exact ih news hlen x hx
    | none =>
      simp only [hfind, Option.isNone_none, if_true, List.length_cons] at hlen hx
      cases news with
      | nil => cases hlen
      | cons n ns =>
        simp only [List.headD_cons, List.tail_cons] at hx
        rcases List.mem_cons.mp hx with hx | hx
        · right; rw [hx]; exact List.mem_cons_self _ _
        · rcases ih ns (by simpa using hlen) x hx with h | h
          · left; exact h
          · right; exact List.mem_cons_of_mem _ h

theorem misses_of_eq_nil_iff (cache : List descriptor_set) (ps : List descriptor_set) :
    misses_of cache ps = [] ↔ ∀ p ∈ ps, (cache.find? (fun s => p.eq s)).isSome = true := by
  unfold misses_of
  rw [List.filter_eq_nil_iff]
  constructor
  · intro h p hp
    have := h p hp
    cases hf : cache.find? (fun s => p.eq s) with
    | none => simp [hf] at this
    | some x => rfl
  · intro h p hp
    have := h p hp
    cases hf : cache.find? (fun s => p.eq s) with
    | none => simp [hf] at this
    | some x => simp

/-- The steps of `get_or_create_descriptor_sets` after a successful loop over
the set ids: all templates cached, or the allocation of the uncached ones. -/
theorem get_or_create_of_loop (r r1 : root) (native : native_allocator) (tid : Nat)
    (aBindings : List binding_data) (ls : List descriptor_set_layout)
    (ps : List descriptor_set)
    (hloop : root.resolve_sets (aBindings.foldl insert_ordered [])
      (List.range' (aBindings.foldl (fun m b => min m b.mSetId) (2 ^ 32 - 1))
        (aBindings.foldl (fun m b => max m b.mSetId) 0 + 1 -
          aBindings.foldl (fun m b => min m b.mSetId) (2 ^ 32 - 1))) r
      resolve_state.initial = (.ok (resolve_state.initial.extended r.mSets ls ps), r1))
    (hmax : aBindings.foldl (fun m b => max m b.mSetId) 0 ≠ 2 ^ 32 - 1)
    (hlen : ls.length = ps.length) :
    r.get_or_create_descriptor_sets native tid aBindings =
      if misses_of r.mSets ps = [] then
        (.ok (ps.map (fun p => (r.mSets.find? (fun s => p.eq s)).getD descriptor_set.empty)), r1)
      else
        match r1.alloc_new_descriptor_sets native tid
            ((miss_pairs r.mSets ls ps).map Prod.fst) (misses_of r.mSets ps) with
        | (.error e, r2) => (.error e, r2)
        | (.ok nowAlsoInCache, r2) => (.ok (resolve_against r.mSets ps nowAlsoInCache), r2) := by
  have hl : (resolve_state.initial.extended r.mSets ls ps).layouts = ls := by
    simp [resolve_state.extended, resolve_state.initial]
  have hp : (resolve_state.initial.extended r.mSets ls ps).preparedSets = ps := by
    simp [resolve_state.extended, resolve_state.initial]
  have hc : (resolve_state.initial.extended r.mSets ls ps).cachedSets =
      ps.map (fun p => (r.mSets.find? (fun s => p.eq s)).getD descriptor_set.empty) := by
    simp [resolve_state.extended, resolve_state.initial]
  have hv : (resolve_state.initial.extended r.mSets ls ps).validSets =
      ps.map (fun p => (r.mSets.find? (fun s => p.eq s)).isSome) := by
    simp [resolve_state.extended, resolve_state.initial]
  have hcond : ((resolve_state.initial.extended r.mSets ls ps).cachedSets.length =
      (resolve_state.initial.extended r.mSets ls ps).validSets.count true) ↔
      misses_of r.mSets ps = [] := by
    have hlen2 : (resolve_state.initial.extended r.mSets ls ps).cachedSets.length =
        (resolve_state.initial.extended r.mSets ls ps).validSets.length := by
      rw [hc, hv]; simp
    rw [hlen2, count_true_eq_length_iff, misses_of_eq_nil_iff, hv]
    constructor
    · intro h p hp2
      exact h _ (List.mem_map.mpr ⟨p, hp2, rfl⟩)
    · intro h v hv2
      obtain ⟨p, hp2, rfl⟩ := List.mem_map.mp hv2
      exact h p hp2
  unfold root.get_or_create_descriptor_sets
  simp only [hloop, hmax, if_false]
  by_cases hall : misses_of r.mSets ps = []
  · rw [if_pos (hcond.mpr hall), if_pos hall, hc]
  · rw [if_neg (fun h => hall (hcond.mp h)), if_neg hall]
    have hidx : List.filter
        (fun i => !((resolve_state.initial.extended r.mSets ls ps).validSets.getD i true))
        (List.range (resolve_state.initial.extended r.mSets ls ps).cachedSets.length) =
        index_mapping ps.length
          (ps.map (fun p => (r.mSets.find? (fun s => p.eq s)).isSome)) := by
      unfold index_mapping
      rw [hc, hv]; simp
    rw [hidx, hl, hp, layouts_for_alloc_eq_miss_pairs r.mSets ps ls hlen,
      to_be_alloced_eq_misses, hc]
    cases r1.alloc_new_descriptor_sets native tid
        ((miss_pairs r.mSets ls ps).map Prod.fst) (misses_of r.mSets ps) with
    | mk res r2 =>
      cases res with
      | error e => rfl
      | ok news =>
        simp only
        rw [splice_eq_resolve_against]

/-- What a successful `get_or_create_descriptor_sets` leaves behind: its loop
over the set ids has succeeded, the layout cache is the one the loop has left,
the largest set id is not the largest 32-bit value, and every set returned is
in the set cache. -/
theorem get_or_create_ok (r r1 : root) (native : native_allocator) (tid : Nat)
    (aBindings : List binding_data) (result : List descriptor_set)
    (h : r.get_or_create_descriptor_sets native tid aBindings = (.ok result, r1)) :
    aBindings.foldl (fun m b => max m b.mSetId) 0 ≠ 2 ^ 32 - 1 ∧
    (∀ s ∈ result, s ∈ r1.mSets) ∧
    ∃ (st : resolve_state) (ra : root),
      root.resolve_sets (aBindings.foldl insert_ordered [])
        (List.range' (aBindings.foldl (fun m b => min m b.mSetId) (2 ^ 32 - 1))
          (aBindings.foldl (fun m b => max m b.mSetId) 0 + 1 -
            aBindings.foldl (fun m b => min m b.mSetId) (2 ^ 32 - 1))) r
        resolve_state.initial = (.ok st, ra) ∧
      r1.mLayouts = ra.mLayouts := by
  cases hloop : root.resolve_sets (aBindings.foldl insert_ordered [])
      (List.range' (aBindings.foldl (fun m b => min m b.mSetId) (2 ^ 32 - 1))
        (aBindings.foldl (fun m b => max m b.mSetId) 0 + 1 -
          aBindings.foldl (fun m b => min m b.mSetId) (2 ^ 32 - 1))) r
      resolve_state.initial with
  | mk res ra =>
    cases res with
    | error e =>
      unfold root.get_or_create_descriptor_sets at h
      simp only [hloop] at h
      cases h
    | ok st =>
      have hmax : aBindings.foldl (fun m b => max m b.mSetId) 0 ≠ 2 ^ 32 - 1 := by
        intro hm
        unfold root.get_or_create_descriptor_sets at h
        simp only [hloop] at h
        rw [if_pos hm] at h
        cases h
      obtain ⟨a1, _, ls, ps, a3, a4, _, _⟩ := resolve_sets_ok _ _ r ra _ st hloop
      rw [a4] at hloop
      rw [get_or_create_of_loop r ra native tid aBindings ls ps hloop hmax a3] at h
      refine ⟨hmax, ?_, _, ra, rfl, ?_⟩
      · by_cases hall : misses_of r.mSets ps = []
        · rw [if_pos hall] at h
          simp only [Prod.mk.injEq, Except.ok.injEq] at h
          obtain ⟨h1, h2⟩ := h
          subst h1 h2
          intro s hs
          obtain ⟨p, hp, rfl⟩ := List.mem_map.mp hs
          have hsome := (misses_of_eq_nil_iff r.mSets ps).mp hall p hp
          cases hf : r.mSets.find? (fun s => p.eq s) with
          | none => rw [hf] at hsome; cases hsome
          | some x =>
            rw [a1]
            simp only [Option.getD_some]
            exact List.mem_of_find?_eq_some hf
        · rw [if_neg hall] at h
          cases halloc : ra.alloc_new_descriptor_sets native tid
              ((miss_pairs r.mSets ls ps).map Prod.fst) (misses_of r.mSets ps) with
          | mk res2 rb =>
            cases res2 with
            | error e => simp [halloc] at h
            | ok news =>
              simp only [halloc, Prod.mk.injEq, Except.ok.injEq] at h
              obtain ⟨h1, h2⟩ := h
              subst h1 h2
              obtain ⟨pool, hs, d1, d2, d3, _⟩ :=
                alloc_new_descriptor_sets_ok ra rb native tid _ _ _ halloc
              have hlen : news.length = (misses_of r.mSets ps).length := by
                rw [d2]; simp [d1]
              intro s hs2
              rw [d3, a1]
              rcases resolve_against_mem r.mSets ps news hlen s hs2 with hm | hm
              · exact List.mem_append_left _ hm
              · exact List.mem_append_right _ hm
      · by_cases hall : misses_of r.mSets ps = []
        · rw [if_pos hall] at h
          simp only [Prod.mk.injEq, Except.ok.injEq] at h
          rw [h.2]
        · rw [if_neg hall] at h
          cases halloc : ra.alloc_new_descriptor_sets native tid
              ((miss_pairs r.mSets ls ps).map Prod.fst) (misses_of r.mSets ps) with
          | mk res2 rb =>
            cases res2 with
            | error e => simp [halloc] at h
            | ok news =>
              simp only [halloc, Prod.mk.injEq, Except.ok.injEq] at h
              obtain ⟨_, _, _, _, _, d4, _⟩ :=
                alloc_new_descriptor_sets_ok ra rb native tid _ _ _ halloc
              rw [← h.2, d4]

/-- C17, counterexample: on empty caches the batch with buffer 7 at set 0 and
buffer 8 at set 1 is resolved to the native set handles 100 and 101. The batch
with buffer 8 at set 0 and buffer 7 at set 1 has the same (slot, kind, count)
triples per set and another buffer in every binding; resolved next, with a
native allocator that rejects every carve, it succeeds with the handles 101 and
100: both templates are found in the set cache, no table is carved and the set
cache is unchanged. -/
theorem swapped_buffers_hit_set_cache :
    two_uniform_buffer_sets.map binding_data.schema_key =
      two_uniform_buffer_sets_swapped.map binding_data.schema_key ∧
    (two_uniform_buffer_sets.zip two_uniform_buffer_sets_swapped).all
      (fun ab => decide (ab.1.mResourcePtr ≠ ab.2.mResourcePtr)) = true ∧
    ((root.fresh 0).get_or_create_descriptor_sets (out_of_pool_memory_first 0 [100, 101]) 0
        two_uniform_buffer_sets).1.toOption.map (fun result => result.map (fun s => s.handle)) =
      some [some 100, some 101] ∧
    (root.after_two_buffers.get_or_create_descriptor_sets (always_failing 4) 0
        two_uniform_buffer_sets_swapped).1.toOption.map
          (fun result => result.map (fun s => s.handle)) =
      some [some 101, some 100] ∧
    (root.after_two_buffers.get_or_create_descriptor_sets (always_failing 4) 0
        two_uniform_buffer_sets_swapped).2.mCarveCalls = root.after_two_buffers.mCarveCalls ∧
    (root.after_two_buffers.get_or_create_descriptor_sets (always_failing 4) 0
        two_uniform_buffer_sets_swapped).2.mSets = root.after_two_buffers.mSets := by
  refine ⟨by decide, by decide, by decide, by decide, by decide, by decide⟩

theorem ordered_bindings_schema_keys (aBindings bBindings : List binding_data)
    (hkeys : aBindings.map binding_data.schema_key = bBindings.map binding_data.schema_key) :
    (ordered_bindings aBindings).map binding_data.schema_key =
      (ordered_bindings bBindings).map binding_data.schema_key :=
  foldl_insert_ordered_schema_keys aBindings bBindings [] [] hkeys rfl

theorem set_id_range_schema_keys (aBindings bBindings : List binding_data)
    (hkeys : aBindings.map binding_data.schema_key = bBindings.map binding_data.schema_key) :
    set_id_range aBindings = set_id_range bBindings := by
  unfold set_id_range
  rw [foldl_min_schema_keys aBindings bBindings _ hkeys,
    foldl_max_schema_keys aBindings bBindings _ hkeys]

/-- C17 as amended: let a first batch be resolved successfully, and let a second
batch have the same set ids and the same (slot, kind, count) triples, whatever
its resource handles. Then the loop of the second call over the set ids
succeeds on the state the first call has left, leaves that state as it is (no
layout is allocated) and resolves every set to the layout of the corresponding
set of the first batch, which has its native handle. If the second call
succeeds, the layout cache is unchanged, and if none of its templates is found
in the set cache left by the first call, then all its sets are newly carved:
they are the templates completed with the handles that the native allocator has
answered to a carve call made during the second call, they are appended to the
set cache, and they differ in their native handle from every set of the first
call whenever the allocator answers with handles not yet in the set cache. -/
theorem layout_dedup_and_new_sets (r0 r1 : root) (nativeA : native_allocator) (tidA : Nat)
    (aBindings bBindings : List binding_data) (resultA : List descriptor_set)
    (hkeys : aBindings.map binding_data.schema_key = bBindings.map binding_data.schema_key)
    (hfirst : r0.get_or_create_descriptor_sets nativeA tidA aBindings = (.ok resultA, r1)) :
    ∃ (layouts : List descriptor_set_layout) (stA : resolve_state) (ra : root),
      root.resolve_sets (ordered_bindings aBindings) (set_id_range aBindings) r0
        resolve_state.initial = (.ok stA, ra) ∧
      stA.layouts = layouts ∧ (∀ l ∈ layouts, l.handle.isNone = false) ∧
      root.resolve_sets (ordered_bindings bBindings) (set_id_range bBindings) r1
          resolve_state.initial =
        (.ok (resolve_state.initial.extended r1.mSets layouts
          (templates_of (ordered_bindings bBindings) (set_id_range bBindings))), r1) ∧
      ∀ (nativeB : native_allocator) (tidB : Nat) (resultB : List descriptor_set) (r2 : root),
        r1.get_or_create_descriptor_sets nativeB tidB bBindings = (.ok resultB, r2) →
        r2.mLayouts = r1.mLayouts ∧
        (templates_of (ordered_bindings bBindings) (set_id_range bBindings) ≠ [] →
          (∀ p ∈ templates_of (ordered_bindings bBindings) (set_id_range bBindings),
            r1.mSets.find? (fun s => p.eq s) = none) →
          ∃ (k pool : Nat) (setHandles : List Nat),
            r1.mCarveCalls.length ≤ k ∧ k < r2.mCarveCalls.length ∧
            nativeB k = .ok setHandles ∧
            setHandles.length =
              (templates_of (ordered_bindings bBindings) (set_id_range bBindings)).length ∧
            resultB = ((templates_of (ordered_bindings bBindings)
              (set_id_range bBindings)).zip setHandles).map
                (fun sp => sp.1.completed sp.2 pool) ∧
            r2.mSets = r1.mSets ++ resultB ∧
            ((∀ h ∈ setHandles, ∀ s ∈ r1.mSets, s.handle ≠ some h) →
              ∀ sB ∈ resultB, ∀ sA ∈ resultA, sB.handle ≠ sA.handle)) := by
  obtain ⟨hmaxA, hinA, stA, ra, hloopA, hlayA⟩ :=
    get_or_create_ok r0 r1 nativeA tidA aBindings resultA hfirst
  obtain ⟨ls, b1, b2, b3⟩ := resolve_sets_layout_dedup (ordered_bindings aBindings)
    (ordered_bindings bBindings) (ordered_bindings_schema_keys aBindings bBindings hkeys)
    _ r0 ra _ stA hloopA
  have hloopB := b3 r1 resolve_state.initial [] (by rw [hlayA]; simp)
  have hlayouts : stA.layouts = ls := by rw [b1]; simp [resolve_state.initial]
  have hrange := set_id_range_schema_keys aBindings bBindings hkeys
  have hrangeA : List.range' (aBindings.foldl (fun m b => min m b.mSetId) (2 ^ 32 - 1))
      (aBindings.foldl (fun m b => max m b.mSetId) 0 + 1 -
        aBindings.foldl (fun m b => min m b.mSetId) (2 ^ 32 - 1)) = set_id_range bBindings := by
    rw [← hrange]; rfl
  rw [hrangeA] at hloopB
  refine ⟨ls, stA, ra, hloopA, hlayouts, b2, hloopB, ?_⟩
  intro nativeB tidB resultB r2 hsecond
  have hmaxB : bBindings.foldl (fun m b => max m b.mSetId) 0 ≠ 2 ^ 32 - 1 := by
    rw [← foldl_max_schema_keys aBindings bBindings _ hkeys]; exact hmaxA
  obtain ⟨_, _, ls2, ps2, c3, c4, _, _⟩ := resolve_sets_ok _ _ r1 r1 _ _ hloopB
  have hps : ps2 = templates_of (ordered_bindings bBindings) (set_id_range bBindings) := by
    have := congrArg resolve_state.preparedSets c4
    simpa [resolve_state.extended, resolve_state.initial] using this.symm
  have hls : ls2 = ls := by
    have := congrArg resolve_state.layouts c4
    simpa [resolve_state.extended, resolve_state.initial] using this.symm
  have hlen : ls.length =
      (templates_of (ordered_bindings bBindings) (set_id_range bBindings)).length := by
    rw [← hls, ← hps]; exact c3
  rw [get_or_create_of_loop r1 r1 nativeB tidB bBindings ls _ hloopB hmaxB hlen] at hsecond
  constructor
  · by_cases hall : misses_of r1.mSets
        (templates_of (ordered_bindings bBindings) (set_id_range bBindings)) = []
    · rw [if_pos hall] at hsecond
      simp only [Prod.mk.injEq, Except.ok.injEq] at hsecond
      rw [hsecond.2]
    · rw [if_neg hall] at hsecond
      cases halloc : r1.alloc_new_descriptor_sets nativeB tidB
          ((miss_pairs r1.mSets ls (templates_of (ordered_bindings bBindings)
            (set_id_range bBindings))).map Prod.fst)
          (misses_of r1.mSets (templates_of (ordered_bindings bBindings)
            (set_id_range bBindings))) with
      | mk res2 rb =>
        cases res2 with
        | error e => simp [halloc] at hsecond
        | ok news =>
          simp only [halloc, Prod.mk.injEq, Except.ok.injEq] at hsecond
          obtain ⟨_, _, _, _, _, d4, _⟩ :=
            alloc_new_descriptor_sets_ok r1 rb nativeB tidB _ _ _ halloc
          rw [← hsecond.2, d4]
  · intro hne hmiss
    have hmisses := misses_of_all r1.mSets _ hmiss
    rw [hmisses, if_neg hne] at hsecond
    cases halloc : r1.alloc_new_descriptor_sets nativeB tidB
        ((miss_pairs r1.mSets ls (templates_of (ordered_bindings bBindings)
          (set_id_range bBindings))).map Prod.fst)
        (templates_of (ordered_bindings bBindings) (set_id_range bBindings)) with
    | mk res2 rb =>
      cases res2 with
      | error e => simp [halloc] at hsecond
      | ok news =>
        simp only [halloc, Prod.mk.injEq, Except.ok.injEq] at hsecond
        obtain ⟨h1, h2⟩ := hsecond
        obtain ⟨k, pool, hs, e1, e2, e3, e4, e5, e6, _⟩ :=
          alloc_new_descriptor_sets_carves r1 rb nativeB tidB _ _ _ halloc
        have hnews : news.length =
            (templates_of (ordered_bindings bBindings) (set_id_range bBindings)).length := by
          rw [e5]; simp [e4]
        rw [resolve_against_all_misses r1.mSets _ news hmiss hnews] at h1
        subst h1 h2
        refine ⟨k, pool, hs, e1, e2, e3, e4, e5, e6, ?_⟩
        intro hfresh sB hsB sA hsA heq
        rw [e5] at hsB
        obtain ⟨sp, hsp, rfl⟩ := List.mem_map.mp hsB
        rw [completed_handle] at heq
        exact hfresh sp.2 (List.of_mem_zip hsp).2 sA (hinA sA hsA) heq.symm

/-- Witness for C17 as amended: after the buffers 7 and 8 have been resolved at
the sets 0 and 1, the batch with the buffers 9 and 10 at the same sets and
slots resolves to the same layouts without allocating one, and its sets are
carved anew with the handles 102 and 103. -/
theorem layout_dedup_and_new_sets_witness :
    two_uniform_buffer_sets.map binding_data.schema_key =
      two_other_uniform_buffer_sets.map binding_data.schema_key ∧
    (∃ layouts : List descriptor_set_layout,
      (∀ l ∈ layouts, l.handle.isNone = false) ∧
      root.resolve_sets (ordered_bindings two_other_uniform_buffer_sets)
          (set_id_range two_other_uniform_buffer_sets) root.after_two_buffers
          resolve_state.initial =
        (.ok (resolve_state.initial.extended root.after_two_buffers.mSets layouts
          (templates_of (ordered_bindings two_other_uniform_buffer_sets)
            (set_id_range two_other_uniform_buffer_sets))), root.after_two_buffers)) ∧
    (root.after_two_buffers.get_or_create_descriptor_sets
        (out_of_pool_memory_first 0 [102, 103]) 0
        two_other_uniform_buffer_sets).1.toOption.map
          (fun result => result.map (fun s => s.handle)) =
      some [some 102, some 103] ∧
    (root.after_two_buffers.get_or_create_descriptor_sets
        (out_of_pool_memory_first 0 [102, 103]) 0
        two_other_uniform_buffer_sets).2.mLayouts = root.after_two_buffers.mLayouts :=
  ⟨by decide,
    by
      obtain ⟨layouts, _, _, _, _, h3, h4, _⟩ :=
        layout_dedup_and_new_sets (root.fresh 0) root.after_two_buffers
          (out_of_pool_memory_first 0 [100, 101]) 0 two_uniform_buffer_sets
          two_other_uniform_buffer_sets
          (((root.fresh 0).get_or_create_descriptor_sets (out_of_pool_memory_first 0 [100, 101])
            0 two_uniform_buffer_sets).1.toOption.getD [])
          (by decide) (by rfl)
      exact ⟨layouts, h3, h4⟩,
    by decide, by decide⟩

/-! ## The capacity join as a relation between requests -/

/-- C21, evaluated on the failing input: the pool holds five of kind 6 and five
of kind 7. It has capacity for the request of one of kind 6 and one of kind 7,
but not for the request of one of kind 7 alone, which requires of every kind at
most what the first request requires; both requests and the pool are strictly
increasing by kind. -/
theorem has_capacity_for_not_monotone :
    strictly_increasing_kinds [(⟨6, 1⟩ : DescriptorPoolSize), ⟨7, 1⟩] ∧
    strictly_increasing_kinds [(⟨7, 1⟩ : DescriptorPoolSize)] ∧
    strictly_increasing_kinds (pool_of [⟨6, 5⟩, ⟨7, 5⟩]).mRemainingCapacities ∧
    (∀ kind : Int, (capacity_of [⟨7, 1⟩] kind).getD 0 ≤
      (capacity_of [⟨6, 1⟩, ⟨7, 1⟩] kind).getD 0) ∧
    (pool_of [⟨6, 5⟩, ⟨7, 5⟩]).has_capacity_for ⟨[⟨6, 1⟩, ⟨7, 1⟩], 2⟩ = true ∧
    (pool_of [⟨6, 5⟩, ⟨7, 5⟩]).has_capacity_for ⟨[⟨7, 1⟩], 2⟩ = false := by
  refine ⟨by decide, by decide, by decide, ?_, by decide, by decide⟩
  intro kind
  by_cases h7 : kind = 7
  · subst h7; decide
  · have h : capacity_of [⟨7, 1⟩] kind = none := by
      unfold capacity_of
      simp [List.find?_cons, Ne.symm h7]
    rw [h]; simp

/-! ## A carve that the native allocator rejects -/

/-- C23: when the native allocator rejects the carve from a pool that has its
native pool, `descriptor_pool::allocate` fails with that error, and the pool
object is left as it was: the heap of pool objects after the call is the heap
before it, so the remaining per-kind capacities and the remaining set count of
the pool are unchanged. -/
theorem failed_carve_leaves_pool_untouched (r : root) (native : native_allocator)
    (address : Nat) (aLayouts : List descriptor_set_layout) (p : descriptor_pool) (e : VkError)
    (hp : r.mHeap[address]? = some p) (hcreated : p.mDescriptorPool.isNone = false)
    (hnative : native r.mCarveCalls.length = .error e) :
    p.allocate aLayouts (native r.mCarveCalls.length) = .error (.vulkan e) ∧
    (r.allocate_from native address aLayouts).1 = .error (.vulkan e) ∧
    (r.allocate_from native address aLayouts).2.mHeap = r.mHeap ∧
    ∃ q, (r.allocate_from native address aLayouts).2.mHeap[address]? = some q ∧
      q.mRemainingCapacities = p.mRemainingCapacities ∧
      q.mNumRemainingSets = p.mNumRemainingSets := by
  have hrun := allocate_from_error r native address aLayouts p e hp hcreated hnative
  refine ⟨?_, ?_, ?_, p, ?_, rfl, rfl⟩
  · unfold descriptor_pool.allocate
    simp only [hcreated, hnative, Bool.false_eq_true, if_false]
  · rw [hrun]
  · rw [hrun]; rfl
  · rw [hrun]; exact hp

/-- Witness for C23: the roomy pool and a native allocator that is out of pool
memory. -/
theorem failed_carve_leaves_pool_untouched_witness :
    (root.with_roomy_pool.allocate_from (out_of_pool_memory_first 1 [100]) 0
        [uniform_buffer_layout (some 1)]).1 = .error (.vulkan .outOfPoolMemory) ∧
    (root.with_roomy_pool.allocate_from (out_of_pool_memory_first 1 [100]) 0
        [uniform_buffer_layout (some 1)]).2.mHeap = root.with_roomy_pool.mHeap :=
  ⟨(failed_carve_leaves_pool_untouched root.with_roomy_pool (out_of_pool_memory_first 1 [100]) 0
      [uniform_buffer_layout (some 1)] (pool_of [⟨6, 100⟩]) .outOfPoolMemory rfl rfl rfl).2.1,
    (failed_carve_leaves_pool_untouched root.with_roomy_pool (out_of_pool_memory_first 1 [100]) 0
      [uniform_buffer_layout (some 1)] (pool_of [⟨6, 100⟩]) .outOfPoolMemory rfl rfl rfl).2.2.1⟩

/-- C24: `has_capacity_for` returns true exactly when, at every index below the
lengths of both the request list and the remaining-capacity list, the request
kind equals the pool kind and the requested count is at most the remaining
count; the lists need not be sorted, and the result is the one for the two
lists cut to the shorter of the two lengths. -/
theorem has_capacity_for_exact (p : descriptor_pool) (pRequest : descriptor_alloc_request) :
    (p.has_capacity_for pRequest = true ↔
      ∀ i, i < min pRequest.accumulated_pool_sizes.length p.mRemainingCapacities.length →
        (pRequest.accumulated_pool_sizes.getD i default).type =
            (p.mRemainingCapacities.getD i default).type ∧
          (pRequest.accumulated_pool_sizes.getD i default).descriptorCount ≤
            (p.mRemainingCapacities.getD i default).descriptorCount) ∧
    p.has_capacity_for pRequest =
      descriptor_pool.has_capacity_for
        { p with
          mRemainingCapacities :=
            p.mRemainingCapacities.take
              (min pRequest.accumulated_pool_sizes.length p.mRemainingCapacities.length) }
        { pRequest with
          mAccumulatedSizes :=
            pRequest.accumulated_pool_sizes.take
              (min pRequest.accumulated_pool_sizes.length p.mRemainingCapacities.length) } := by
  constructor
  · rw [has_capacity_for_iff]
    unfold descriptor_alloc_request.accumulated_pool_sizes entry_fits
    constructor
    · intro h i hi
      exact h i (by omega) (by omega)
    · intro h i h1 h2
      exact h i (by omega)
  · rw [Bool.eq_iff_iff, has_capacity_for_iff, has_capacity_for_iff]
    unfold descriptor_alloc_request.accumulated_pool_sizes entry_fits
    simp only [List.length_take]
    constructor
    · intro h i h1 h2
      have := h i (by omega) (by omega)
      simp only [List.getD_eq_getElem?_getD] at this ⊢
      rw [List.getElem?_take_of_lt (by omega), List.getElem?_take_of_lt (by omega)]
      exact this
    · intro h i h1 h2
      have := h i (by omega) (by omega)
      simp only [List.getD_eq_getElem?_getD] at this ⊢
      rw [List.getElem?_take_of_lt (by omega), List.getElem?_take_of_lt (by omega)] at this
      exact this

/-- C30: two pools with the same remaining per-kind capacities and two requests
with the same accumulated per-kind list get the same answer from
`has_capacity_for`, whatever the remaining set counts of the pools and the
`num_sets` of the requests are. -/
theorem has_capacity_for_ignores_set_counts (p q : descriptor_pool)
    (a b : descriptor_alloc_request)
    (hcaps : p.mRemainingCapacities = q.mRemainingCapacities)
    (hsizes : a.accumulated_pool_sizes = b.accumulated_pool_sizes) :
    p.has_capacity_for a = q.has_capacity_for b := by
  unfold descriptor_pool.has_capacity_for
  rw [hcaps, hsizes]

/-- Witness for C30: a pool with no set left is reported to have capacity for
a request of three sets, as the pool with eight sets left is for one set. -/
theorem has_capacity_for_ignores_set_counts_witness :
    ({ pool_of [⟨6, 5⟩] with mNumRemainingSets := 0 } : descriptor_pool).mNumRemainingSets <
      ((⟨[⟨6, 1⟩], 3⟩ : descriptor_alloc_request).num_sets : Int) ∧
    descriptor_pool.has_capacity_for { pool_of [⟨6, 5⟩] with mNumRemainingSets := 0 }
      ⟨[⟨6, 1⟩], 3⟩ = true :=
  ⟨by decide,
    (has_capacity_for_ignores_set_counts { pool_of [⟨6, 5⟩] with mNumRemainingSets := 0 }
      (pool_of [⟨6, 5⟩]) ⟨[⟨6, 1⟩], 3⟩ ⟨[⟨6, 1⟩], 1⟩ rfl rfl).trans (by decide)⟩

/-! ## The assertion on the insertion into the set cache -/

/-- C25, evaluated on the failing input: on empty caches the batch that binds
buffer 7 at slot 0 of set 0 and of set 1 has two templates, neither of which is
equal to an entry of the (empty) set cache, so both are passed to
`alloc_new_descriptor_sets`. The carve succeeds with the handles 100 and 101,
the first completed set is inserted, and the insertion of the second finds the
first, which is equal to it: the assertion on the insertion result fails and
the call ends fatally. -/
theorem equal_templates_of_one_batch_fail_insertion :
    templates_of (ordered_bindings same_buffer_at_two_sets)
        (set_id_range same_buffer_at_two_sets) =
      [uniform_buffer_set 7, { uniform_buffer_set 7 with mSetId := 1 }] ∧
    misses_of (root.fresh 0).mSets
        [uniform_buffer_set 7, { uniform_buffer_set 7 with mSetId := 1 }] =
      [uniform_buffer_set 7, { uniform_buffer_set 7 with mSetId := 1 }] ∧
    (uniform_buffer_set 7).eq { uniform_buffer_set 7 with mSetId := 1 } = true ∧
    ((root.fresh 0).get_or_create_descriptor_sets (out_of_pool_memory_first 0 [100, 101]) 0
        same_buffer_at_two_sets).1 = .error .assertion ∧
    ((root.fresh 0).get_or_create_descriptor_sets (out_of_pool_memory_first 0 [100, 101]) 0
        same_buffer_at_two_sets).2.mCarveCalls =
      [{ pool := 0, setLayouts := [some 1, some 1] }] ∧
    ((root.fresh 0).get_or_create_descriptor_sets (out_of_pool_memory_first 0 [100, 101]) 0
        same_buffer_at_two_sets).2.mSets = [(uniform_buffer_set 7).completed 100 0] := by
  refine ⟨by decide, by decide, by decide, by rfl, by decide, by decide⟩

/-! ## The loop over the set ids with its 32-bit counter -/

/-- When the largest set id is below the largest 32-bit value, the loop with
the 32-bit counter ends within `maxSetId + 1 - setId` iterations and does what
the loop over the list of the set ids from `setId` to `maxSetId` does. -/
theorem resolve_loop_eq_resolve_sets (orderedBindings : List binding_data) (maxSetId : Nat)
    (hmax : maxSetId < 2 ^ 32 - 1) :
    ∀ (count setId : Nat) (r : root) (st : resolve_state),
      count = maxSetId + 1 - setId →
      root.resolve_loop orderedBindings maxSetId count setId r st =
        some (root.resolve_sets orderedBindings (List.range' setId count) r st) := by
  intro count
  induction count with
  | zero =>
    intro setId r st hcount
    unfold root.resolve_loop
    have : ¬ setId ≤ maxSetId := by omega
    simp only [this, if_false]
    rfl
  | succ count ih =>
    intro setId r st hcount
    unfold root.resolve_loop
    have hle : setId ≤ maxSetId := by omega
    have hnext : u32 (setId + 1) = setId + 1 := by
      unfold u32
      apply Nat.mod_eq_of_lt
      omega
    simp only [hle, if_true, List.range'_succ]
    conv => rhs; unfold root.resolve_sets
    cases r.resolve_set orderedBindings setId st with
    | mk res r1 =>
      cases res with
      | error e => rfl
      | ok st1 =>
        simp only
        rw [hnext]
        exact ih (setId + 1) r1 st1 (by omega)

/-- When the largest set id is the largest 32-bit value, the loop condition
`setId <= maxSetId` holds for every value of the counter: the loop can only be
left by a failed assertion. -/
theorem resolve_loop_no_normal_end (orderedBindings : List binding_data) :
    ∀ (iterations setId : Nat) (r : root) (st : resolve_state)
      (out : Except Err resolve_state × root),
      setId ≤ 2 ^ 32 - 1 →
      root.resolve_loop orderedBindings (2 ^ 32 - 1) iterations setId r st = some out →
      ∃ e, out.1 = .error e := by
  intro iterations
  induction iterations with
  | zero =>
    intro setId r st out hset h
    unfold root.resolve_loop at h
    simp only [hset, if_true] at h
    cases h
  | succ iterations ih =>
    intro setId r st out hset h
    unfold root.resolve_loop at h
    simp only [hset, if_true] at h
    cases hbody : r.resolve_set orderedBindings setId st with
    | mk res r1 =>
      rw [hbody] at h
      cases res with
      | error e =>
        simp only [Option.some.injEq] at h
        rw [← h]
        exact ⟨e, rfl⟩
      | ok st1 =>
        simp only at h
        refine ih (u32 (setId + 1)) r1 st1 out ?_ h
        unfold u32
        have := Nat.mod_lt (setId + 1) (show 0 < 2 ^ 32 by norm_num)
        omega

/-- On a state on which every pass of the loop body succeeds and changes
nothing, the loop up to the largest 32-bit set id is still running after any
number of iterations. -/
theorem resolve_loop_never_ends (orderedBindings : List binding_data) (r : root)
    (hstable : ∀ setId st, ∃ st1, r.resolve_set orderedBindings setId st = (.ok st1, r)) :
    ∀ (iterations setId : Nat) (st : resolve_state), setId ≤ 2 ^ 32 - 1 →
      root.resolve_loop orderedBindings (2 ^ 32 - 1) iterations setId r st = none := by
  intro iterations
  induction iterations with
  | zero =>
    intro setId st hset
    unfold root.resolve_loop
    simp only [hset, if_true]
  | succ iterations ih =>
    intro setId st hset
    unfold root.resolve_loop
    obtain ⟨st1, hbody⟩ := hstable setId st
    simp only [hset, if_true, hbody]
    apply ih
    unfold u32
    have := Nat.mod_lt (setId + 1) (show 0 < 2 ^ 32 by norm_num)
    omega

theorem resolve_set_of_no_bindings (r : root) (orderedBindings : List binding_data)
    (setId : Nat) (st : resolve_state)
    (h : orderedBindings.filter (fun b => b.mSetId == setId) = []) :
    r.resolve_set orderedBindings setId st = (.ok st, r) := by
  unfold root.resolve_set
  rw [h]

/-- C28, evaluated on the failing input: for the batch with one uniform buffer
at set id 2^32 - 1 both `minSetId` and `maxSetId` are 2^32 - 1, and on empty
caches the loop `for (setId = minSetId; setId <= maxSetId; ++setId)` with its
32-bit counter is still running after any number of iterations, so it does not
end after `maxSetId - minSetId + 1 = 1` iteration; the call does not return. -/
theorem largest_set_id_loop_never_ends :
    largest_set_id_batch.foldl (fun m b => min m b.mSetId) (2 ^ 32 - 1) = 2 ^ 32 - 1 ∧
    largest_set_id_batch.foldl (fun m b => max m b.mSetId) 0 = 2 ^ 32 - 1 ∧
    (∀ iterations : Nat,
      root.resolve_loop (ordered_bindings largest_set_id_batch) (2 ^ 32 - 1) iterations
        (2 ^ 32 - 1) (root.fresh 0) resolve_state.initial = none) ∧
    ((root.fresh 0).get_or_create_descriptor_sets (out_of_pool_memory_first 0 [100]) 0
      largest_set_id_batch).1 = .error .diverges := by
  refine ⟨by decide, by decide, ?_, by rfl⟩
  have hfirst : (root.fresh 0).resolve_set (ordered_bindings largest_set_id_batch) (2 ^ 32 - 1)
      resolve_state.initial =
      (.ok (((root.fresh 0).resolve_set (ordered_bindings largest_set_id_batch) (2 ^ 32 - 1)
          resolve_state.initial).1.toOption.getD default),
        ((root.fresh 0).resolve_set (ordered_bindings largest_set_id_batch) (2 ^ 32 - 1)
          resolve_state.initial).2) := by
    rfl
  obtain ⟨_, _, _, _, _, _, _, hrerun⟩ := resolve_set_ok _ _ _ _ _ _ hfirst
  have hstable : ∀ setId st, ∃ st1,
      ((root.fresh 0).resolve_set (ordered_bindings largest_set_id_batch) (2 ^ 32 - 1)
        resolve_state.initial).2.resolve_set (ordered_bindings largest_set_id_batch) setId st =
        (.ok st1, ((root.fresh 0).resolve_set (ordered_bindings largest_set_id_batch)
          (2 ^ 32 - 1) resolve_state.initial).2) := by
    intro setId st
    by_cases hs : setId = 2 ^ 32 - 1
    · subst hs
      obtain ⟨ls2, _, h2⟩ := hrerun
        ((root.fresh 0).resolve_set (ordered_bindings largest_set_id_batch) (2 ^ 32 - 1)
          resolve_state.initial).2 st [] (List.append_nil _).symm
      exact ⟨_, h2⟩
    · refine ⟨st, resolve_set_of_no_bindings _ _ _ _ ?_⟩
      have hne : ¬ ((4294967295 : Nat) = setId) := by
        intro h
        apply hs
        rw [← h]
        norm_num
      simp [ordered_bindings, largest_set_id_batch, insert_ordered, uniform_buffer_binding, hne]
  intro iterations
  cases iterations with
  | zero =>
    unfold root.resolve_loop
    simp
  | succ n =>
    unfold root.resolve_loop
    rw [if_pos (le_refl _), hfirst]
    simp only
    exact resolve_loop_never_ends _ _ hstable n _ _ (by unfold u32; omega)

/-- For an empty list of bindings the loop over the set ids makes no
iteration, and the call returns the empty list and leaves the state as it
is. -/
theorem get_or_create_of_no_bindings (r : root) (native : native_allocator) (tid : Nat) :
    root.resolve_loop (ordered_bindings []) 0 0 (2 ^ 32 - 1) r resolve_state.initial =
      some (.ok resolve_state.initial, r) ∧
    r.get_or_create_descriptor_sets native tid [] = (.ok [], r) := by
  constructor
  · unfold root.resolve_loop
    rw [if_neg (by norm_num)]
  · rfl

/-! ## The hash of a descriptor set -/

theorem head_eq_of_first_elements_agree {α : Type} [DecidableEq α] (count : Nat) (l r : List α)
    (hcount : 0 < count) (h : first_elements_agree count l r = true) : l.head? = r.head? := by
  unfold first_elements_agree at h
  rw [List.all_eq_true] at h
  have h0 := h 0 (List.mem_range.mpr hcount)
  simp only [decide_eq_true_eq] at h0
  cases l with
  | nil =>
    cases r with
    | nil => rfl
    | cons b r => simp at h0
  | cons a l =>
    cases r with
    | nil => simp at h0
    | cons b r => simpa using h0

theorem hash_first_element_congr {α : Type} [DecidableEq α]
    (hash_combine : Nat → List hash_arg → Nat) (args : α → List hash_arg) (h count : Nat)
    (pl pr : Option (List α)) (hsome : pl.isSome = pr.isSome)
    (hagree : ∀ li ri, pl = some li → pr = some ri → first_elements_agree count li ri = true) :
    hash_first_element hash_combine args h count pl =
      hash_first_element hash_combine args h count pr := by
  unfold hash_first_element
  cases pl with
  | none =>
    cases pr with
    | none => rfl
    | some ri => cases hsome
  | some li =>
    cases pr with
    | none => cases hsome
    | some ri =>
      by_cases hc : 0 < count
      · simp only [hc, if_true]
        rw [head_eq_of_first_elements_agree count li ri hc (hagree li ri rfl rfl)]
      · simp only [hc, if_false]

theorem hash_next_pointer_congr (hash_combine : Nat → List hash_arg → Nat) (h : Nat)
    (descriptorType : Int) (pl pr : Option WriteDescriptorSetAccelerationStructureKHR)
    (hsome : pl.isSome = pr.isSome)
    (hagree : ∀ li ri, pl = some li → pr = some ri →
      descriptorType = eAccelerationStructureKHR →
      li.accelerationStructureCount = ri.accelerationStructureCount ∧
        first_elements_agree li.accelerationStructureCount li.pAccelerationStructures
          ri.pAccelerationStructures = true) :
    hash_next_pointer hash_combine h descriptorType pl =
      hash_next_pointer hash_combine h descriptorType pr := by
  unfold hash_next_pointer
  cases pl with
  | none =>
    cases pr with
    | none => rfl
    | some ri => cases hsome
  | some li =>
    cases pr with
    | none => cases hsome
    | some ri =>
      by_cases hk : descriptorType = eAccelerationStructureKHR
      · obtain ⟨hcnt, hfirst⟩ := hagree li ri rfl rfl hk
        simp only [hk, if_true, hcnt]
        by_cases hc : 0 < ri.accelerationStructureCount
        · simp only [hc, if_true]
          rw [hcnt] at hfirst
          rw [head_eq_of_first_elements_agree _ _ _ hc hfirst]
        · simp only [hc, if_false]
      · simp only [hk, if_false]

/-- Two writes that `operator==` accepts in both argument orders add the same
to the hash. -/
theorem hash_write_eq_of_writes_agree (hash_combine : Nat → List hash_arg → Nat) (h : Nat)
    (l r : WriteDescriptorSet) (hlr : writes_agree l r = true) (hrl : writes_agree r l = true) :
    hash_write hash_combine h l = hash_write hash_combine h r := by
  unfold writes_agree at hlr hrl
  by_cases h1 : l.dstBinding = r.dstBinding
  · by_cases h2 : l.dstArrayElement = r.dstArrayElement
    · by_cases h3 : l.descriptorCount = r.descriptorCount
      · by_cases h4 : l.descriptorType = r.descriptorType
        · simp only [h1, h2, h3, h4, ne_eq, not_true_eq_false, if_false,
            Bool.and_eq_true] at hlr hrl
          obtain ⟨⟨⟨a1, a2⟩, a3⟩, a4⟩ := hlr
          obtain ⟨⟨⟨b1, b2⟩, b3⟩, b4⟩ := hrl
          have i1 : l.pImageInfo.isSome = r.pImageInfo.isSome ∧
              ∀ li ri, l.pImageInfo = some li → r.pImageInfo = some ri →
                first_elements_agree r.descriptorCount li ri = true := by
            cases hl : l.pImageInfo with
            | none =>
              cases hr : r.pImageInfo with
              | none => exact ⟨rfl, fun _ _ e => by cases e⟩
              | some ri => simp [hl, hr] at b1
            | some li =>
              cases hr : r.pImageInfo with
              | none => simp [hl, hr] at a1
              | some ri =>
                simp only [hl, hr] at a1
                exact ⟨rfl, fun _ _ e1 e2 => by cases e1; cases e2; exact a1⟩
          have i2 : l.pBufferInfo.isSome = r.pBufferInfo.isSome ∧
              ∀ li ri, l.pBufferInfo = some li → r.pBufferInfo = some ri →
                first_elements_agree r.descriptorCount li ri = true := by
            cases hl : l.pBufferInfo with
            | none =>
              cases hr : r.pBufferInfo with
              | none => exact ⟨rfl, fun _ _ e => by cases e⟩
              | some ri => simp [hl, hr] at b2
            | some li =>
              cases hr : r.pBufferInfo with
              | none => simp [hl, hr] at a2
              | some ri =>
                simp only [hl, hr] at a2
                exact ⟨rfl, fun _ _ e1 e2 => by cases e1; cases e2; exact a2⟩
          have i3 : l.pTexelBufferView.isSome = r.pTexelBufferView.isSome ∧
              ∀ li ri, l.pTexelBufferView = some li → r.pTexelBufferView = some ri →
                first_elements_agree r.descriptorCount li ri = true := by
            cases hl : l.pTexelBufferView with
            | none =>
              cases hr : r.pTexelBufferView with
              | none => exact ⟨rfl, fun _ _ e => by cases e⟩
              | some ri => simp [hl, hr] at b3
            | some li =>
              cases hr : r.pTexelBufferView with
              | none => simp [hl, hr] at a3
              | some ri =>
                simp only [hl, hr] at a3
                exact ⟨rfl, fun _ _ e1 e2 => by cases e1; cases e2; exact a3⟩
          have i4 : l.pNext.isSome = r.pNext.isSome ∧
              ∀ li ri, l.pNext = some li → r.pNext = some ri →
                r.descriptorType = eAccelerationStructureKHR →
                li.accelerationStructureCount = ri.accelerationStructureCount ∧
                  first_elements_agree li.accelerationStructureCount li.pAccelerationStructures
                    ri.pAccelerationStructures = true := by
            cases hl : l.pNext with
            | none =>
              cases hr : r.pNext with
              | none => exact ⟨rfl, fun _ _ e => by cases e⟩
              | some ri => simp [hl, hr] at b4
            | some li =>
              cases hr : r.pNext with
              | none => simp [hl, hr] at a4
              | some ri =>
                simp only [hl, hr] at a4
                refine ⟨rfl, ?_⟩
                intro li2 ri2 e1 e2 hk
                cases e1; cases e2
                simp only [hk, if_true] at a4
                by_cases hcnt : li.accelerationStructureCount = ri.accelerationStructureCount
                · simp only [hcnt, ne_eq, not_true_eq_false, if_false] at a4
                  exact ⟨hcnt, by rw [hcnt]; exact a4⟩
                · simp [hcnt] at a4
          unfold hash_write
          simp only [h1, h2, h3, h4]
          rw [hash_first_element_congr hash_combine _ _ r.descriptorCount l.pImageInfo
              r.pImageInfo i1.1 i1.2,
            hash_first_element_congr hash_combine _ _ r.descriptorCount l.pBufferInfo
              r.pBufferInfo i2.1 i2.2,
            hash_first_element_congr hash_combine _ _ r.descriptorCount l.pTexelBufferView
              r.pTexelBufferView i3.1 i3.2]
          exact hash_next_pointer_congr hash_combine _ r.descriptorType l.pNext r.pNext
            i4.1 i4.2
        · simp [h4] at hlr
      · simp [h3] at hlr
    · simp [h2] at hlr
  · simp [h1] at hlr

/-- Two descriptor sets that `operator==` accepts in both argument orders have
the same hash, whatever `ak::hash_combine` is. -/
theorem hash_eq_of_eq_both (hash_combine : Nat → List hash_arg → Nat) (a b : descriptor_set)
    (hab : a.eq b = true) (hba : b.eq a = true) :
    a.hash hash_combine = b.hash hash_combine := by
  unfold descriptor_set.eq at hab hba
  unfold descriptor_set.hash
  generalize a.mOrderedDescriptorDataWrites = la at hab hba
  generalize b.mOrderedDescriptorDataWrites = lb at hab hba
  generalize (0 : Nat) = seed
  induction la generalizing lb seed with
  | nil =>
    cases lb with
    | nil => rfl
    | cons y ys => simp at hab
  | cons x xs ih =>
    cases lb with
    | nil => simp at hab
    | cons y ys =>
      by_cases hlen : xs.length = ys.length
      · simp only [List.length_cons, hlen, ne_eq, not_true_eq_false, if_false,
          List.zip_cons_cons, List.all_cons, Bool.and_eq_true] at hab hba
        simp only [List.foldl_cons]
        rw [hash_write_eq_of_writes_agree hash_combine seed x y hab.1 hba.1]
        apply ih ys
        · simp only [hlen, ne_eq, not_true_eq_false, if_false]
          exact hab.2
        · simp only [hlen, ne_eq, not_true_eq_false, if_false]
          exact hba.2
      · simp [hlen] at hab

/-- C26, evaluated on the failing input: `operator==` accepts the template with
a uniform-buffer write without a resource on the left and the same write with
buffer 7 on the right, but the hash of the right one is the hash of the left
one with the three values of the buffer info combined into it, whatever
`ak::hash_combine` is; with the usual `hash_combine` the two hashes differ. -/
theorem equal_sets_with_different_hash :
    resource_less_set.eq (uniform_buffer_set 7) = true ∧
    (∀ hash_combine : Nat → List hash_arg → Nat,
      (uniform_buffer_set 7).hash hash_combine =
        hash_combine (resource_less_set.hash hash_combine)
          [.handle 7, .device_size 0, .device_size 64]) ∧
    resource_less_set.hash golden_ratio_hash_combine ≠
      (uniform_buffer_set 7).hash golden_ratio_hash_combine := by
  refine ⟨by decide, fun _ => rfl, by decide⟩

theorem relabelled_hash (hash_combine : Nat → List hash_arg → Nat) (s : descriptor_set)
    (aHandle aPool : Option Nat) (setId : Nat) (dstSet : Option Nat) :
    (s.relabelled aHandle aPool setId dstSet).hash hash_combine = s.hash hash_combine := by
  unfold descriptor_set.hash descriptor_set.relabelled
  simp only [List.foldl_map]
  rfl

/-- C27: for a set `s` that `descriptor_set::prepare` has built, a native
handle and a pool, `link_to_handle_and_pool` followed by `update_data_pointers`
succeeds, and the completed set compares equal to `s` under `operator==` in
both argument orders and has the hash of `s`, whatever `ak::hash_combine` is.
Moreover equality (on either side) and hash are the same for `s` and for `s`
with any other native handle, owning pool, set id and destination-set field of
the writes. -/
theorem completing_keeps_content_identity (hash_combine : Nat → List hash_arg → Nat)
    (first : binding_data) (rest : List binding_data) (s : descriptor_set)
    (hs : descriptor_set.prepare first rest = .ok s) (setHandle pool : Nat) :
    (s.link_to_handle_and_pool (some setHandle) (some pool)).update_data_pointers =
      .ok (s.completed setHandle pool) ∧
    (s.completed setHandle pool).eq s = true ∧
    s.eq (s.completed setHandle pool) = true ∧
    (s.completed setHandle pool).hash hash_combine = s.hash hash_combine ∧
    ∀ (t : descriptor_set) (aHandle aPool : Option Nat) (setId : Nat) (dstSet : Option Nat),
      (s.relabelled aHandle aPool setId dstSet).eq t = s.eq t ∧
      t.eq (s.relabelled aHandle aPool setId dstSet) = t.eq s ∧
      (s.relabelled aHandle aPool setId dstSet).hash hash_combine = s.hash hash_combine := by
  have hfixed := prepare_fixed first rest s hs
  have h1 : (s.completed setHandle pool).eq s = true := by
    rw [completed_eq_left, hfixed]; exact eq_refl s
  have h2 : s.eq (s.completed setHandle pool) = true := by
    rw [completed_eq_right, hfixed]; exact eq_refl s
  refine ⟨link_update_data_pointers s setHandle pool, h1, h2,
    hash_eq_of_eq_both hash_combine _ _ h1 h2, ?_⟩
  intro t aHandle aPool setId dstSet
  refine ⟨?_, ?_, relabelled_hash hash_combine s aHandle aPool setId dstSet⟩
  · exact eq_congr_left _ _ t (fun w => { w with dstSet := dstSet }) (fun _ _ => rfl) rfl
  · exact eq_congr_right _ _ t (fun w => { w with dstSet := dstSet }) (fun _ _ => rfl) rfl

/-- Witness for C27: the template of one uniform buffer, completed with the
handle 100 of pool 0. -/
theorem completing_keeps_content_identity_witness :
    descriptor_set.prepare (uniform_buffer_binding 0 0 7) [] = .ok (uniform_buffer_set 7) ∧
    ((uniform_buffer_set 7).completed 100 0).eq (uniform_buffer_set 7) = true ∧
    (uniform_buffer_set 7).eq ((uniform_buffer_set 7).completed 100 0) = true ∧
    ((uniform_buffer_set 7).completed 100 0).hash golden_ratio_hash_combine =
      (uniform_buffer_set 7).hash golden_ratio_hash_combine :=
  ⟨rfl,
    (completing_keeps_content_identity golden_ratio_hash_combine (uniform_buffer_binding 0 0 7)
      [] (uniform_buffer_set 7) rfl 100 0).2.1,
    (completing_keeps_content_identity golden_ratio_hash_combine (uniform_buffer_binding 0 0 7)
      [] (uniform_buffer_set 7) rfl 100 0).2.2.1,
    (completing_keeps_content_identity golden_ratio_hash_combine (uniform_buffer_binding 0 0 7)
      [] (uniform_buffer_set 7) rfl 100 0).2.2.2.1⟩

/-! ## The assertion before each carve attempt -/

theorem retry_loop_length_mismatch (native : native_allocator) (tid : Nat)
    (aLayouts : List descriptor_set_layout) (numPreparedSets maxTries : Nat) (r : root)
    (allocRequest : descriptor_alloc_request) (poolToTry : Nat) (p : descriptor_pool)
    (setHandles : List Nat)
    (hp : r.mHeap[poolToTry]? = some p) (hcap : p.has_capacity_for allocRequest = true)
    (hcreated : p.mDescriptorPool.isNone = false)
    (hnative : native r.mCarveCalls.length = .ok setHandles)
    (hlen : setHandles.length ≠ numPreparedSets) :
    (root.retry_loop native tid aLayouts numPreparedSets (maxTries + 1) r allocRequest
      poolToTry).1 = .error .assertion := by
  conv => lhs; unfold root.retry_loop
  simp only [hp, hcap, Bool.not_true, Bool.false_eq_true, if_false,
    allocate_from_ok r native poolToTry aLayouts p _ hp hcreated hnative, hlen, ne_eq,
    not_false_eq_true, if_true]

/-- The failures of the retry loop when it starts with a pool that has capacity
for the request and the scaled requests hold the requested counts: an error of
the native allocator other than out-of-pool-memory, or the assertion on the
number of handles that a successful carve has returned. The assertions on
`has_capacity_for` before the attempts do not fail. -/
theorem retry_loop_error_cases (native : native_allocator) (tid : Nat)
    (aLayouts : List descriptor_set_layout) (numPreparedSets : Nat) :
    ∀ (maxTries : Nat) (r : root) (allocRequest : descriptor_alloc_request) (poolToTry : Nat)
      (p : descriptor_pool),
      r.pools_created → r.mHeap[poolToTry]? = some p →
      p.has_capacity_for allocRequest = true → p.mDescriptorPool.isNone = false →
      scaling_fits r.sDescriptorPoolPreallocFactor allocRequest →
      (2 ≤ maxTries → scaling_fits r.sDescriptorPoolPreallocFactor
        (allocRequest.multiply_size_requirements 2)) →
      ∀ e, (root.retry_loop native tid aLayouts numPreparedSets maxTries r allocRequest
          poolToTry).1 = .error e →
        (∃ code, e = .vulkan (.other code)) ∨
        (e = .assertion ∧ ∃ k setHandles, native k = .ok setHandles ∧
          setHandles.length ≠ numPreparedSets) := by
  intro maxTries
  induction maxTries with
  | zero =>
    intro r allocRequest poolToTry p _ _ _ _ _ _ e he
    unfold root.retry_loop at he
    cases he
  | succ maxTries ih =>
    intro r allocRequest poolToTry p hpools hp hcap hcreated hfits hfits2 e he
    cases hn : native r.mCarveCalls.length with
    | ok setHandles =>
      by_cases hlen : setHandles.length = numPreparedSets
      · rw [retry_loop_success native tid aLayouts numPreparedSets maxTries r allocRequest
          poolToTry p setHandles hp hcap hcreated hn hlen] at he
        cases he
      · rw [retry_loop_length_mismatch native tid aLayouts numPreparedSets maxTries r
          allocRequest poolToTry p setHandles hp hcap hcreated hn hlen] at he
        cases he
        right
        exact ⟨rfl, _, setHandles, hn, hlen⟩
    | error v =>
      cases v with
      | other code =>
        rw [retry_loop_other_error native tid aLayouts numPreparedSets maxTries r allocRequest
          poolToTry p code hp hcap hcreated hn] at he
        cases he
        left
        exact ⟨code, rfl⟩
      | outOfPoolMemory =>
        have hnext : scaling_fits r.sDescriptorPoolPreallocFactor
            (request_after_failure maxTries allocRequest) := by
          unfold request_after_failure
          by_cases hm : maxTries = 1
          · rw [if_pos hm]; exact hfits2 (by omega)
          · rw [if_neg hm]; exact hfits
        obtain ⟨r1, poolToTry1, p1, a1, a2, _, _, _, _, a7, _, _, a10, a11, a12, _⟩ :=
          retry_loop_failed_attempt native tid aLayouts numPreparedSets maxTries r allocRequest
            poolToTry p hpools hp hcap hcreated hn hnext
        rw [a1] at he
        refine ih r1 (request_after_failure maxTries allocRequest) poolToTry1 p1 a2 a10 a11 a12
          (by rw [a7]; exact hnext) ?_ e he
        intro h2
        rw [a7]
        unfold request_after_failure
        have hm : ¬ maxTries = 1 := by omega
        rw [if_neg hm]
        exact hfits2 (by omega)

theorem scaling_fits_of_no_overflow (factor : Nat) (request : descriptor_alloc_request)
    (hfactor : 1 ≤ factor)
    (hno : ∀ s ∈ request.accumulated_pool_sizes, s.descriptorCount * factor < 2 ^ 32) :
    scaling_fits factor request := by
  intro s hs
  unfold u32
  rw [Nat.mod_eq_of_lt (hno s hs)]
  exact Nat.le_mul_of_pos_right _ hfactor

theorem scaling_fits_doubled_of_no_overflow (factor : Nat) (request : descriptor_alloc_request)
    (hfactor : 1 ≤ factor)
    (hno : ∀ s ∈ request.accumulated_pool_sizes, s.descriptorCount * 2 * factor < 2 ^ 32) :
    scaling_fits factor (request.multiply_size_requirements 2) := by
  intro s hs
  unfold descriptor_alloc_request.multiply_size_requirements
    descriptor_alloc_request.accumulated_pool_sizes at hs
  simp only [List.mem_map] at hs
  obtain ⟨s0, hs0, rfl⟩ := hs
  have h0 := hno s0 hs0
  have hle : s0.descriptorCount * 2 ≤ s0.descriptorCount * 2 * factor :=
    Nat.le_mul_of_pos_right _ hfactor
  simp only
  unfold u32
  rw [Nat.mod_eq_of_lt (lt_of_le_of_lt hle h0), Nat.mod_eq_of_lt h0]
  exact hle

/-- C29: let the preallocation factor be at least 1 and let no count of the
request overflow 32 bits when multiplied by it, on a heap in which every pool
object has its native pool. Then the pool that
`get_descriptor_pool_for_layouts` returns for the request, found or newly
created, on either vendor branch, has capacity for the request. If moreover no
count overflows when doubled and multiplied by the factor, then the retry loop
of `alloc_new_descriptor_sets`, started with the pool selected for the request,
fails only with an error of the native allocator other than out-of-pool-memory
or with the assertion on the number of handles returned by a successful carve:
the assertion `has_capacity_for` holds before each of its attempts. -/
theorem pre_carve_assertion_holds (r : root) (native : native_allocator) (tid : Nat)
    (locals : List Nat) (aLayouts : List descriptor_set_layout) (numPreparedSets : Nat)
    (aAllocRequest : descriptor_alloc_request) (aPoolName : Int) (aRequestNewPool : Bool)
    (hpools : r.pools_created)
    (hfactor : 1 ≤ r.sDescriptorPoolPreallocFactor)
    (hno : ∀ s ∈ aAllocRequest.accumulated_pool_sizes,
      s.descriptorCount * r.sDescriptorPoolPreallocFactor < 2 ^ 32) :
    (∃ p, (r.get_descriptor_pool_for_layouts tid locals aAllocRequest aPoolName
        aRequestNewPool).2.mHeap[(r.get_descriptor_pool_for_layouts tid locals aAllocRequest
          aPoolName aRequestNewPool).1]? = some p ∧
      p.has_capacity_for aAllocRequest = true) ∧
    ((∀ s ∈ aAllocRequest.accumulated_pool_sizes,
        s.descriptorCount * 2 * r.sDescriptorPoolPreallocFactor < 2 ^ 32) →
      ∀ e, (root.retry_loop native tid aLayouts numPreparedSets 3
          (r.get_descriptor_pool_for_layouts tid [] aAllocRequest stch false).2 aAllocRequest
          (r.get_descriptor_pool_for_layouts tid [] aAllocRequest stch false).1).1 = .error e →
        (∃ code, e = .vulkan (.other code)) ∨
        (e = .assertion ∧ ∃ k setHandles, native k = .ok setHandles ∧
          setHandles.length ≠ numPreparedSets)) := by
  have hfits := scaling_fits_of_no_overflow _ aAllocRequest hfactor hno
  constructor
  · obtain ⟨_, _, p, h1, h2, _⟩ := get_descriptor_pool_for_layouts_returns r tid locals
      aAllocRequest aPoolName aRequestNewPool hpools hfits
    exact ⟨p, h1, h2⟩
  · intro hno2 e he
    have hfits2 := scaling_fits_doubled_of_no_overflow _ aAllocRequest hfactor hno2
    obtain ⟨_, _, _, _, k5⟩ := get_descriptor_pool_for_layouts_keeps r tid [] aAllocRequest
      stch false
    obtain ⟨c1, _, p, c3, c4, c5⟩ := get_descriptor_pool_for_layouts_returns r tid []
      aAllocRequest stch false hpools hfits
    exact retry_loop_error_cases native tid aLayouts numPreparedSets 3 _ aAllocRequest _ p c1
      c3 c4 c5 (by rw [k5]; exact hfits) (fun _ => by rw [k5]; exact hfits2) e he

/-- Witness for C29: an empty directory with preallocation factor 5 and a
request of one uniform buffer; the native allocator answers the first carve
with two handles where one set was prepared, so the loop fails on the number of
handles, not on `has_capacity_for`. -/
theorem pre_carve_assertion_holds_witness :
    (∃ p, ((root.fresh 0).get_descriptor_pool_for_layouts 0 [] ⟨[⟨6, 1⟩], 1⟩ stch
        false).2.mHeap[((root.fresh 0).get_descriptor_pool_for_layouts 0 [] ⟨[⟨6, 1⟩], 1⟩ stch
          false).1]? = some p ∧
      p.has_capacity_for ⟨[⟨6, 1⟩], 1⟩ = true) ∧
    ((∃ code, Err.assertion = .vulkan (.other code)) ∨
      (Err.assertion = .assertion ∧ ∃ k setHandles,
        out_of_pool_memory_first 0 [100, 101] k = .ok setHandles ∧ setHandles.length ≠ 1)) :=
  ⟨(pre_carve_assertion_holds (root.fresh 0) (out_of_pool_memory_first 0 [100, 101]) 0 []
      [uniform_buffer_layout (some 1)] 1 ⟨[⟨6, 1⟩], 1⟩ stch false (fun p hp => by cases hp)
      (by decide) (by decide)).1,
    (pre_carve_assertion_holds (root.fresh 0) (out_of_pool_memory_first 0 [100, 101]) 0 []
      [uniform_buffer_layout (some 1)] 1 ⟨[⟨6, 1⟩], 1⟩ stch false (fun p hp => by cases hp)
      (by decide) (by decide)).2 (by decide) .assertion (by rfl)⟩

/-! ## The first resolve against empty caches -/

theorem prepare_loop_writes (beginSetId : Nat) :
    ∀ (range : List binding_data) (result p : descriptor_set),
      descriptor_set.prepare_loop beginSetId range result = .ok p →
      p.mOrderedDescriptorDataWrites.map
          (fun w => (w.dstBinding, w.descriptorCount, w.descriptorType)) =
        result.mOrderedDescriptorDataWrites.map
            (fun w => (w.dstBinding, w.descriptorCount, w.descriptorType)) ++
          range.map (fun b => (b.mLayoutBinding.binding, b.mLayoutBinding.descriptorCount,
            b.mLayoutBinding.descriptorType))
  | [], result, p, h => by
    unfold descriptor_set.prepare_loop at h
    cases h
    simp
  | b :: rest, result, p, h => by
    unfold descriptor_set.prepare_loop at h
    split at h
    · cases h
    · split at h
      · cases h
      · split at h
        · cases h
        · refine (prepare_loop_writes beginSetId rest _ p h).trans ?_
          have k1 := (binding_data_writes_kept b result).1
          have k2 := (binding_data_writes_kept b (b.descriptor_image_info result).2).2.1
          have k3 := (binding_data_writes_kept b
            (b.descriptor_buffer_info (b.descriptor_image_info result).2).2).2.2.1
          have k4 := (binding_data_writes_kept b
            (b.texel_buffer_view_info
              (b.descriptor_buffer_info (b.descriptor_image_info result).2).2).2).2.2.2
          simp only [List.map_append, List.map_cons, List.map_nil, List.append_assoc,
            List.singleton_append]
          congr 1
          exact congrArg (List.map _) (k4.trans (k3.trans (k2.trans k1)))

/-- The writes of a set that `descriptor_set::prepare` has built carry the slot
ids, counts and kinds of the bindings, in order. -/
theorem prepare_writes (first : binding_data) (rest : List binding_data) (p : descriptor_set)
    (h : descriptor_set.prepare first rest = .ok p) :
    p.mOrderedDescriptorDataWrites.map
        (fun w => (w.dstBinding, w.descriptorCount, w.descriptorType)) =
      (first :: rest).map (fun b => (b.mLayoutBinding.binding, b.mLayoutBinding.descriptorCount,
        b.mLayoutBinding.descriptorType)) := by
  unfold descriptor_set.prepare at h
  cases hloop : descriptor_set.prepare_loop first.mSetId (first :: rest)
      { descriptor_set.empty with mSetId := first.mSetId } with
  | error e => simp [hloop] at h
  | ok x =>
    simp only [hloop] at h
    have hx := prepare_loop_writes _ _ _ x hloop
    unfold descriptor_set.update_data_pointers at h
    split at h
    · simp only [Except.ok.injEq] at h
      rw [← h]
      unfold descriptor_set.with_data_pointers
      simp only [List.map_map, Function.comp_def]
      rw [hx]
      rfl
    · cases h

theorem sanity_check_of_maps (layout : descriptor_set_layout) (p : descriptor_set)
    (h : p.mOrderedDescriptorDataWrites.map
        (fun w => (w.dstBinding, w.descriptorCount, w.descriptorType)) =
      layout.mOrderedBindings.map (fun b => (b.binding, b.descriptorCount, b.descriptorType))) :
    sanity_check layout p = true := by
  unfold sanity_check
  generalize layout.mOrderedBindings = bs at h
  generalize p.mOrderedDescriptorDataWrites = ws at h
  induction bs generalizing ws with
  | nil =>
    cases ws with
    | nil => rfl
    | cons w ws => simp at h
  | cons b bs ih =>
    cases ws with
    | nil => simp at h
    | cons w ws =>
      simp only [List.map_cons, List.cons.injEq, Prod.mk.injEq] at h
      have := ih ws h.2
      simp only [Bool.and_eq_true, decide_eq_true_eq] at this ⊢
      refine ⟨by simp [this.1], ?_⟩
      simp only [List.zip_cons_cons, List.all_cons, Bool.and_eq_true, decide_eq_true_eq]
      exact ⟨⟨⟨h.1.1.symm, h.1.2.1.symm⟩, h.1.2.2.symm⟩, this.2⟩

/-- The body of the loop over the set ids appends a layout and a template that
pass the sanity check of `alloc_new_descriptor_sets`. -/
theorem resolve_set_sane (r r1 : root) (orderedBindings : List binding_data) (setId : Nat)
    (st st1 : resolve_state)
    (h : r.resolve_set orderedBindings setId st = (.ok st1, r1))
    (hlen : st.layouts.length = st.preparedSets.length)
    (hsane : (st.layouts.zip st.preparedSets).all (fun lp => sanity_check lp.1 lp.2) = true) :
    st1.layouts.length = st1.preparedSets.length ∧
    (st1.layouts.zip st1.preparedSets).all (fun lp => sanity_check lp.1 lp.2) = true := by
  unfold root.resolve_set at h
  cases hrange : orderedBindings.filter (fun b => b.mSetId == setId) with
  | nil =>
    simp only [hrange, Prod.mk.injEq, Except.ok.injEq] at h
    rw [← h.1]; exact ⟨hlen, hsane⟩
  | cons first rest =>
    simp only [hrange] at h
    cases hlp : descriptor_set_layout.prepare (first :: rest) with
    | error e => simp [hlp] at h
    | ok preparedLayout =>
      simp only [hlp] at h
      cases hgl : r.get_or_alloc_layout preparedLayout with
      | mk res ra =>
        cases res with
        | error e => simp [hgl] at h
        | ok layout =>
          simp only [hgl] at h
          cases hsp : descriptor_set.prepare first rest with
          | error e => simp [hsp] at h
          | ok preparedSet =>
            simp only [hsp] at h
            have hfound := (get_or_alloc_layout_found r ra preparedLayout layout hgl).1
            have heq := List.find?_some hfound
            unfold descriptor_set_layout.eq at heq
            simp only [decide_eq_true_eq] at heq
            have hpl : preparedLayout.mOrderedBindings =
                (first :: rest).map (fun b => b.mLayoutBinding) := by
              unfold descriptor_set_layout.prepare at hlp
              split at hlp
              · simp only [Except.ok.injEq] at hlp
                rw [← hlp]
              · cases hlp
            have hone : sanity_check layout preparedSet = true := by
              apply sanity_check_of_maps
              rw [prepare_writes first rest preparedSet hsp, ← heq, hpl, List.map_map]
              rfl
            have hboth : (st.layouts ++ [layout]).length = (st.preparedSets ++ [preparedSet]).length ∧
                ((st.layouts ++ [layout]).zip (st.preparedSets ++ [preparedSet])).all
                  (fun lp => sanity_check lp.1 lp.2) = true := by
              refine ⟨by simp [hlen], ?_⟩
              rw [List.zip_append hlen, List.all_append, hsane]
              simp [hone]
            cases hc : ra.get_descriptor_set_from_cache preparedSet with
            | some c =>
              simp only [hc, Prod.mk.injEq, Except.ok.injEq] at h
              rw [← h.1]; exact hboth
            | none =>
              simp only [hc, Prod.mk.injEq, Except.ok.injEq] at h
              rw [← h.1]; exact hboth

/-- The layouts and templates that a successful loop over the set ids has
collected pass the sanity check of `alloc_new_descriptor_sets`, pair by pair. -/
theorem resolve_sets_sane (orderedBindings : List binding_data) :
    ∀ (setIds : List Nat) (r r1 : root) (st st1 : resolve_state),
      root.resolve_sets orderedBindings setIds r st = (.ok st1, r1) →
      st.layouts.length = st.preparedSets.length →
      (st.layouts.zip st.preparedSets).all (fun lp => sanity_check lp.1 lp.2) = true →
      st1.layouts.length = st1.preparedSets.length ∧
      (st1.layouts.zip st1.preparedSets).all (fun lp => sanity_check lp.1 lp.2) = true := by
  intro setIds
  induction setIds with
  | nil =>
    intro r r1 st st1 h hlen hsane
    unfold root.resolve_sets at h
    simp only [Prod.mk.injEq, Except.ok.injEq] at h
    rw [← h.1]; exact ⟨hlen, hsane⟩
  | cons setId setIds ih =>
    intro r r1 st st1 h hlen hsane
    unfold root.resolve_sets at h
    cases hhead : r.resolve_set orderedBindings setId st with
    | mk res ra =>
      cases res with
      | error e => simp [hhead] at h
      | ok sta =>
        simp only [hhead] at h
        obtain ⟨s1, s2⟩ := resolve_set_sane r ra orderedBindings setId st sta hhead hlen hsane
        exact ih ra r1 sta st1 h s1 s2

/-- On an empty pool directory and an empty heap `get_descriptor_pool_for_layouts`
creates the first pool object and files it under the key of the caller. -/
theorem get_descriptor_pool_for_layouts_on_empty (r : root) (tid : Nat) (locals : List Nat)
    (aAllocRequest : descriptor_alloc_request) (aPoolName : Int) (aRequestNewPool : Bool)
    (hdir : r.mDescriptorPools = []) (hheap : r.mHeap = []) :
    r.get_descriptor_pool_for_layouts tid locals aAllocRequest aPoolName aRequestNewPool =
      (0, { r with
        mNextHandle := r.mNextHandle + 1
        mHeap := [(r.new_pool_for aAllocRequest).1]
        mDescriptorPools := [(⟨tid, aPoolName⟩, [0])] }) := by
  have hsurv : r.surviving_pools locals ⟨tid, aPoolName⟩ = [] := by
    unfold root.surviving_pools bucket_of
    rw [hdir]; rfl
  rcases get_descriptor_pool_for_layouts_cases r tid locals aAllocRequest aPoolName
    aRequestNewPool with ⟨_, sptr, p, hmem, _⟩ | ⟨_, heq⟩
  · rw [hsurv] at hmem
    cases hmem
  · rw [heq, hsurv, hheap, hdir]
    rfl

theorem pairwise_completed (pool : Nat) (ps : List descriptor_set) (setHandles : List Nat)
    (hlen : setHandles.length = ps.length)
    (hfixed : ∀ p ∈ ps, p.with_data_pointers = p)
    (hpair : ps.Pairwise (fun a b => b.eq a = false)) :
    (ps.zip setHandles).Pairwise
      (fun a b => (b.1.completed b.2 pool).eq (a.1.completed a.2 pool) = false) := by
  have hmap : (ps.zip setHandles).map Prod.fst = ps :=
    List.map_fst_zip ps setHandles (by omega)
  have hp : ((ps.zip setHandles).map Prod.fst).Pairwise (fun a b => b.eq a = false) := by
    rw [hmap]; exact hpair
  rw [List.pairwise_map] at hp
  refine List.Pairwise.imp_of_mem ?_ hp
  intro a b ha hb hab
  have ha1 : a.1 ∈ ps := (List.of_mem_zip ha).1
  have hb1 : b.1 ∈ ps := (List.of_mem_zip hb).1
  rw [completed_eq_left, completed_eq_right, hfixed a.1 ha1, hfixed b.1 hb1]
  exact hab

/-- The first attempt of `alloc_new_descriptor_sets` on an empty pool directory:
when the native allocator accepts the call, one pool object is created, all
sets are carved from it by one call, and the completed sets are returned and
cached. -/
theorem alloc_new_descriptor_sets_on_empty (r : root) (native : native_allocator) (tid : Nat)
    (aLayouts : List descriptor_set_layout) (aPreparedSets : List descriptor_set)
    (setHandles : List Nat)
    (hdir : r.mDescriptorPools = []) (hheap : r.mHeap = [])
    (hlen : aLayouts.length = aPreparedSets.length)
    (hsane : (aLayouts.zip aPreparedSets).all (fun lp => sanity_check lp.1 lp.2) = true)
    (hne : aPreparedSets ≠ [])
    (hfits : scaling_fits r.sDescriptorPoolPreallocFactor
      (descriptor_alloc_request.ofLayouts aLayouts))
    (hnative : native r.mCarveCalls.length = .ok setHandles)
    (hhandles : setHandles.length = aPreparedSets.length)
    (hfresh : ∀ sp ∈ aPreparedSets.zip setHandles, ∀ c ∈ r.mSets,
      (sp.1.completed sp.2 0).eq c = false)
    (hpair : (aPreparedSets.zip setHandles).Pairwise
      (fun a b => (b.1.completed b.2 0).eq (a.1.completed a.2 0) = false)) :
    r.alloc_new_descriptor_sets native tid aLayouts aPreparedSets =
      (.ok ((aPreparedSets.zip setHandles).map (fun sp => sp.1.completed sp.2 0)),
        { r with
          mNextHandle := r.mNextHandle + 1
          mDescriptorPools := [(⟨tid, stch⟩, [0])]
          mCarveCalls :=
            r.mCarveCalls ++ [{ pool := 0, setLayouts := aLayouts.map (fun l => l.handle) }]
          mHeap :=
            [{ (r.new_pool_for (descriptor_alloc_request.ofLayouts aLayouts)).1 with
              mRemainingCapacities :=
                update_pool_stats
                  (r.new_pool_for
                    (descriptor_alloc_request.ofLayouts aLayouts)).1.mRemainingCapacities
                  aLayouts
              mNumRemainingSets :=
                (r.new_pool_for
                  (descriptor_alloc_request.ofLayouts aLayouts)).1.mNumRemainingSets -
                  (aLayouts.length : Int) }]
          mSets :=
            r.mSets ++ (aPreparedSets.zip setHandles).map (fun sp => sp.1.completed sp.2 0) }) := by
  unfold root.alloc_new_descriptor_sets
  rw [if_neg (not_not.mpr hlen)]
  simp only [hsane, Bool.not_true, Bool.false_eq_true, if_false]
  rw [get_descriptor_pool_for_layouts_on_empty r tid [] _ stch false hdir hheap]
  have hretry := retry_loop_success native tid aLayouts aPreparedSets.length 2
    { r with
      mNextHandle := r.mNextHandle + 1
      mHeap := [(r.new_pool_for (descriptor_alloc_request.ofLayouts aLayouts)).1]
      mDescriptorPools := [(⟨tid, stch⟩, [0])] }
    (descriptor_alloc_request.ofLayouts aLayouts) 0
    (r.new_pool_for (descriptor_alloc_request.ofLayouts aLayouts)).1 setHandles rfl
    (new_pool_for_has_capacity r _ hfits) rfl hnative hhandles
  simp only
  rw [hretry]
  unfold root.finish_alloc
  have hpos : setHandles.length ≠ 0 := by
    rw [hhandles]
    intro h0
    exact hne (List.length_eq_zero.mp h0)
  simp only [hpos, if_false]
  refine (complete_all_of_fresh 0 _ _ [] ?_ hpair).trans ?_
  · exact hfresh
  · rfl

theorem get_or_alloc_layout_device (r : root) (aPreparedLayout : descriptor_set_layout) :
    (r.get_or_alloc_layout aPreparedLayout).2.vendorID = r.vendorID ∧
    (r.get_or_alloc_layout aPreparedLayout).2.sDescriptorPoolPreallocFactor =
      r.sDescriptorPoolPreallocFactor := by
  unfold root.get_or_alloc_layout root.allocate_descriptor_set_layout
  cases r.mLayouts.find? (fun l => aPreparedLayout.eq l) with
  | some it =>
    simp only
    split <;> exact ⟨rfl, rfl⟩
  | none =>
    simp only
    split <;> split <;> exact ⟨rfl, rfl⟩

theorem resolve_set_device (r : root) (orderedBindings : List binding_data) (setId : Nat)
    (st : resolve_state) :
    (r.resolve_set orderedBindings setId st).2.vendorID = r.vendorID ∧
    (r.resolve_set orderedBindings setId st).2.sDescriptorPoolPreallocFactor =
      r.sDescriptorPoolPreallocFactor := by
  unfold root.resolve_set
  cases orderedBindings.filter (fun b => b.mSetId == setId) with
  | nil => exact ⟨rfl, rfl⟩
  | cons first rest =>
    simp only
    cases descriptor_set_layout.prepare (first :: rest) with
    | error e => exact ⟨rfl, rfl⟩
    | ok preparedLayout =>
      simp only
      obtain ⟨k1, k2⟩ := get_or_alloc_layout_device r preparedLayout
      cases hgl : r.get_or_alloc_layout preparedLayout with
      | mk res ra =>
        rw [hgl] at k1 k2
        simp only at k1 k2
        cases res with
        | error e => exact ⟨k1, k2⟩
        | ok layout =>
          simp only
          cases descriptor_set.prepare first rest with
          | error e => exact ⟨k1, k2⟩
          | ok preparedSet =>
            simp only
            cases ra.get_descriptor_set_from_cache preparedSet with
            | some cachedSet => exact ⟨k1, k2⟩
            | none => exact ⟨k1, k2⟩

/-- The loop over the set ids keeps the vendor id of the device and the
preallocation factor. -/
theorem resolve_sets_device (orderedBindings : List binding_data) :
    ∀ (setIds : List Nat) (r : root) (st : resolve_state),
      (root.resolve_sets orderedBindings setIds r st).2.vendorID = r.vendorID ∧
      (root.resolve_sets orderedBindings setIds r st).2.sDescriptorPoolPreallocFactor =
        r.sDescriptorPoolPreallocFactor := by
  intro setIds
  induction setIds with
  | nil => intro r st; exact ⟨rfl, rfl⟩
  | cons setId setIds ih =>
    intro r st
    unfold root.resolve_sets
    obtain ⟨k1, k2⟩ := resolve_set_device r orderedBindings setId st
    cases hhead : r.resolve_set orderedBindings setId st with
    | mk res ra =>
      rw [hhead] at k1 k2
      simp only at k1 k2
      cases res with
      | error e => exact ⟨k1, k2⟩
      | ok st1 =>
        simp only
        obtain ⟨j1, j2⟩ := ih ra st1
        exact ⟨j1.trans k1, j2.trans k2⟩

theorem miss_pairs_of_empty_cache (ls : List descriptor_set_layout) (ps : List descriptor_set)
    (hlen : ls.length = ps.length) :
    (miss_pairs [] ls ps).map Prod.fst = ls ∧ misses_of [] ps = ps := by
  constructor
  · unfold miss_pairs
    have hall : (ls.zip ps).filter
        (fun lp => (([] : List descriptor_set).find? (fun s => lp.2.eq s)).isNone) =
        ls.zip ps := List.filter_eq_self.mpr (fun _ _ => rfl)
    rw [hall]
    exact List.map_fst_zip ls ps (by omega)
  · exact misses_of_all [] ps (fun _ _ => rfl)

/-- C22 (amended): on a state with empty set cache, pool directory and heap, for
a batch whose loop over the set ids has passed its assertions and collected at
least one template, the templates being pairwise unequal under `operator==` in
both orders, the largest set id not being 2^32-1, the native allocator
answering the next call with one handle per template, and the factor being at
least 1 without 32-bit overflow in the scaling: `get_or_create_descriptor_sets`
succeeds and returns the completed templates in order, no template was found
in the set cache, the heap holds exactly one pool object afterwards, exactly one
native call was added, issued against that pool with one layout per template,
and the new sets are the whole set cache. The one pool is created with the
batch's per-kind requirements times the factor when the vendor id is not
0x12d2, and with the requirements themselves when it is 0x12d2. -/
theorem first_resolve_on_empty_state (r ra : root) (native : native_allocator) (tid : Nat)
    (aBindings : List binding_data) (st : resolve_state) (setHandles : List Nat)
    (hsets : r.mSets = []) (hdir : r.mDescriptorPools = []) (hheap : r.mHeap = [])
    (hloop : root.resolve_sets (ordered_bindings aBindings) (set_id_range aBindings) r
      resolve_state.initial = (.ok st, ra))
    (hmax : aBindings.foldl (fun m b => max m b.mSetId) 0 ≠ 2 ^ 32 - 1)
    (hk : st.preparedSets ≠ [])
    (hdiff : st.preparedSets.Pairwise (fun a b => a.eq b = false ∧ b.eq a = false))
    (hnative : native r.mCarveCalls.length = .ok setHandles)
    (hhandles : setHandles.length = st.preparedSets.length)
    (hfactor : 1 ≤ r.sDescriptorPoolPreallocFactor)
    (hno : ∀ s ∈ (descriptor_alloc_request.ofLayouts st.layouts).accumulated_pool_sizes,
      s.descriptorCount * r.sDescriptorPoolPreallocFactor < 2 ^ 32) :
    (r.get_or_create_descriptor_sets native tid aBindings).1 =
      .ok ((st.preparedSets.zip setHandles).map (fun sp => sp.1.completed sp.2 0)) ∧
    (∀ v ∈ st.validSets, v = false) ∧
    (r.get_or_create_descriptor_sets native tid aBindings).2.mHeap.length = 1 ∧
    (r.get_or_create_descriptor_sets native tid aBindings).2.mCarveCalls =
      r.mCarveCalls ++ [{ pool := 0, setLayouts := st.layouts.map (fun l => l.handle) }] ∧
    st.layouts.length = st.preparedSets.length ∧
    (r.get_or_create_descriptor_sets native tid aBindings).2.mSets =
      (st.preparedSets.zip setHandles).map (fun sp => sp.1.completed sp.2 0) ∧
    (0x12d2 ≠ r.vendorID →
      (r.get_or_create_descriptor_sets native tid aBindings).2.mHeap.map
          (fun p => p.mInitialCapacities) =
        [(descriptor_alloc_request.ofLayouts st.layouts).accumulated_pool_sizes.map
          (fun s => { type := s.type
                      descriptorCount := s.descriptorCount * r.sDescriptorPoolPreallocFactor })]) ∧
    (0x12d2 = r.vendorID →
      (r.get_or_create_descriptor_sets native tid aBindings).2.mHeap.map
          (fun p => p.mInitialCapacities) =
        [(descriptor_alloc_request.ofLayouts st.layouts).accumulated_pool_sizes]) := by
  obtain ⟨a1, _, ls, ps, a3, a4, afixed, _⟩ := resolve_sets_ok _ _ r ra _ st hloop
  have hl : st.layouts = ls := by rw [a4]; simp [resolve_state.extended, resolve_state.initial]
  have hp : st.preparedSets = ps := by
    rw [a4]; simp [resolve_state.extended, resolve_state.initial]
  have hv : st.validSets = ps.map (fun p => (r.mSets.find? (fun s => p.eq s)).isSome) := by
    rw [a4]; simp [resolve_state.extended, resolve_state.initial]
  obtain ⟨_, hsane⟩ := resolve_sets_sane _ _ r ra _ st hloop rfl rfl
  obtain ⟨_, k2, k3, k4, _⟩ := resolve_sets_keeps (ordered_bindings aBindings)
    (set_id_range aBindings) r resolve_state.initial
  rw [hloop] at k2 k3 k4
  simp only at k2 k3 k4
  rw [hl] at hsane hno ⊢
  rw [hp] at hk hdiff hhandles hsane ⊢
  rw [a4] at hloop
  have hgc := get_or_create_of_loop r ra native tid aBindings ls ps hloop hmax a3
  rw [hsets] at hgc
  obtain ⟨m1, m2⟩ := miss_pairs_of_empty_cache ls ps a3
  rw [m1, m2, if_neg hk] at hgc
  have hfits := scaling_fits_of_no_overflow r.sDescriptorPoolPreallocFactor _ hfactor hno
  obtain ⟨d1, d2⟩ := resolve_sets_device (ordered_bindings aBindings)
    (set_id_range aBindings) r resolve_state.initial
  rw [hloop] at d1 d2
  simp only at d1 d2
  have hpair : ps.Pairwise (fun a b => b.eq a = false) :=
    List.Pairwise.imp (fun hab => hab.2) hdiff
  have halloc := alloc_new_descriptor_sets_on_empty ra native tid ls ps setHandles
    (k3.trans hdir) (k2.trans hheap) a3 hsane hk (by rw [d2]; exact hfits)
    (by rw [k4]; exact hnative) hhandles
    (by intro sp _ c hc; rw [a1, hsets] at hc; cases hc)
    (pairwise_completed 0 ps setHandles hhandles afixed hpair)
  rw [halloc] at hgc
  simp only at hgc
  rw [resolve_against_all_misses [] ps _ (fun _ _ => rfl) (by simp [hhandles])] at hgc
  rw [hgc]
  refine ⟨rfl, ?_, rfl, ?_, a3, ?_, ?_, ?_⟩
  · intro v hvm
    rw [hv, hsets] at hvm
    simp only [List.find?_nil, Option.isSome_none, List.mem_map] at hvm
    obtain ⟨_, _, h⟩ := hvm
    exact h.symm
  · simp only [k4]
  · simp only [a1, hsets, List.nil_append]
  · intro hvendor
    simp only [List.map_cons, List.map_nil, new_pool_for_initial, d1, d2]
    unfold initial_capacities_for
    rw [if_neg hvendor]
    unfold descriptor_alloc_request.multiply_size_requirements
      descriptor_alloc_request.accumulated_pool_sizes
    simp only [List.cons.injEq, and_true]
    apply List.map_congr_left
    intro s hs
    have := hno s hs
    unfold u32
    rw [Nat.mod_eq_of_lt this]
  · intro hvendor
    simp only [List.map_cons, List.map_nil, new_pool_for_initial, d1, d2]
    unfold initial_capacities_for
    rw [if_pos hvendor]

/-- C22, counterexample: on a device of vendor 0x12d2 with empty caches and an
empty pool directory, the batch of set 0 (one sampled image at slot 0, one
uniform buffer at slot 1) and set 1 (one storage buffer) is resolved with two
sets carved by one call from the one new pool, without a cache hit, but with
the preallocation factor 5 that pool is created with the capacities (1, 1, 1),
the requirements themselves, not with (1, 1, 1) × 5. -/
theorem first_pool_unscaled_on_vendor_branch :
    (root.fresh 0x12d2).sDescriptorPoolPreallocFactor = 5 ∧
    ((root.fresh 0x12d2).get_or_create_descriptor_sets (out_of_pool_memory_first 0 [100, 101]) 0
        image_and_buffers_batch).1.toOption.map (fun result => result.map (fun s => s.handle)) =
      some [some 100, some 101] ∧
    ((image_and_buffers_loop 0x12d2).1.toOption.map (fun st => st.validSets)) =
      some [false, false] ∧
    ((root.fresh 0x12d2).get_or_create_descriptor_sets (out_of_pool_memory_first 0 [100, 101]) 0
        image_and_buffers_batch).2.mCarveCalls =
      [{ pool := 0, setLayouts := [some 1, some 2] }] ∧
    ((root.fresh 0x12d2).get_or_create_descriptor_sets (out_of_pool_memory_first 0 [100, 101]) 0
        image_and_buffers_batch).2.mHeap.map (fun p => p.mInitialCapacities) =
      [[{ type := 2, descriptorCount := 1 }, { type := 6, descriptorCount := 1 },
        { type := 7, descriptorCount := 1 }]] := by
  decide

/-- Witness for C22 (amended): the batch of set 0 (one sampled image at slot 0,
one uniform buffer at slot 1) and set 1 (one storage buffer) on empty caches of
a device of vendor 0 with factor 5: two sets with the handles 100 and 101, no
cache hit, one pool created with (1, 1, 1) × 5, one call for two layouts. -/
theorem first_resolve_on_empty_state_witness :
    ((root.fresh 0).get_or_create_descriptor_sets (out_of_pool_memory_first 0 [100, 101]) 0
        image_and_buffers_batch).1.toOption.map (fun result => result.map (fun s => s.handle)) =
      some [some 100, some 101] ∧
    (∀ v ∈ ((image_and_buffers_loop 0).1.toOption.getD default).validSets, v = false) ∧
    ((root.fresh 0).get_or_create_descriptor_sets (out_of_pool_memory_first 0 [100, 101]) 0
        image_and_buffers_batch).2.mHeap.length = 1 ∧
    ((root.fresh 0).get_or_create_descriptor_sets (out_of_pool_memory_first 0 [100, 101]) 0
        image_and_buffers_batch).2.mCarveCalls =
      [{ pool := 0, setLayouts := [some 1, some 2] }] ∧
    ((root.fresh 0).get_or_create_descriptor_sets (out_of_pool_memory_first 0 [100, 101]) 0
        image_and_buffers_batch).2.mHeap.map (fun p => p.mInitialCapacities) =
      [[{ type := 2, descriptorCount := 5 }, { type := 6, descriptorCount := 5 },
        { type := 7, descriptorCount := 5 }]] :=
  have h := first_resolve_on_empty_state (root.fresh 0) (image_and_buffers_loop 0).2
    (out_of_pool_memory_first 0 [100, 101]) 0 image_and_buffers_batch
    ((image_and_buffers_loop 0).1.toOption.getD default) [100, 101] rfl rfl rfl (by rfl)
    (by decide) (by decide) (by decide) rfl (by decide) (by decide) (by decide)
  ⟨by rw [h.1]; decide, h.2.1, h.2.2.1, h.2.2.2.1.trans (by decide),
    (h.2.2.2.2.2.2.1 (by decide)).trans (by decide)⟩

end ak
